import Mathlib

/-!
# Loop-filter level picking (`av1/encoder/picklpf.c`)

A shallow embedding of `av1_get_max_filter_level`, `try_filter_frame`,
`search_filter_level` and `av1_pick_filter_level`, followed by theorems about them.

Conventions of the embedding.

* C `int` and `int64_t` values are `Int`.  All arithmetic of the embedded functions stays far
  inside the machine ranges for the values an encoder produces (levels are at most 63, a sum of
  squared errors of a frame is far below `2^62`), so the operations are the exact ones.
  C division `/` is `Int.tdiv` (truncation), `>>` is the arithmetic shift `>>>`.
* The compile-time switch `CONFIG_LOOPFILTER_LEVEL` is a boolean field of `Operators`; both
  variants of every function are embedded.
* The deblocking operator, the distortion operator and the quantizer lookup are not part of the
  file; they are arbitrary functions carried by `Operators`.
* A `while` loop is a function with a fuel argument that yields `none` when the fuel runs out.
-/

namespace Picklpf

/-! ## Constants, small helpers and data -/

/-- Modelled from the spec: the constant `MAX_LOOP_FILTER` of `av1/common/av1_loopfilter.h`
is not among the sources; the spec gives the strength axis as `0..63`. -/
def MAX_LOOP_FILTER : Int := 63

/-- Modelled from the spec: the frame type `KEY_FRAME` (an enumerator declared outside the
sources); only equality with it is ever tested. -/
def KEY_FRAME : Int := 0

/-- Modelled from the spec: the transform mode `ONLY_4X4` ("restricted to the smallest size"),
declared outside the sources; only equality with it is ever tested. -/
def ONLY_4X4 : Int := 0

/-- Modelled from the spec: bit depth 8 (`AOM_BITS_8`, declared outside the sources). -/
def AOM_BITS_8 : Int := 8

/-- Modelled from the spec: bit depth 10 (`AOM_BITS_10`, declared outside the sources). -/
def AOM_BITS_10 : Int := 10

/-- Modelled from the spec: bit depth 12 (`AOM_BITS_12`, declared outside the sources). -/
def AOM_BITS_12 : Int := 12

/-- Modelled from the spec: the four picking methods of `pick_filter_level`
(`LPF_PICK_METHOD`, declared outside the sources), in their declaration order. -/
inductive LPF_PICK_METHOD where
  | LPF_PICK_FROM_FULL_IMAGE
  | LPF_PICK_FROM_SUBIMAGE
  | LPF_PICK_FROM_Q
  | LPF_PICK_MINIMAL_LPF
  deriving DecidableEq, Repr

/-- The integer value of a picking method, used by the test `method >= LPF_PICK_FROM_Q`. -/
def LPF_PICK_METHOD.toInt : LPF_PICK_METHOD → Int
  | .LPF_PICK_FROM_FULL_IMAGE => 0
  | .LPF_PICK_FROM_SUBIMAGE => 1
  | .LPF_PICK_FROM_Q => 2
  | .LPF_PICK_MINIMAL_LPF => 3

/-- Modelled from the spec: `clamp(value, low, high)` of `aom_dsp/aom_dsp_common.h`
("clamped to [0, max]"): `value < low ? low : (value > high ? high : value)`. -/
def clamp (value low high : Int) : Int :=
  if value < low then low else if value > high then high else value

/-- Modelled from the spec: the helper `AOMMIN(x, y)`, `x < y ? x : y`. -/
def AOMMIN (x y : Int) : Int := if x < y then x else y

/-- Modelled from the spec: the helper `AOMMAX(x, y)`, `x > y ? x : y`. -/
def AOMMAX (x y : Int) : Int := if x > y then x else y

/-- Modelled from the spec: `ROUND_POWER_OF_TWO(value, n)` of `aom_ports/mem.h`, the
fixed-point rounding `(value + (1 << (n - 1))) >> n` behind the "fixed integer formula". -/
def ROUND_POWER_OF_TWO (value : Int) (n : Nat) : Int :=
  (value + (((1 : Nat) <<< (n - 1) : Nat) : Int)) >>> n

/-- A frame buffer: the three pixel planes of a `YV12_BUFFER_CONFIG`. -/
structure YV12_BUFFER_CONFIG where
  y_buffer : List Nat
  u_buffer : List Nat
  v_buffer : List Nat
  deriving DecidableEq, Repr

/-- The pixel plane `plane` of a frame buffer (`0` luma, `1` chroma U, `2` chroma V). -/
def YV12_BUFFER_CONFIG.plane (f : YV12_BUFFER_CONFIG) (plane : Int) : List Nat :=
  if plane = 0 then f.y_buffer else if plane = 1 then f.u_buffer
  else if plane = 2 then f.v_buffer else []

/-- The filter level state `struct loopfilter`: the scalar `filter_level` of the build without
`CONFIG_LOOPFILTER_LEVEL`, and `filter_level[0]`, `filter_level[1]`, `filter_level_u`,
`filter_level_v` of the build with it. -/
structure loopfilter where
  filter_level : Int
  filter_level_0 : Int
  filter_level_1 : Int
  filter_level_u : Int
  filter_level_v : Int
  sharpness_level : Int
  deriving DecidableEq, Repr

/-- The fields of `AV1_COMP` (and of its `common`, `oxcf` and `twopass` members) that the
file reads or writes. -/
structure AV1_COMP where
  /-- The field `cpi->oxcf.pass`. -/
  pass : Int
  /-- The field `cpi->oxcf.sharpness`. -/
  sharpness : Int
  /-- The field `cpi->twopass.section_intra_rating`. -/
  section_intra_rating : Int
  /-- The field `cm->frame_type`. -/
  frame_type : Int
  /-- The field `cm->tx_mode`. -/
  tx_mode : Int
  /-- The field `cm->base_qindex`. -/
  base_qindex : Int
  /-- The field `cm->bit_depth`. -/
  bit_depth : Int
  /-- The field `cm->use_highbitdepth`. -/
  use_highbitdepth : Int
  /-- The field `cm->lf`. -/
  lf : loopfilter
  /-- The buffer `*cm->frame_to_show`, the reconstructed frame. -/
  frame_to_show : YV12_BUFFER_CONFIG
  /-- The buffer `cpi->last_frame_uf`, the unfiltered snapshot. -/
  last_frame_uf : YV12_BUFFER_CONFIG
  deriving DecidableEq, Repr

/-- The build switch and the external collaborators.
Modelled from the spec: `apply_deblock_filter(frame, level_params, plane, partial)`,
`sse(plane_a, plane_b, plane_index, high_bitdepth)` and
`ac_quant_value(base_q_index, plane, bit_depth)` are outside the sources; each is an arbitrary
function of the arguments the call passes.  The deblocking operator yields the new content of
the frame it is given; it has no access to the snapshot `last_frame_uf`. -/
structure Operators where
  /-- The compile-time switch `CONFIG_LOOPFILTER_LEVEL`. -/
  CONFIG_LOOPFILTER_LEVEL : Bool
  /-- The call `av1_loop_filter_frame(frame, cm, xd, filt_level, y_only, partial_frame)` of
  the build without the switch: the frame after filtering. -/
  av1_loop_filter_frame : YV12_BUFFER_CONFIG → Int → Int → Int → YV12_BUFFER_CONFIG
  /-- The call `av1_loop_filter_frame(frame, cm, xd, level0, level1, plane, partial_frame)`
  of the build with the switch: the frame after filtering. -/
  av1_loop_filter_frame_lvl :
    YV12_BUFFER_CONFIG → Int → Int → Int → Int → YV12_BUFFER_CONFIG
  /-- The call `aom_get_sse_plane(a, b, plane, highbd)`. -/
  aom_get_sse_plane : YV12_BUFFER_CONFIG → YV12_BUFFER_CONFIG → Int → Int → Int
  /-- The call `av1_ac_quant_Q3(qindex, delta, bit_depth)`. -/
  av1_ac_quant_Q3 : Int → Int → Int → Int

/-- How a call ends: a normal return, a failed `assert` (with the value a build without
assertions goes on with), or an exhausted fuel. -/
inductive Outcome (α : Type) where
  | returned (a : α)
  | assert_failed (a : α)
  | out_of_fuel
  deriving DecidableEq, Repr

/-! ## The embedded functions -/

/-- Modelled from the spec: `copy_plane(src, dst, plane)` for the luma plane
(`aom_yv12_copy_y`, outside the sources). -/
def aom_yv12_copy_y (src_bc dst_bc : YV12_BUFFER_CONFIG) : YV12_BUFFER_CONFIG :=
  { dst_bc with y_buffer := src_bc.y_buffer }

/-- Modelled from the spec: `copy_plane(src, dst, plane)` for the U plane
(`aom_yv12_copy_u`, outside the sources). -/
def aom_yv12_copy_u (src_bc dst_bc : YV12_BUFFER_CONFIG) : YV12_BUFFER_CONFIG :=
  { dst_bc with u_buffer := src_bc.u_buffer }

/-- Modelled from the spec: `copy_plane(src, dst, plane)` for the V plane
(`aom_yv12_copy_v`, outside the sources). -/
def aom_yv12_copy_v (src_bc dst_bc : YV12_BUFFER_CONFIG) : YV12_BUFFER_CONFIG :=
  { dst_bc with v_buffer := src_bc.v_buffer }

/-- The function `yv12_copy_plane`: the new content of `dst_bc`.  For a plane outside `0..2`
the source only asserts; no caller passes one, and nothing is copied. -/
def yv12_copy_plane (src_bc dst_bc : YV12_BUFFER_CONFIG) (plane : Int) : YV12_BUFFER_CONFIG :=
  if plane = 0 then aom_yv12_copy_y src_bc dst_bc
  else if plane = 1 then aom_yv12_copy_u src_bc dst_bc
  else if plane = 2 then aom_yv12_copy_v src_bc dst_bc
  else dst_bc

/-- The function `av1_get_max_filter_level`. -/
def av1_get_max_filter_level (cpi : AV1_COMP) : Int :=
  if cpi.pass = 2 then
    if cpi.section_intra_rating > 8 then Int.tdiv (MAX_LOOP_FILTER * 3) 4 else MAX_LOOP_FILTER
  else MAX_LOOP_FILTER

/-- The function `try_filter_frame`: the measured error and the encoder state afterwards.
Without the build switch the arguments `plane` and `dir` do not exist and plane 0 is used.
The assertion `plane >= 0 && plane <= 2` holds at every call: `search_filter_level` leaves
through its own `switch` before it calls with another plane. -/
def try_filter_frame (ops : Operators) (sd : YV12_BUFFER_CONFIG) (cpi : AV1_COMP)
    (filt_level partial_frame plane dir : Int) : Int × AV1_COMP :=
  if ops.CONFIG_LOOPFILTER_LEVEL then
    let filter_level0 :=
      if plane = 0 ∧ dir = 1 then cpi.lf.filter_level_0 else filt_level
    let filter_level1 :=
      if plane = 0 ∧ dir = 0 then cpi.lf.filter_level_1 else filt_level
    let filtered :=
      ops.av1_loop_filter_frame_lvl cpi.frame_to_show filter_level0 filter_level1 plane
        partial_frame
    let highbd := cpi.use_highbitdepth
    let filt_err := ops.aom_get_sse_plane sd filtered plane highbd
    -- Re-instate the unfiltered frame
    (filt_err, { cpi with frame_to_show := yv12_copy_plane cpi.last_frame_uf filtered plane })
  else
    let filtered := ops.av1_loop_filter_frame cpi.frame_to_show filt_level 1 partial_frame
    let highbd := cpi.use_highbitdepth
    let filt_err := ops.aom_get_sse_plane sd filtered 0 highbd
    -- Re-instate the unfiltered frame
    (filt_err, { cpi with frame_to_show := yv12_copy_plane cpi.last_frame_uf filtered 0 })

/-- Entry `i` of the array `ss_err`. -/
def ss_get (ss_err : List Int) (i : Int) : Int := ss_err.getD i.toNat 0

/-- The array `ss_err` after `ss_err[i] = v`. -/
def ss_set (ss_err : List Int) (i : Int) (v : Int) : List Int := ss_err.set i.toNat v

/-- The local variables of `search_filter_level` together with the encoder state.  The field
`tried` is a ghost: the levels passed to `try_filter_frame` so far, in call order. -/
structure SearchState where
  cpi : AV1_COMP
  filt_mid : Int
  filter_step : Int
  filt_direction : Int
  best_err : Int
  filt_best : Int
  ss_err : List Int
  tried : List Int
  deriving DecidableEq, Repr

/-- The guarded evaluation `if (ss_err[lvl] < 0) ss_err[lvl] = try_filter_frame(..., lvl, ...)`. -/
def search_eval (ops : Operators) (sd : YV12_BUFFER_CONFIG) (partial_frame plane dir : Int)
    (lvl : Int) (s : SearchState) : SearchState :=
  if ss_get s.ss_err lvl < 0 then
    let r := try_filter_frame ops sd s.cpi lvl partial_frame plane dir
    { s with cpi := r.2, ss_err := ss_set s.ss_err lvl r.1, tried := s.tried ++ [lvl] }
  else s

/-- The bias of one iteration: "Bias against raising loop filter in favor of lowering it". -/
def search_bias (s : SearchState) : Int :=
  let bias := (s.best_err >>> (15 - Int.tdiv s.filt_mid 8).toNat) * s.filter_step
  let bias :=
    if s.cpi.pass = 2 ∧ s.cpi.section_intra_rating < 20 then
      Int.tdiv (bias * s.cpi.section_intra_rating) 20
    else bias
  -- yx, bias less for large block size
  if s.cpi.tx_mode ≠ ONLY_4X4 then bias >>> (1 : Nat) else bias

/-- The first block of the loop body: "Get Low filter error score". -/
def search_low (ops : Operators) (sd : YV12_BUFFER_CONFIG) (partial_frame plane dir : Int)
    (filt_low bias : Int) (s : SearchState) : SearchState :=
  if s.filt_direction ≤ 0 ∧ filt_low ≠ s.filt_mid then
    let s1 := search_eval ops sd partial_frame plane dir filt_low s
    -- If value is close to the best so far then bias towards a lower loop filter value.
    if ss_get s1.ss_err filt_low < s1.best_err + bias then
      -- Was it actually better than the previous best?
      { s1 with
        best_err :=
          if ss_get s1.ss_err filt_low < s1.best_err then ss_get s1.ss_err filt_low
          else s1.best_err,
        filt_best := filt_low }
    else s1
  else s

/-- The second block of the loop body: "Now look at filt_high". -/
def search_high (ops : Operators) (sd : YV12_BUFFER_CONFIG) (partial_frame plane dir : Int)
    (filt_high bias : Int) (s : SearchState) : SearchState :=
  if s.filt_direction ≥ 0 ∧ filt_high ≠ s.filt_mid then
    let s1 := search_eval ops sd partial_frame plane dir filt_high s
    -- If value is significantly better than previous best, bias added against raising
    if ss_get s1.ss_err filt_high < s1.best_err - bias then
      { s1 with best_err := ss_get s1.ss_err filt_high, filt_best := filt_high }
    else s1
  else s

/-- The last block of the loop body: "Half the step distance if the best filter value was the
same as last time". -/
def search_advance (s : SearchState) : SearchState :=
  if s.filt_best = s.filt_mid then
    { s with filter_step := Int.tdiv s.filter_step 2, filt_direction := 0 }
  else
    { s with filt_direction := if s.filt_best < s.filt_mid then -1 else 1,
             filt_mid := s.filt_best }

/-- The loop body of `search_filter_level` after the bias has been computed. -/
def search_body (ops : Operators) (sd : YV12_BUFFER_CONFIG) (partial_frame plane dir : Int)
    (max_filter_level bias : Int) (s : SearchState) : SearchState :=
  let min_filter_level : Int := 0
  let filt_high := AOMMIN (s.filt_mid + s.filter_step) max_filter_level
  let filt_low := AOMMAX (s.filt_mid - s.filter_step) min_filter_level
  let s := search_low ops sd partial_frame plane dir filt_low bias s
  let s := search_high ops sd partial_frame plane dir filt_high bias s
  search_advance s

/-- One iteration of the `while (filter_step > 0)` loop of `search_filter_level`. -/
def search_iter (ops : Operators) (sd : YV12_BUFFER_CONFIG) (partial_frame plane dir : Int)
    (max_filter_level : Int) (s : SearchState) : SearchState :=
  search_body ops sd partial_frame plane dir max_filter_level (search_bias s) s

/-- The loop `while (filter_step > 0) { ... }`: the state at loop exit, `none` when `fuel`
iterations did not reach the exit. -/
def search_loop (ops : Operators) (sd : YV12_BUFFER_CONFIG) (partial_frame plane dir : Int)
    (max_filter_level : Int) : Nat → SearchState → Option SearchState
  | 0, s => if s.filter_step > 0 then none else some s
  | fuel + 1, s =>
    if s.filter_step > 0 then
      search_loop ops sd partial_frame plane dir max_filter_level fuel
        (search_iter ops sd partial_frame plane dir max_filter_level s)
    else some s

/-- The level `search_filter_level` starts from: the previous level of the searched plane and
direction (of the scalar level without the build switch). -/
def search_start_level (ops : Operators) (cpi : AV1_COMP) (plane dir : Int) : Int :=
  if ops.CONFIG_LOOPFILTER_LEVEL then
    if plane = 0 then (if dir = 1 then cpi.lf.filter_level_1 else cpi.lf.filter_level_0)
    else if plane = 1 then cpi.lf.filter_level_u
    else cpi.lf.filter_level_v
  else cpi.lf.filter_level

/-- The state of `search_filter_level` when the loop is entered: start level, step, emptied
`ss_err`, snapshot of the unfiltered plane, first trial. -/
def search_init (ops : Operators) (sd : YV12_BUFFER_CONFIG) (cpi : AV1_COMP)
    (partial_frame plane dir : Int) : SearchState :=
  let min_filter_level : Int := 0
  let max_filter_level := av1_get_max_filter_level cpi
  let filt_mid := clamp (search_start_level ops cpi plane dir) min_filter_level max_filter_level
  let filter_step := if filt_mid < 16 then 4 else Int.tdiv filt_mid 4
  -- Set each entry to -1
  let ss_err := List.replicate (MAX_LOOP_FILTER + 1).toNat (-1 : Int)
  -- Make a copy of the unfiltered / processed recon buffer
  let cpi :=
    if ops.CONFIG_LOOPFILTER_LEVEL then
      { cpi with last_frame_uf := yv12_copy_plane cpi.frame_to_show cpi.last_frame_uf plane }
    else
      { cpi with last_frame_uf := aom_yv12_copy_y cpi.frame_to_show cpi.last_frame_uf }
  let r := try_filter_frame ops sd cpi filt_mid partial_frame plane dir
  { cpi := r.2, filt_mid := filt_mid, filter_step := filter_step, filt_direction := 0,
    best_err := r.1, filt_best := filt_mid, ss_err := ss_set ss_err filt_mid r.1,
    tried := [filt_mid] }

/-- The run of `search_filter_level` for a valid plane: the state at the exit of the loop. -/
def search_run (fuel : Nat) (ops : Operators) (sd : YV12_BUFFER_CONFIG) (cpi : AV1_COMP)
    (partial_frame plane dir : Int) : Option SearchState :=
  search_loop ops sd partial_frame plane dir (av1_get_max_filter_level cpi) fuel
    (search_init ops sd cpi partial_frame plane dir)

/-- The function `search_filter_level`: the returned level and the encoder state afterwards.
The caller in this file passes `best_cost_ret = NULL`, so the floating-point cost is not
produced.  With the build switch a plane outside `0..2` fails the assertion of the `switch`
(a build without assertions returns 0). -/
def search_filter_level (fuel : Nat) (ops : Operators) (sd : YV12_BUFFER_CONFIG)
    (cpi : AV1_COMP) (partial_frame plane dir : Int) : Outcome (Int × AV1_COMP) :=
  if ops.CONFIG_LOOPFILTER_LEVEL ∧ ¬ (plane = 0 ∨ plane = 1 ∨ plane = 2) then
    .assert_failed (0, cpi)
  else
    match search_run fuel ops sd cpi partial_frame plane dir with
    | none => .out_of_fuel
    | some s => .returned (s.filt_best, s.cpi)

/-- The `switch (cm->bit_depth)` of `av1_pick_filter_level`: the first value of `filt_guess`,
`none` in the `default` branch. -/
def filt_guess_switch (bit_depth frame_type q : Int) : Option Int :=
  if bit_depth = AOM_BITS_8 then
    some (if frame_type = KEY_FRAME then ROUND_POWER_OF_TWO (q * 17563 - 421574) 18
          else ROUND_POWER_OF_TWO (q * 6017 + 650707) 18)
  else if bit_depth = AOM_BITS_10 then
    some (ROUND_POWER_OF_TWO (q * 20723 + 4060632) 20)
  else if bit_depth = AOM_BITS_12 then
    some (ROUND_POWER_OF_TWO (q * 20723 + 16242526) 22)
  else none

/-- A call of `search_filter_level` inside `av1_pick_filter_level`, followed by the rest `k` of
the caller, which receives the returned level and the encoder state. -/
def with_search (fuel : Nat) (ops : Operators) (sd : YV12_BUFFER_CONFIG) (cpi : AV1_COMP)
    (partial_frame plane dir : Int) (k : Int → AV1_COMP → Outcome AV1_COMP) :
    Outcome AV1_COMP :=
  match search_filter_level fuel ops sd cpi partial_frame plane dir with
  | .returned r => k r.1 r.2
  | .assert_failed r => .assert_failed r.2
  | .out_of_fuel => .out_of_fuel

/-- The function `av1_pick_filter_level`: the encoder state afterwards.  In the `default`
branch of the bit-depth switch the assertion `assert(0 && "bit_depth should be ...")` fails
and the function is left at once. -/
def av1_pick_filter_level (fuel : Nat) (ops : Operators) (sd : YV12_BUFFER_CONFIG)
    (cpi : AV1_COMP) (method : LPF_PICK_METHOD) : Outcome AV1_COMP :=
  let cpi : AV1_COMP :=
    { cpi with lf := { cpi.lf with
        sharpness_level := if cpi.frame_type = KEY_FRAME then 0 else cpi.sharpness } }
  if method = .LPF_PICK_MINIMAL_LPF then
    if ops.CONFIG_LOOPFILTER_LEVEL then
      .returned { cpi with lf := { cpi.lf with filter_level_0 := 0, filter_level_1 := 0 } }
    else
      .returned { cpi with lf := { cpi.lf with filter_level := 0 } }
  else if method.toInt ≥ LPF_PICK_METHOD.LPF_PICK_FROM_Q.toInt then
    let min_filter_level : Int := 0
    let max_filter_level := av1_get_max_filter_level cpi
    let q := ops.av1_ac_quant_Q3 cpi.base_qindex 0 cpi.bit_depth
    match filt_guess_switch cpi.bit_depth cpi.frame_type q with
    | none => .assert_failed cpi
    | some filt_guess =>
      let filt_guess :=
        if cpi.bit_depth ≠ AOM_BITS_8 ∧ cpi.frame_type = KEY_FRAME then filt_guess - 4
        else filt_guess
      if ops.CONFIG_LOOPFILTER_LEVEL then
        .returned { cpi with lf := { cpi.lf with
          filter_level_0 := clamp filt_guess min_filter_level max_filter_level,
          filter_level_1 := clamp filt_guess min_filter_level max_filter_level,
          filter_level_u := clamp filt_guess min_filter_level max_filter_level,
          filter_level_v := clamp filt_guess min_filter_level max_filter_level } }
      else
        .returned { cpi with lf := { cpi.lf with
          filter_level := clamp filt_guess min_filter_level max_filter_level } }
  else
    let partial_frame : Int := if method = .LPF_PICK_FROM_SUBIMAGE then 1 else 0
    if ops.CONFIG_LOOPFILTER_LEVEL then
      with_search fuel ops sd cpi partial_frame 0 2 fun lvl cpi =>
      let cpi : AV1_COMP :=
        { cpi with lf := { cpi.lf with filter_level_0 := lvl, filter_level_1 := lvl } }
      with_search fuel ops sd cpi partial_frame 0 0 fun lvl cpi =>
      let cpi : AV1_COMP := { cpi with lf := { cpi.lf with filter_level_0 := lvl } }
      with_search fuel ops sd cpi partial_frame 0 1 fun lvl cpi =>
      let cpi : AV1_COMP := { cpi with lf := { cpi.lf with filter_level_1 := lvl } }
      with_search fuel ops sd cpi partial_frame 1 0 fun lvl cpi =>
      let cpi : AV1_COMP := { cpi with lf := { cpi.lf with filter_level_u := lvl } }
      with_search fuel ops sd cpi partial_frame 2 0 fun lvl cpi =>
      .returned { cpi with lf := { cpi.lf with filter_level_v := lvl } }
    else
      with_search fuel ops sd cpi partial_frame 0 0 fun lvl cpi =>
      .returned { cpi with lf := { cpi.lf with filter_level := lvl } }

/-! ## Definitions used to state the properties -/

/-- The part of the loop invariant of `search_filter_level` that termination rests on. -/
structure SearchInv (max_filter_level : Int) (s : SearchState) : Prop where
  max_le : max_filter_level ≤ 63
  mid_nonneg : 0 ≤ s.filt_mid
  mid_le : s.filt_mid ≤ max_filter_level
  best_eq : s.filt_best = s.filt_mid
  step_nonneg : 0 ≤ s.filter_step
  dir_range : s.filt_direction = -1 ∨ s.filt_direction = 0 ∨ s.filt_direction = 1

/-- The termination measure of the loop: the step dominates; inside one step value the
undirected state comes first and a directed state is ranked by the room left in its direction. -/
def search_measure (max_filter_level : Int) (s : SearchState) : Nat :=
  (s.filter_step * 66 +
    (if s.filt_direction = 0 then max_filter_level + 2
     else if s.filt_direction < 0 then s.filt_mid + 1
     else max_filter_level - s.filt_mid + 1)).toNat

/-- Iterations that always suffice for the loop of `search_filter_level`. -/
def SEARCH_FUEL : Nat := 1055

/-- The memo invariant: `ss_err` has its 64 entries, exactly the tried levels have a
non-negative entry, every level was tried at most once and lies in `[0, m]`. -/
structure MemoInv (m : Int) (s : SearchState) : Prop where
  len : s.ss_err.length = 64
  seen : ∀ i : Int, 0 ≤ i → i ≤ 63 → (ss_get s.ss_err i < 0 ↔ i ∉ s.tried)
  nodup : s.tried.Nodup
  range : ∀ l ∈ s.tried, 0 ≤ l ∧ l ≤ m

/-- The encoder state without its two frame buffers. -/
def AV1_COMP.settings (cpi : AV1_COMP) : AV1_COMP :=
  { cpi with frame_to_show := ⟨[], [], []⟩, last_frame_uf := ⟨[], [], []⟩ }

/-- The plane a search works on: `plane` with the build switch, the luma plane without. -/
def searched_plane (ops : Operators) (plane : Int) : Int :=
  if ops.CONFIG_LOOPFILTER_LEVEL then plane else 0

/-- The filter levels that `av1_pick_filter_level` assigns on a normal return, read from the
filter level state `lf` afterwards: the scalar level without the build switch; with it the two
luma levels for `LPF_PICK_MINIMAL_LPF` and all four levels for the other methods. -/
def written_levels (ops : Operators) (method : LPF_PICK_METHOD) (lf : loopfilter) : List Int :=
  if ops.CONFIG_LOOPFILTER_LEVEL then
    if method = .LPF_PICK_MINIMAL_LPF then [lf.filter_level_0, lf.filter_level_1]
    else [lf.filter_level_0, lf.filter_level_1, lf.filter_level_u, lf.filter_level_v]
  else [lf.filter_level]

/-- Operators that realise an error curve: the deblocking operator stores the level it is
given in the filtered plane, the distortion operator reads it back and looks it up in `curve`;
the quantizer lookup returns its index. -/
def curve_operators (config : Bool) (curve : Int → Int) : Operators where
  CONFIG_LOOPFILTER_LEVEL := config
  av1_loop_filter_frame := fun f lvl _ _ => { f with y_buffer := [lvl.toNat] }
  av1_loop_filter_frame_lvl := fun f lvl0 _ plane _ =>
    yv12_copy_plane ⟨[lvl0.toNat], [lvl0.toNat], [lvl0.toNat]⟩ f plane
  aom_get_sse_plane := fun _ f plane _ => curve ((f.plane plane).headD 0)
  av1_ac_quant_Q3 := fun qindex _ _ => qindex

/-- A small reconstructed frame. -/
def sample_frame : YV12_BUFFER_CONFIG := ⟨[16, 128, 235], [90, 91], [200, 201]⟩

/-- A small source frame. -/
def sample_source : YV12_BUFFER_CONFIG := ⟨[17, 127, 233], [92, 91], [199, 201]⟩

/-- An encoder state with previous filter level `lvl` on every plane and direction. -/
def sample_cpi (pass section_intra_rating tx_mode lvl : Int) : AV1_COMP :=
  { pass := pass, sharpness := 3, section_intra_rating := section_intra_rating,
    frame_type := 1, tx_mode := tx_mode, base_qindex := 100, bit_depth := 8,
    use_highbitdepth := 0, lf := ⟨lvl, lvl, lvl, lvl, lvl, 0⟩,
    frame_to_show := sample_frame, last_frame_uf := ⟨[], [], []⟩ }

/-- The frame invariant of a search started in state `cpi0`: the settings are untouched and the
searched plane of both the reconstructed frame and the snapshot is the plane the search found
in the reconstructed frame. -/
structure FrameInv (ops : Operators) (plane : Int) (cpi0 : AV1_COMP) (c : AV1_COMP) : Prop where
  settings : c.settings = cpi0.settings
  shown : c.frame_to_show.plane (searched_plane ops plane)
    = cpi0.frame_to_show.plane (searched_plane ops plane)
  saved : c.last_frame_uf.plane (searched_plane ops plane)
    = cpi0.frame_to_show.plane (searched_plane ops plane)

/-- An encoder state for the closed-form method: 8-bit key frame whose quantizer index (and,
with `curve_operators`, quantizer value) is 100. -/
def sample_key_cpi : AV1_COMP :=
  { sample_cpi 0 0 1 32 with frame_type := KEY_FRAME }

/-- An encoder state with an unsupported bit depth. -/
def sample_bad_depth_cpi : AV1_COMP :=
  { sample_cpi 0 0 1 32 with bit_depth := 9 }

/-- An encoder state whose previous levels are 11 (scalar), 12 and 13 (luma), 7 (chroma U)
and 9 (chroma V). -/
def sample_levels_cpi : AV1_COMP :=
  { sample_cpi 0 0 1 32 with lf := ⟨11, 12, 13, 7, 9, 0⟩ }

/-- The loop of `search_filter_level` with the bias forced to 0 in every iteration: the
zero-bias run that the biased run is compared with. -/
def search_loop_zero_bias (ops : Operators) (sd : YV12_BUFFER_CONFIG)
    (partial_frame plane dir : Int) (max_filter_level : Int) :
    Nat → SearchState → Option SearchState
  | 0, s => if s.filter_step > 0 then none else some s
  | fuel + 1, s =>
    if s.filter_step > 0 then
      search_loop_zero_bias ops sd partial_frame plane dir max_filter_level fuel
        (search_body ops sd partial_frame plane dir max_filter_level 0 s)
    else some s

/-- The run of `search_filter_level` with the bias forced to 0. -/
def search_run_zero_bias (fuel : Nat) (ops : Operators) (sd : YV12_BUFFER_CONFIG)
    (cpi : AV1_COMP) (partial_frame plane dir : Int) : Option SearchState :=
  search_loop_zero_bias ops sd partial_frame plane dir (av1_get_max_filter_level cpi) fuel
    (search_init ops sd cpi partial_frame plane dir)

/-- An error curve with two dips: 8192 at level 20, 8193 at 15, 8000 at 17, 8100 at 18,
8050 at 16, 8010 at 14 and 9000 everywhere else. -/
def two_dip_curve (i : Int) : Int :=
  if i = 20 then 8192 else if i = 15 then 8193 else if i = 17 then 8000
  else if i = 18 then 8100 else if i = 16 then 8050 else if i = 14 then 8010 else 9000

/-- The state at loop entry of the search on `two_dip_curve` from level 20. -/
def two_dip_start : SearchState :=
  search_init (curve_operators false two_dip_curve) sample_source
    (sample_cpi 0 0 ONLY_4X4 20) 0 0 0

/-- The operators have error curve `curve` for a search: a trial of a level in `0..63`
measures `curve` at that level, whatever the encoder state. -/
def HasErrorCurve (ops : Operators) (sd : YV12_BUFFER_CONFIG) (partial_frame plane dir : Int)
    (curve : Int → Int) : Prop :=
  ∀ (cpi : AV1_COMP) (lvl : Int), 0 ≤ lvl → lvl ≤ 63 →
    (try_filter_frame ops sd cpi lvl partial_frame plane dir).1 = curve lvl

/-- The memo holds the curve: `ss_err` has its 64 entries and each is still unset (negative)
or the value of the curve. -/
structure CurveMemo (curve : Int → Int) (s : SearchState) : Prop where
  len : s.ss_err.length = 64
  val : ∀ i : Int, 0 ≤ i → i ≤ 63 → ss_get s.ss_err i < 0 ∨ ss_get s.ss_err i = curve i

/-- The variables that steer the loop of `search_filter_level` (at the head of an iteration
`filt_best` equals `filt_mid`). -/
structure Control where
  filt_mid : Int
  filter_step : Int
  filt_direction : Int
  best_err : Int
  deriving DecidableEq, Repr

/-- The steering variables of a search state. -/
def SearchState.control (s : SearchState) : Control :=
  ⟨s.filt_mid, s.filter_step, s.filt_direction, s.best_err⟩

/-- The bias of `search_bias` as a function of the steering variables and the bias
configuration. -/
def control_bias (pass section_intra_rating tx_mode : Int) (k : Control) : Int :=
  let bias := (k.best_err >>> (15 - Int.tdiv k.filt_mid 8).toNat) * k.filter_step
  let bias :=
    if pass = 2 ∧ section_intra_rating < 20 then Int.tdiv (bias * section_intra_rating) 20
    else bias
  if tx_mode ≠ ONLY_4X4 then bias >>> (1 : Nat) else bias

/-- One iteration of the loop on the steering variables alone, for an error curve. -/
def control_iter (curve : Int → Int) (pass section_intra_rating tx_mode m : Int)
    (k : Control) : Control :=
  let bias := control_bias pass section_intra_rating tx_mode k
  let filt_high := min (k.filt_mid + k.filter_step) m
  let filt_low := max (k.filt_mid - k.filter_step) 0
  let best_err1 :=
    if k.filt_direction ≤ 0 ∧ filt_low ≠ k.filt_mid ∧ curve filt_low < k.best_err + bias ∧
        curve filt_low < k.best_err
    then curve filt_low else k.best_err
  let filt_best1 :=
    if k.filt_direction ≤ 0 ∧ filt_low ≠ k.filt_mid ∧ curve filt_low < k.best_err + bias
    then filt_low else k.filt_mid
  let best_err2 :=
    if k.filt_direction ≥ 0 ∧ filt_high ≠ k.filt_mid ∧ curve filt_high < best_err1 - bias
    then curve filt_high else best_err1
  let filt_best2 :=
    if k.filt_direction ≥ 0 ∧ filt_high ≠ k.filt_mid ∧ curve filt_high < best_err1 - bias
    then filt_high else filt_best1
  if filt_best2 = k.filt_mid then
    ⟨k.filt_mid, Int.tdiv k.filter_step 2, 0, best_err2⟩
  else
    ⟨filt_best2, k.filter_step, if filt_best2 < k.filt_mid then -1 else 1, best_err2⟩

/-- The loop on the steering variables alone. -/
def control_loop (curve : Int → Int) (pass section_intra_rating tx_mode m : Int) :
    Nat → Control → Option Control
  | 0, k => if k.filter_step > 0 then none else some k
  | fuel + 1, k =>
    if k.filter_step > 0 then
      control_loop curve pass section_intra_rating tx_mode m fuel
        (control_iter curve pass section_intra_rating tx_mode m k)
    else some k

/-- A curve of the scenario: 100, 90, 80, 75, 74, 76 and then rising by 2 a level. -/
def scenario_curve (i : Int) : Int :=
  if i = 0 then 100 else if i = 1 then 90 else if i = 2 then 80 else if i = 3 then 75
  else 74 + 2 * (i - 4)

/-! ## Definitions used to state the properties of one iteration and of the descent -/

/-- The low candidate of the iteration that starts in state `s`, `filt_low`. -/
def iter_filt_low (s : SearchState) : Int := AOMMAX (s.filt_mid - s.filter_step) 0

/-- The high candidate of the iteration that starts in state `s`, `filt_high`. -/
def iter_filt_high (max_filter_level : Int) (s : SearchState) : Int :=
  AOMMIN (s.filt_mid + s.filter_step) max_filter_level

/-- The state of the iteration that starts in state `s` after its first block (the low
candidate). -/
def iter_after_low (ops : Operators) (sd : YV12_BUFFER_CONFIG) (partial_frame plane dir : Int)
    (s : SearchState) : SearchState :=
  search_low ops sd partial_frame plane dir (iter_filt_low s) (search_bias s) s

/-- The state of the iteration that starts in state `s` after its second block (the high
candidate). -/
def iter_after_high (ops : Operators) (sd : YV12_BUFFER_CONFIG)
    (partial_frame plane dir : Int) (max_filter_level : Int) (s : SearchState) : SearchState :=
  search_high ops sd partial_frame plane dir (iter_filt_high max_filter_level s)
    (search_bias s) (iter_after_low ops sd partial_frame plane dir s)

/-- The error of the level `lvl` as an iteration in state `s` sees it: `ss_err[lvl]` after the
guarded evaluation of `lvl`. -/
def seen_error (ops : Operators) (sd : YV12_BUFFER_CONFIG) (partial_frame plane dir : Int)
    (lvl : Int) (s : SearchState) : Int :=
  ss_get (search_eval ops sd partial_frame plane dir lvl s).ss_err lvl

/-- The state at the head of iteration `n` (counted from 0) of the loop of
`search_filter_level`, for a run that is still in its loop then. -/
def search_state_at (ops : Operators) (sd : YV12_BUFFER_CONFIG) (cpi : AV1_COMP)
    (partial_frame plane dir : Int) (n : Nat) : SearchState :=
  Nat.iterate (search_iter ops sd partial_frame plane dir (av1_get_max_filter_level cpi)) n
    (search_init ops sd cpi partial_frame plane dir)

/-- The error curve is strictly unimodal on `[0, m]` with its minimum at level `a`: strictly
decreasing up to `a` and strictly increasing after it. -/
def StrictlyUnimodal (curve : Int → Int) (m a : Int) : Prop :=
  0 ≤ a ∧ a ≤ m ∧
  (∀ i j : Int, 0 ≤ i → i < j → j ≤ a → curve j < curve i) ∧
  (∀ i j : Int, a ≤ i → i < j → j ≤ m → curve i < curve j)

/-- The invariant of the search without bias on a curve whose minimum is at `a`: `best_err` is
the error of `filt_mid`; a search that has just moved by a step of 1 has left a worse level
behind; a search that has left the loop stands on `a`. -/
structure DescentInv (curve : Int → Int) (m a : Int) (k : Control) : Prop where
  mid_nonneg : 0 ≤ k.filt_mid
  mid_le : k.filt_mid ≤ m
  step_nonneg : 0 ≤ k.filter_step
  best : k.best_err = curve k.filt_mid
  dir_range : k.filt_direction = -1 ∨ k.filt_direction = 0 ∨ k.filt_direction = 1
  came_up : k.filter_step = 1 → k.filt_direction = 1 →
    ∀ p : Int, p + 1 = k.filt_mid → curve k.filt_mid < curve p
  came_down : k.filter_step = 1 → k.filt_direction = -1 →
    ∀ p : Int, p = k.filt_mid + 1 → curve k.filt_mid < curve p
  done : k.filter_step = 0 → k.filt_mid = a

/-- An error curve with a single dip at level 20: `|i - 20|`. -/
def valley_curve (i : Int) : Int := if i < 20 then 20 - i else i - 20

/-- The invariant of the search with a bias that is not negative, on a curve without negative
errors whose minimum is at `a`: `best_err` is at most the error of `filt_mid`, and is that error
to the right of `a`; a search that has just moved up has left a worse level behind, at most a step
below; a search that has left the loop stands on `a` or below it. -/
structure BiasedInv (curve : Int → Int) (m a : Int) (k : Control) : Prop where
  mid_nonneg : 0 ≤ k.filt_mid
  mid_le : k.filt_mid ≤ m
  step_nonneg : 0 ≤ k.filter_step
  best_nonneg : 0 ≤ k.best_err
  best_le : k.best_err ≤ curve k.filt_mid
  best_right : a < k.filt_mid → k.best_err = curve k.filt_mid
  came_up : 0 < k.filt_direction →
    ∃ p : Int, 0 ≤ p ∧ k.filt_mid - k.filter_step ≤ p ∧ p < k.filt_mid ∧
      curve k.filt_mid < curve p
  done : k.filter_step = 0 → k.filt_mid ≤ a

/-- A strictly unimodal error curve with large errors, so that the bias is not 0: 100000 at
level 20 and 1 more for each level away from it. -/
def flat_valley_curve (i : Int) : Int :=
  if i < 20 then 100020 - i else 99980 + i

end Picklpf

/-!
# Motion-vector entropy coding (`vp10/encoder/encodemv.c`)

A shallow embedding of `encode_mv_component`, `build_nmv_component_cost_table`, `update_mv`,
`write_mv_update`, `vp10_write_nmv_probs` and `vp10_encode_mv`.

Conventions of the embedding.

* C `int` values are `Int`; `>>` is the arithmetic shift `>>>`, `&` is `Int.land`.  The
  components of a vector are 16-bit values and a cost is a sum of a few table entries, so no
  operation of the embedded functions leaves the machine range.
* The bit sink `vp10_writer` is the list of the symbols written so far: a binary decision
  (`vp10_write`) or a tree-coded token (`vp10_write_token`), each with the probabilities it is
  coded with.
* The compile-time switches `CONFIG_REF_MV` and `CONFIG_EXT_INTER` are boolean fields of
  `Coder`; both variants of every function are embedded.
* The cost transform, the conversion of a distribution into branch counts and the
  differential update of one probability node are not part of the file; they are arbitrary
  functions carried by `Coder`.
* A fixed-size C array is a list, read with `List.getD` and written with `List.set`; a `for`
  loop with a counter is a fold over `List.range`.
-/

namespace Encodemv

open Picklpf (Outcome)

/-! ## Constants and data of `vp10/common/entropymv.h` and `vp10/common/mv.h` -/

/-- Modelled from the spec: a probability of a binary decision (`vpx_prob`, an 8-bit value
declared outside the sources). -/
abbrev vpx_prob := Nat

/-- Modelled from the spec: a motion vector, a "pair of signed fixed-point integers (row, col)"
(`MV` of `vp10/common/mv.h`). -/
structure MV where
  row : Int
  col : Int
  deriving DecidableEq, Repr

/-- Modelled from the spec: the number of joint types {ZERO, HNZVZ, HZVNZ, HNZVNZ}. -/
def MV_JOINTS : Int := 4

/-- Modelled from the spec: joint type ZERO, no axis is nonzero. -/
def MV_JOINT_ZERO : Int := 0

/-- Modelled from the spec: joint type HNZVZ, only the horizontal axis (col) is nonzero. -/
def MV_JOINT_HNZVZ : Int := 1

/-- Modelled from the spec: joint type HZVNZ, only the vertical axis (row) is nonzero. -/
def MV_JOINT_HZVNZ : Int := 2

/-- Modelled from the spec: joint type HNZVNZ, both axes are nonzero. -/
def MV_JOINT_HNZVNZ : Int := 3

/-- Modelled from the spec: the number of magnitude classes ("one of N exponential-bucket
classes"), `MV_CLASSES` of `vp10/common/entropymv.h`. -/
def MV_CLASSES : Int := 11

/-- Modelled from the spec: the first magnitude class, "class 0 covers small magnitudes". -/
def MV_CLASS_0 : Int := 0

/-- Modelled from the spec: the last magnitude class. -/
def MV_CLASS_10 : Int := 10

/-- Modelled from the spec: the number of integer bits of class 0 (`CLASS0_BITS`). -/
def CLASS0_BITS : Int := 1

/-- Modelled from the spec: the number of integer values of class 0,
`CLASS0_SIZE = 1 << CLASS0_BITS`. -/
def CLASS0_SIZE : Int := 2

/-- Modelled from the spec: the number of raw integer bits with a probability of their own,
`MV_OFFSET_BITS = MV_CLASSES + CLASS0_BITS - 2`. -/
def MV_OFFSET_BITS : Int := 10

/-- Modelled from the spec: the number of values of the "2-bit fractional-pel refinement". -/
def MV_FP_SIZE : Int := 4

/-- Modelled from the spec: the largest representable magnitude,
`MV_MAX = (1 << (MV_CLASSES + CLASS0_BITS + 2)) - 1`. -/
def MV_MAX : Int := 16383

/-- Modelled from the spec: the "fixed update-rate parameter" `MV_UPDATE_PROB`. -/
def MV_UPDATE_PROB : vpx_prob := 252

/-- Modelled from the spec: the number of contexts "when extended reference-MV prediction is
enabled" (`NMV_CONTEXTS`). -/
def NMV_CONTEXTS : Int := 3

/-- Modelled from the spec: the helper `VPXMAX(x, y)`, `x > y ? x : y`. -/
def VPXMAX (x y : Int) : Int := if x > y then x else y

/-- The four coding trees of `vp10/common/entropymv.c`; a tree is used through its identity
only. -/
inductive Tree where
  | vp10_mv_joint_tree
  | vp10_mv_class_tree
  | vp10_mv_class0_tree
  | vp10_mv_fp_tree
  deriving DecidableEq, Repr

/-- One symbol handed to the bit sink. -/
inductive Symbol where
  /-- The call `vp10_write(w, bit, probability)`. -/
  | bit (value : Int) (probability : vpx_prob)
  /-- The call `vp10_write_token(w, tree, probs, &encodings[index])`. -/
  | token (tree : Tree) (probs : List vpx_prob) (index : Int)
  deriving DecidableEq, Repr

/-- The bit sink: the symbols written so far, oldest first. -/
abbrev vp10_writer := List Symbol

/-- Modelled from the spec: `vp10_write(w, bit, probability)` writes one binary decision. -/
def vp10_write (w : vp10_writer) (bit : Int) (probability : vpx_prob) : vp10_writer :=
  w ++ [Symbol.bit bit probability]

/-- Modelled from the spec: `vpx_write(w, bit, probability)`, the function behind
`vp10_write`. -/
def vpx_write (w : vp10_writer) (bit : Int) (probability : vpx_prob) : vp10_writer :=
  w ++ [Symbol.bit bit probability]

/-- Modelled from the spec: `vp10_write_token(w, tree, probs, token)` writes one tree-coded
symbol; `token` is the index of the entry of the encodings table built from `tree`. -/
def vp10_write_token (w : vp10_writer) (tree : Tree) (probs : List vpx_prob) (token : Int) :
    vp10_writer :=
  w ++ [Symbol.token tree probs token]

/-- Modelled from the spec: the probabilities of one axis (`nmv_component`): "sign probability,
class-tree probabilities, class-0 sub-tree probabilities, per-bit probabilities for non-class-0
integer bits, fractional-bits tree probabilities (separate table for class-0 vs higher
classes), optional high-precision bit probabilities (also split class-0 vs higher)".
The arrays are `classes[MV_CLASSES - 1]`, `class0[CLASS0_SIZE - 1]`, `bits[MV_OFFSET_BITS]`,
`class0_fp[CLASS0_SIZE][MV_FP_SIZE - 1]` and `fp[MV_FP_SIZE - 1]`. -/
structure nmv_component where
  sign : vpx_prob
  classes : List vpx_prob
  class0 : List vpx_prob
  bits : List vpx_prob
  class0_fp : List (List vpx_prob)
  fp : List vpx_prob
  class0_hp : vpx_prob
  hp : vpx_prob
  deriving DecidableEq, Repr, Inhabited

/-- Modelled from the spec: the probability model (`nmv_context`): `joints[MV_JOINTS - 1]`,
the zero flag `zero_rmv` of the `CONFIG_REF_MV` build and `comps[2]`, row first. -/
structure nmv_context where
  joints : List vpx_prob
  zero_rmv : vpx_prob
  comps : List nmv_component
  deriving DecidableEq, Repr, Inhabited

/-- Modelled from the spec: the counters of one axis (`nmv_component_counts`), "one counter
array per probability node": `sign[2]`, `classes[MV_CLASSES]`, `class0[CLASS0_SIZE]`,
`bits[MV_OFFSET_BITS][2]`, `class0_fp[CLASS0_SIZE][MV_FP_SIZE]`, `fp[MV_FP_SIZE]`, `class0_hp[2]`
and `hp[2]`; an array of two counters is a pair. -/
structure nmv_component_counts where
  sign : Nat × Nat
  classes : List Nat
  class0 : List Nat
  bits : List (Nat × Nat)
  class0_fp : List (List Nat)
  fp : List Nat
  class0_hp : Nat × Nat
  hp : Nat × Nat
  deriving DecidableEq, Repr, Inhabited

/-- Modelled from the spec: the counters of one context (`nmv_context_counts`):
`joints[MV_JOINTS]`, `zero_rmv[2]` and `comps[2]`. -/
structure nmv_context_counts where
  joints : List Nat
  zero_rmv : Nat × Nat
  comps : List nmv_component_counts
  deriving DecidableEq, Repr, Inhabited

/-- Modelled from the spec: the frame context `cm->fc`, of which only `nmvc` is used: the
`NMV_CONTEXTS` contexts of the `CONFIG_REF_MV` build, one context otherwise. -/
structure FRAME_CONTEXT where
  nmvc : List nmv_context
  deriving DecidableEq, Repr, Inhabited

/-- Modelled from the spec: the part of `VP10_COMMON` used by `vp10_write_nmv_probs`. -/
structure VP10_COMMON where
  fc : FRAME_CONTEXT
  deriving DecidableEq, Repr, Inhabited

/-- Modelled from the spec: the part of `VP10_COMP` used by `vp10_encode_mv`: the speed
feature `sf.mv.auto_mv_step_size` and the "running maximum-magnitude-seen statistic"
`max_mv_magnitude`. -/
structure VP10_COMP where
  auto_mv_step_size : Bool
  max_mv_magnitude : Int
  deriving DecidableEq, Repr

/-- The build configuration and the functions `encodemv.c` calls that are defined elsewhere. -/
structure Coder where
  /-- The switch `CONFIG_REF_MV`. -/
  CONFIG_REF_MV : Bool
  /-- The switch `CONFIG_EXT_INTER`. -/
  CONFIG_EXT_INTER : Bool
  /-- The predicate `vp10_use_mv_hp(ref)`: the reference allows high precision. -/
  vp10_use_mv_hp : MV → Bool
  /-- The cost `vp10_cost_zero(prob)` of a decision 0. -/
  vp10_cost_zero : vpx_prob → Int
  /-- The cost `vp10_cost_one(prob)` of a decision 1. -/
  vp10_cost_one : vpx_prob → Int
  /-- The array filled by `vp10_cost_tokens(costs, probs, tree)`, as a function of the token. -/
  vp10_cost_tokens : List vpx_prob → Tree → Int → Int
  /-- The array `branch_ct` filled by `vp10_tree_probs_from_distribution(tree, branch_ct,
  counts)`, as a function of the node. -/
  vp10_tree_probs_from_distribution : Tree → List Nat → Nat → Nat × Nat
  /-- The call `vp10_cond_prob_diff_update(w, &p, ct)`: the symbols it writes and the value
  it leaves in `p`. -/
  vp10_cond_prob_diff_update : vpx_prob → Nat × Nat → List Symbol × vpx_prob

/-- Modelled from the spec: `vp10_get_mv_joint(mv)`, "determines joint type from which
axis/axes are nonzero". -/
def vp10_get_mv_joint (mv : MV) : Int :=
  if mv.row = 0 then
    if mv.col = 0 then MV_JOINT_ZERO else MV_JOINT_HNZVZ
  else
    if mv.col = 0 then MV_JOINT_HZVNZ else MV_JOINT_HNZVNZ

/-- Modelled from the spec: `mv_joint_vertical(type)`, the row is nonzero. -/
def mv_joint_vertical (type : Int) : Bool :=
  type = MV_JOINT_HZVNZ || type = MV_JOINT_HNZVNZ

/-- Modelled from the spec: `mv_joint_horizontal(type)`, the col is nonzero. -/
def mv_joint_horizontal (type : Int) : Bool :=
  type = MV_JOINT_HNZVZ || type = MV_JOINT_HNZVNZ

/-- Modelled from the spec: `mv_class_base(c)`, the first value of class `c`,
`c ? CLASS0_SIZE << (c + 2) : 0`. -/
def mv_class_base (c : Int) : Int :=
  if c ≠ 0 then CLASS0_SIZE * 2 ^ (c + 2).toNat else 0

/-- Modelled from the spec: the table `log_in_base_2` of `vp10/common/entropymv.c`, the
position of the highest set bit of its index (0 for the indices 0 and 1), up to index 1024. -/
def log_in_base_2 (i : Int) : Int :=
  if i < 2 then 0
  else if i < 4 then 1
  else if i < 8 then 2
  else if i < 16 then 3
  else if i < 32 then 4
  else if i < 64 then 5
  else if i < 128 then 6
  else if i < 256 then 7
  else if i < 512 then 8
  else if i < 1024 then 9
  else 10

/-- Modelled from the spec: `vp10_get_mv_class(z, &offset)`, the "class index such that larger
classes cover exponentially larger ranges, plus a remainder offset representing the position
within the class"; the result is the pair of the class and the offset. -/
def vp10_get_mv_class (z : Int) : Int × Int :=
  let c := if z ≥ CLASS0_SIZE * 4096 then MV_CLASS_10 else log_in_base_2 (z >>> (3 : Nat))
  (c, z - mv_class_base c)

/-! ## The embedded functions -/

/-- Sequencing of two steps of a call: a failed `assert` is remembered while the steps that a
build without assertions performs go on. -/
def andThen {α β : Type} (o : Outcome α) (k : α → Outcome β) : Outcome β :=
  match o with
  | .returned a => k a
  | .assert_failed a =>
    match k a with
    | .returned b => .assert_failed b
    | r => r
  | .out_of_fuel => .out_of_fuel

/-- The statement `assert(cond)` in state `s`. -/
def assert {α : Type} (cond : Bool) (s : α) : Outcome α :=
  if cond then .returned s else .assert_failed s

/-- The function `encode_mv_component(w, comp, mvcomp, usehp)`. -/
def encode_mv_component (w : vp10_writer) (comp : Int) (mvcomp : nmv_component)
    (usehp : Bool) : Outcome vp10_writer :=
  let sign : Int := if comp < 0 then 1 else 0
  let mag : Int := if sign ≠ 0 then -comp else comp
  let mv_class : Int := (vp10_get_mv_class (mag - 1)).1
  let offset : Int := (vp10_get_mv_class (mag - 1)).2
  let d : Int := offset >>> (3 : Nat)              -- int mv data
  let fr : Int := Int.land (offset >>> (1 : Nat)) 3  -- fractional mv data
  let hp : Int := Int.land offset 1                -- high precision mv data
  andThen (assert (comp ≠ 0) w) fun w =>
  -- Sign
  let w := vp10_write w sign mvcomp.sign
  -- Class
  let w := vp10_write_token w Tree.vp10_mv_class_tree mvcomp.classes mv_class
  -- Integer bits
  let w :=
    if mv_class = MV_CLASS_0 then
      vp10_write_token w Tree.vp10_mv_class0_tree mvcomp.class0 d
    else
      let n : Int := mv_class + CLASS0_BITS - 1  -- number of bits
      (List.range n.toNat).foldl
        (fun w (i : Nat) => vp10_write w (Int.land (d >>> i) 1) (mvcomp.bits.getD i 0)) w
  -- Fractional bits
  let w := vp10_write_token w Tree.vp10_mv_fp_tree
    (if mv_class = MV_CLASS_0 then mvcomp.class0_fp.getD d.toNat [] else mvcomp.fp) fr
  -- High precision bit
  let w :=
    if usehp then
      vp10_write w hp (if mv_class = MV_CLASS_0 then mvcomp.class0_hp else mvcomp.hp)
    else w
  .returned w

/-- The function `vp10_encode_mv(cpi, w, mv, ref, is_compound, mvctx, usehp)`; the result is
the bit sink and the encoder state after the call (`is_compound` is a parameter of the
`CONFIG_REF_MV` build only). -/
def vp10_encode_mv (cfg : Coder) (cpi : VP10_COMP) (w : vp10_writer) (mv ref : MV)
    (is_compound : Bool) (mvctx : nmv_context) (usehp : Bool) :
    Outcome (vp10_writer × VP10_COMP) :=
  let diff : MV := { row := mv.row - ref.row, col := mv.col - ref.col }
  let j : Int := vp10_get_mv_joint diff
  let usehp : Bool := usehp && cfg.vp10_use_mv_hp ref
  -- the statements after the `#if` blocks
  let rest (w : vp10_writer) : Outcome (vp10_writer × VP10_COMP) :=
    let w := vp10_write_token w Tree.vp10_mv_joint_tree mvctx.joints j
    andThen
      (if mv_joint_vertical j then
        encode_mv_component w diff.row (mvctx.comps.getD 0 default) usehp
      else .returned w) fun w =>
    andThen
      (if mv_joint_horizontal j then
        encode_mv_component w diff.col (mvctx.comps.getD 1 default) usehp
      else .returned w) fun w =>
    -- If auto_mv_step_size is enabled then keep track of the largest
    -- motion vector component used.
    if cpi.auto_mv_step_size then
      let maxv : Int := (VPXMAX (mv.row.natAbs) (mv.col.natAbs)) >>> (3 : Nat)
      .returned (w, { cpi with max_mv_magnitude := VPXMAX maxv cpi.max_mv_magnitude })
    else .returned (w, cpi)
  if cfg.CONFIG_REF_MV && !cfg.CONFIG_EXT_INTER then
    if is_compound then
      let w := vpx_write w (if j = MV_JOINT_ZERO then 1 else 0) mvctx.zero_rmv
      if j = MV_JOINT_ZERO then .returned (w, cpi)
      else rest w
    else
      if j = MV_JOINT_ZERO then andThen (assert false w) rest
      else rest w
  else rest w

/-- The function `build_nmv_component_cost_table(mvcost, mvcomp, usehp)`; `mvcost` points to
the middle of the table, which is indexed from `-MV_MAX` to `MV_MAX`, and the result is the
table after the call. A local array is the function from its index to the value stored
there. -/
def build_nmv_component_cost_table (cfg : Coder) (mvcost : Int → Int)
    (mvcomp : nmv_component) (usehp : Bool) : Int → Int :=
  let sign_cost : Int → Int := fun b =>
    if b = 0 then cfg.vp10_cost_zero mvcomp.sign else cfg.vp10_cost_one mvcomp.sign
  let class_cost : Int → Int := cfg.vp10_cost_tokens mvcomp.classes Tree.vp10_mv_class_tree
  let class0_cost : Int → Int := cfg.vp10_cost_tokens mvcomp.class0 Tree.vp10_mv_class0_tree
  let bits_cost : Nat → Int → Int := fun i b =>
    if b = 0 then cfg.vp10_cost_zero (mvcomp.bits.getD i 0)
    else cfg.vp10_cost_one (mvcomp.bits.getD i 0)
  let class0_fp_cost : Int → Int → Int := fun i =>
    cfg.vp10_cost_tokens (mvcomp.class0_fp.getD i.toNat []) Tree.vp10_mv_fp_tree
  let fp_cost : Int → Int := cfg.vp10_cost_tokens mvcomp.fp Tree.vp10_mv_fp_tree
  -- these two arrays are filled only `if (usehp)` and read only `if (usehp)`
  let class0_hp_cost : Int → Int := fun b =>
    if b = 0 then cfg.vp10_cost_zero mvcomp.class0_hp else cfg.vp10_cost_one mvcomp.class0_hp
  let hp_cost : Int → Int := fun b =>
    if b = 0 then cfg.vp10_cost_zero mvcomp.hp else cfg.vp10_cost_one mvcomp.hp
  let mvcost := Function.update mvcost 0 0
  -- `for (v = 1; v <= MV_MAX; ++v)`, with `v = k + 1`
  (List.range MV_MAX.toNat).foldl
    (fun mvcost (k : Nat) =>
      let v : Int := (k : Int) + 1
      let cost : Int := 0
      let z : Int := v - 1
      let c : Int := (vp10_get_mv_class z).1
      let o : Int := (vp10_get_mv_class z).2
      let cost := cost + class_cost c
      let d : Int := o >>> (3 : Nat)              /- int mv data -/
      let f : Int := Int.land (o >>> (1 : Nat)) 3  /- fractional pel mv data -/
      let e : Int := Int.land o 1                  /- high precision mv data -/
      let cost :=
        if c = MV_CLASS_0 then cost + class0_cost d
        else
          let b : Int := c + CLASS0_BITS - 1  /- number of bits -/
          (List.range b.toNat).foldl
            (fun cost (i : Nat) => cost + bits_cost i (Int.land (d >>> i) 1)) cost
      let cost :=
        if c = MV_CLASS_0 then cost + class0_fp_cost d f
        else cost + fp_cost f
      let cost :=
        if usehp then
          if c = MV_CLASS_0 then cost + class0_hp_cost e
          else cost + hp_cost e
        else cost
      Function.update (Function.update mvcost v (cost + sign_cost 0)) (-v)
        (cost + sign_cost 1))
    mvcost

/-- The address of one probability of a context (a "probability node"): what a pointer
`&mvc->joints[i]`, `&comp->sign`, ... denotes, `comp` being the index into `comps`. -/
inductive Node where
  | joints (i : Nat)
  | zero_rmv
  | sign (comp : Nat)
  | classes (comp i : Nat)
  | class0 (comp i : Nat)
  | bits (comp j : Nat)
  | class0_fp (comp j i : Nat)
  | fp (comp i : Nat)
  | class0_hp (comp : Nat)
  | hp (comp : Nat)
  deriving DecidableEq, Repr

/-- The value stored at a node of a context. -/
def nmv_context.load (mvc : nmv_context) : Node → vpx_prob
  | .joints i => mvc.joints.getD i 0
  | .zero_rmv => mvc.zero_rmv
  | .sign comp => (mvc.comps.getD comp default).sign
  | .classes comp i => (mvc.comps.getD comp default).classes.getD i 0
  | .class0 comp i => (mvc.comps.getD comp default).class0.getD i 0
  | .bits comp j => (mvc.comps.getD comp default).bits.getD j 0
  | .class0_fp comp j i => ((mvc.comps.getD comp default).class0_fp.getD j []).getD i 0
  | .fp comp i => (mvc.comps.getD comp default).fp.getD i 0
  | .class0_hp comp => (mvc.comps.getD comp default).class0_hp
  | .hp comp => (mvc.comps.getD comp default).hp

/-- The context after an assignment to one component, `mvc->comps[comp] = f(mvc->comps[comp])`. -/
def nmv_context.modify_comp (mvc : nmv_context) (comp : Nat)
    (f : nmv_component → nmv_component) : nmv_context :=
  { mvc with comps := mvc.comps.set comp (f (mvc.comps.getD comp default)) }

/-- The context after the assignment `*node = p`. -/
def nmv_context.store (mvc : nmv_context) (p : vpx_prob) : Node → nmv_context
  | .joints i => { mvc with joints := mvc.joints.set i p }
  | .zero_rmv => { mvc with zero_rmv := p }
  | .sign comp => mvc.modify_comp comp fun x => { x with sign := p }
  | .classes comp i => mvc.modify_comp comp fun x => { x with classes := x.classes.set i p }
  | .class0 comp i => mvc.modify_comp comp fun x => { x with class0 := x.class0.set i p }
  | .bits comp j => mvc.modify_comp comp fun x => { x with bits := x.bits.set j p }
  | .class0_fp comp j i => mvc.modify_comp comp fun x =>
      { x with class0_fp := x.class0_fp.set j ((x.class0_fp.getD j []).set i p) }
  | .fp comp i => mvc.modify_comp comp fun x => { x with fp := x.fp.set i p }
  | .class0_hp comp => mvc.modify_comp comp fun x => { x with class0_hp := p }
  | .hp comp => mvc.modify_comp comp fun x => { x with hp := p }

/-- The state `vp10_write_nmv_probs` works on: the bit sink, the context `mvc` points to, and
the nodes handed to `vp10_cond_prob_diff_update` so far, oldest first (`nodes` is not a
variable of the C code, it records the order of the calls). -/
structure UpdateState where
  w : vp10_writer
  mvc : nmv_context
  nodes : List Node
  deriving DecidableEq, Repr

/-- The call `vp10_cond_prob_diff_update(w, oldp, ct)` of `vp10/encoder/subexp.c` on the
node `oldp`. -/
def vp10_cond_prob_diff_update (cfg : Coder) (s : UpdateState) (oldp : Node)
    (ct : Nat × Nat) : UpdateState :=
  { w := s.w ++ (cfg.vp10_cond_prob_diff_update (s.mvc.load oldp) ct).1,
    mvc := s.mvc.store (cfg.vp10_cond_prob_diff_update (s.mvc.load oldp) ct).2 oldp,
    nodes := s.nodes ++ [oldp] }

/-- The function `update_mv(w, ct, cur_p, upd_p)`. -/
def update_mv (cfg : Coder) (s : UpdateState) (ct : Nat × Nat) (cur_p : Node)
    (upd_p : vpx_prob) : UpdateState :=
  let _ := upd_p
  vp10_cond_prob_diff_update cfg s cur_p ct

/-- The loop `for (i = first; i < first + count; ++i) body(i)`. -/
def for_loop {σ : Type} (body : Nat → σ → Outcome σ) : Nat → Nat → σ → Outcome σ
  | _, 0, s => .returned s
  | first, count + 1, s => andThen (body first s) (for_loop body (first + 1) count)

/-- The function `write_mv_update(tree, probs, counts, n, w)`; `probs` gives the address of
each element of the array of probabilities. -/
def write_mv_update (cfg : Coder) (tree : Tree) (probs : Nat → Node) (counts : List Nat)
    (n : Int) (s : UpdateState) : Outcome UpdateState :=
  -- Assuming max number of probabilities <= 32
  andThen (assert (n ≤ 32) s) fun s =>
  let branch_ct : Nat → Nat × Nat := cfg.vp10_tree_probs_from_distribution tree counts
  for_loop (fun i s => .returned (update_mv cfg s (branch_ct i) (probs i) MV_UPDATE_PROB))
    0 (n - 1).toNat s

/-- The statements of `vp10_write_nmv_probs` for the context `mvc` with the counters `counts`;
they are the same in both builds apart from the update of `zero_rmv`, which only the
`CONFIG_REF_MV` build has. -/
def write_nmv_context_probs (cfg : Coder) (usehp : Bool) (counts : nmv_context_counts)
    (s : UpdateState) : Outcome UpdateState :=
  andThen
    (write_mv_update cfg Tree.vp10_mv_joint_tree Node.joints counts.joints MV_JOINTS s)
    fun s =>
  let s :=
    if cfg.CONFIG_REF_MV then vp10_cond_prob_diff_update cfg s Node.zero_rmv counts.zero_rmv
    else s
  andThen
    (for_loop (fun i s =>
      let comp_counts := counts.comps.getD i default
      let s := update_mv cfg s comp_counts.sign (Node.sign i) MV_UPDATE_PROB
      andThen
        (write_mv_update cfg Tree.vp10_mv_class_tree (Node.classes i) comp_counts.classes
          MV_CLASSES s) fun s =>
      andThen
        (write_mv_update cfg Tree.vp10_mv_class0_tree (Node.class0 i) comp_counts.class0
          CLASS0_SIZE s) fun s =>
      for_loop (fun j s =>
          .returned (update_mv cfg s (comp_counts.bits.getD j (0, 0)) (Node.bits i j)
            MV_UPDATE_PROB))
        0 MV_OFFSET_BITS.toNat s)
      0 2 s) fun s =>
  andThen
    (for_loop (fun i s =>
      andThen
        (for_loop (fun j s =>
            write_mv_update cfg Tree.vp10_mv_fp_tree (Node.class0_fp i j)
              ((counts.comps.getD i default).class0_fp.getD j []) MV_FP_SIZE s)
          0 CLASS0_SIZE.toNat s) fun s =>
      write_mv_update cfg Tree.vp10_mv_fp_tree (Node.fp i) (counts.comps.getD i default).fp
        MV_FP_SIZE s)
      0 2 s) fun s =>
  if usehp then
    for_loop (fun i s =>
        let s := update_mv cfg s (counts.comps.getD i default).class0_hp (Node.class0_hp i)
          MV_UPDATE_PROB
        .returned (update_mv cfg s (counts.comps.getD i default).hp (Node.hp i)
          MV_UPDATE_PROB))
      0 2 s
  else .returned s

/-- The state of a whole call of `vp10_write_nmv_probs`: the bit sink, the common state, and
for each context the nodes updated, in the order of the calls. -/
structure ProbsState where
  w : vp10_writer
  cm : VP10_COMMON
  nodes : List (Nat × Node)
  deriving DecidableEq, Repr

/-- The function `vp10_write_nmv_probs(cm, usehp, w, nmv_counts)`. With `CONFIG_REF_MV` the
contexts `cm->fc->nmvc[nmv_ctx]` are updated in turn from `nmv_counts[nmv_ctx]`; without it
`cm->fc->nmvc` is a single context, held at index 0, and `nmv_counts` points to its
counters. -/
def vp10_write_nmv_probs (cfg : Coder) (cm : VP10_COMMON) (usehp : Bool) (w : vp10_writer)
    (nmv_counts : List nmv_context_counts) : Outcome ProbsState :=
  let on_context (nmv_ctx : Nat) (t : ProbsState) : Outcome ProbsState :=
    let mvc := t.cm.fc.nmvc.getD nmv_ctx default
    let counts := nmv_counts.getD nmv_ctx default
    andThen
      (write_nmv_context_probs cfg usehp counts { w := t.w, mvc := mvc, nodes := [] })
      fun s =>
    .returned
      { w := s.w,
        cm := { t.cm with fc := { t.cm.fc with nmvc := t.cm.fc.nmvc.set nmv_ctx s.mvc } },
        nodes := t.nodes ++ s.nodes.map fun node => (nmv_ctx, node) }
  if cfg.CONFIG_REF_MV then
    for_loop on_context 0 NMV_CONTEXTS.toNat { w := w, cm := cm, nodes := [] }
  else
    on_context 0 { w := w, cm := cm, nodes := [] }

/-! ## Definitions used to state the properties of the motion-vector coder -/

/-- The integer part of a component as the specification lists it: the class-0 sub-tree
symbol `d` for class 0, otherwise the `mv_class + CLASS0_BITS - 1` raw bits of `d`, least
significant first, bit `i` with the probability `bits[i]`. -/
def integer_symbols (mvcomp : nmv_component) (mv_class d : Int) : List Symbol :=
  if mv_class = MV_CLASS_0 then [Symbol.token Tree.vp10_mv_class0_tree mvcomp.class0 d]
  else
    (List.range (mv_class + CLASS0_BITS - 1).toNat).map fun i =>
      Symbol.bit (d / 2 ^ i % 2) (mvcomp.bits.getD i 0)

/-- The symbols of one axis as the specification lists them, from the sign, the class and the
three fields of the offset: sign, class, integer part, fractional symbol (with the table
`class0_fp[d]` for class 0 and `fp` otherwise) and, when `usehp`, the high-precision bit. -/
def component_symbols (mvcomp : nmv_component) (usehp : Bool) (sign mv_class d fr hp : Int) :
    List Symbol :=
  [Symbol.bit sign mvcomp.sign,
    Symbol.token Tree.vp10_mv_class_tree mvcomp.classes mv_class] ++
  integer_symbols mvcomp mv_class d ++
  [Symbol.token Tree.vp10_mv_fp_tree
    (if mv_class = MV_CLASS_0 then mvcomp.class0_fp.getD d.toNat [] else mvcomp.fp) fr] ++
  (if usehp then
    [Symbol.bit hp (if mv_class = MV_CLASS_0 then mvcomp.class0_hp else mvcomp.hp)]
  else [])

/-- The symbols of the nonzero component value `comp`: the class and the offset are those of
the magnitude minus one, and the offset is `8 * d + 2 * fr + hp`. -/
def axis_symbols (mvcomp : nmv_component) (usehp : Bool) (comp : Int) : List Symbol :=
  component_symbols mvcomp usehp (if comp < 0 then 1 else 0)
    (vp10_get_mv_class (|comp| - 1)).1
    ((vp10_get_mv_class (|comp| - 1)).2 / 8)
    ((vp10_get_mv_class (|comp| - 1)).2 / 2 % 4)
    ((vp10_get_mv_class (|comp| - 1)).2 % 2)

/-- The per-axis symbols of a difference `diff` against the reference `ref` as the
specification lists them: the row symbols iff `diff.row` is nonzero, then the col symbols iff
`diff.col` is nonzero; the high-precision bit is written when `usehp` holds and the reference
allows high precision. -/
def axes_symbols (cfg : Coder) (mvctx : nmv_context) (usehp : Bool) (diff ref : MV) :
    List Symbol :=
  (if diff.row ≠ 0 then
    axis_symbols (mvctx.comps.getD 0 default) (usehp && cfg.vp10_use_mv_hp ref) diff.row
  else []) ++
  (if diff.col ≠ 0 then
    axis_symbols (mvctx.comps.getD 1 default) (usehp && cfg.vp10_use_mv_hp ref) diff.col
  else [])

/-- The symbols of a difference as the specification lists them: the joint type, then the
per-axis symbols. -/
def mv_symbols (cfg : Coder) (mvctx : nmv_context) (usehp : Bool) (diff ref : MV) :
    List Symbol :=
  Symbol.token Tree.vp10_mv_joint_tree mvctx.joints (vp10_get_mv_joint diff) ::
    axes_symbols cfg mvctx usehp diff ref

/-- The zero flag of a nonzero difference: a bit 0 coded with `zero_rmv` in a compound block of
the build with `CONFIG_REF_MV` and without `CONFIG_EXT_INTER`, nothing in the other builds and
blocks. -/
def zero_flag_symbols (cfg : Coder) (is_compound : Bool) (mvctx : nmv_context) : List Symbol :=
  if cfg.CONFIG_REF_MV && !cfg.CONFIG_EXT_INTER && is_compound then
    [Symbol.bit 0 mvctx.zero_rmv]
  else []

/-- The encoder state after `vp10_encode_mv` has written the vector `mv`. -/
def cpi_after (cpi : VP10_COMP) (mv : MV) : VP10_COMP :=
  if cpi.auto_mv_step_size then
    { cpi with
      max_mv_magnitude :=
        max (max (|mv.row|) (|mv.col|) / 8) cpi.max_mv_magnitude }
  else cpi

/-- The cost of one symbol under the cost functions of `cfg`: the cost of the decision for a
bit, the entry of the token in the cost array of its tree and probabilities for a token. -/
def symbol_cost (cfg : Coder) : Symbol → Int
  | .bit value probability =>
    if value = 0 then cfg.vp10_cost_zero probability else cfg.vp10_cost_one probability
  | .token tree probs index => cfg.vp10_cost_tokens probs tree index

/-- The cost of a sequence of symbols, the sum of the costs of its symbols. -/
def symbols_cost (cfg : Coder) (symbols : List Symbol) : Int :=
  (symbols.map (symbol_cost cfg)).sum

/-- A probability model with pairwise different probabilities, two components. -/
def sample_context : nmv_context :=
  { joints := [1, 2, 3], zero_rmv := 9,
    comps := [
      { sign := 10, classes := [11, 12, 13, 14, 15, 16, 17, 18, 19, 20], class0 := [21],
        bits := [30, 31, 32, 33, 34, 35, 36, 37, 38, 39],
        class0_fp := [[40, 41, 42], [43, 44, 45]], fp := [46, 47, 48],
        class0_hp := 50, hp := 51 },
      { sign := 110, classes := [111, 112, 113, 114, 115, 116, 117, 118, 119, 120],
        class0 := [121], bits := [130, 131, 132, 133, 134, 135, 136, 137, 138, 139],
        class0_fp := [[140, 141, 142], [143, 144, 145]], fp := [146, 147, 148],
        class0_hp := 150, hp := 151 }] }

/-- A sample of the external functions: the reference allows high precision when both of its
components are below 64, a node with counts is moved to its first count and signalled with
a bit 1, a node without counts is kept and signalled with a bit 0. -/
def sample_coder (ref_mv ext_inter : Bool) : Coder :=
  { CONFIG_REF_MV := ref_mv,
    CONFIG_EXT_INTER := ext_inter,
    vp10_use_mv_hp := fun ref => decide (ref.row.natAbs / 8 < 8 ∧ ref.col.natAbs / 8 < 8),
    vp10_cost_zero := fun p => p,
    vp10_cost_one := fun p => 256 - p,
    vp10_cost_tokens := fun probs _ token => probs.sum + token,
    vp10_tree_probs_from_distribution := fun _ counts i => (counts.getD i 0, counts.getD (i + 1) 0),
    vp10_cond_prob_diff_update := fun p ct =>
      if ct.1 + ct.2 = 0 then ([Symbol.bit 0 252], p) else ([Symbol.bit 1 252], ct.1) }

/-- A sample encoder state with `auto_mv_step_size` enabled. -/
def sample_cpi : VP10_COMP := { auto_mv_step_size := true, max_mv_magnitude := 0 }

/-- The state after a list of nodes has been updated in turn, each with its pair of branch
counts. -/
def update_nodes (cfg : Coder) : List (Node × (Nat × Nat)) → UpdateState → UpdateState
  | [], s => s
  | (node, ct) :: rest, s => update_nodes cfg rest (vp10_cond_prob_diff_update cfg s node ct)

/-- The nodes of one tree-coded array of `n - 1` probabilities with the branch counts derived
from the distribution `counts`, in the order of the array. -/
def tree_schedule (cfg : Coder) (tree : Tree) (probs : Nat → Node) (counts : List Nat)
    (n : Int) : List (Node × (Nat × Nat)) :=
  (List.range (n - 1).toNat).map fun i =>
    (probs i, cfg.vp10_tree_probs_from_distribution tree counts i)

/-- The nodes of a context with their branch counts in the order the specification gives:
the joint tree (and `zero_rmv` in the `CONFIG_REF_MV` build); for each component sign, class
tree, class-0 tree and raw bits; for each component the `class0_fp` tables and the `fp` table;
and, only when `usehp`, for each component `class0_hp` and `hp`. -/
def context_schedule (cfg : Coder) (usehp : Bool) (counts : nmv_context_counts) :
    List (Node × (Nat × Nat)) :=
  tree_schedule cfg Tree.vp10_mv_joint_tree Node.joints counts.joints MV_JOINTS ++
  (if cfg.CONFIG_REF_MV then [(Node.zero_rmv, counts.zero_rmv)] else []) ++
  ((List.range 2).flatMap fun i =>
    [(Node.sign i, (counts.comps.getD i default).sign)] ++
    tree_schedule cfg Tree.vp10_mv_class_tree (Node.classes i)
      (counts.comps.getD i default).classes MV_CLASSES ++
    tree_schedule cfg Tree.vp10_mv_class0_tree (Node.class0 i)
      (counts.comps.getD i default).class0 CLASS0_SIZE ++
    (List.range MV_OFFSET_BITS.toNat).map fun j =>
      (Node.bits i j, (counts.comps.getD i default).bits.getD j (0, 0))) ++
  ((List.range 2).flatMap fun i =>
    ((List.range CLASS0_SIZE.toNat).flatMap fun j =>
      tree_schedule cfg Tree.vp10_mv_fp_tree (Node.class0_fp i j)
        ((counts.comps.getD i default).class0_fp.getD j []) MV_FP_SIZE) ++
    tree_schedule cfg Tree.vp10_mv_fp_tree (Node.fp i) (counts.comps.getD i default).fp
      MV_FP_SIZE) ++
  (if usehp then
    (List.range 2).flatMap fun i =>
      [(Node.class0_hp i, (counts.comps.getD i default).class0_hp),
        (Node.hp i, (counts.comps.getD i default).hp)]
  else [])

/-- The serialisation order of the nodes of a context as the specification gives it for the
build without `CONFIG_REF_MV`: the `MV_JOINTS - 1` joint-tree nodes; then for component 0 and
then component 1 the sign, the `MV_CLASSES - 1` class-tree nodes, the `CLASS0_SIZE - 1` class-0
nodes and the `MV_OFFSET_BITS` raw-bit nodes; then for component 0 and then component 1 the
`class0_fp` tables (one per class-0 value, `MV_FP_SIZE - 1` nodes each) followed by the `fp`
table; then, only when `usehp` is set, for each component `class0_hp` followed by `hp`. -/
def node_order (usehp : Bool) : List Node :=
  (List.range 3).map Node.joints ++
  ((List.range 2).flatMap fun comp =>
    [Node.sign comp] ++ (List.range 10).map (Node.classes comp) ++
    (List.range 1).map (Node.class0 comp) ++ (List.range 10).map (Node.bits comp)) ++
  ((List.range 2).flatMap fun comp =>
    ((List.range 2).flatMap fun j => (List.range 3).map (Node.class0_fp comp j)) ++
    (List.range 3).map (Node.fp comp)) ++
  (if usehp then (List.range 2).flatMap fun comp => [Node.class0_hp comp, Node.hp comp] else [])

/-- The high-precision nodes, `class0_hp` and `hp` of a component. -/
def Node.high_precision : Node → Bool
  | .class0_hp _ => true
  | .hp _ => true
  | _ => false

/-- The counters of one axis when nothing has been counted. -/
def zero_component_counts : nmv_component_counts :=
  { sign := (0, 0),
    classes := List.replicate 11 0,
    class0 := List.replicate 2 0,
    bits := List.replicate 10 (0, 0),
    class0_fp := List.replicate 2 (List.replicate 4 0),
    fp := List.replicate 4 0,
    class0_hp := (0, 0),
    hp := (0, 0) }

/-- The all-zero counts structure of one context. -/
def zero_counts : nmv_context_counts :=
  { joints := List.replicate 4 0,
    zero_rmv := (0, 0),
    comps := List.replicate 2 zero_component_counts }

/-- Counters of one axis in which every node has been counted. -/
def sample_component_counts : nmv_component_counts :=
  { sign := (1, 2),
    classes := List.replicate 11 3,
    class0 := [5, 6],
    bits := List.replicate 10 (7, 8),
    class0_fp := [[1, 2, 3, 4], [5, 6, 7, 8]],
    fp := [9, 10, 11, 12],
    class0_hp := (13, 14),
    hp := (15, 16) }

/-- Counters of a context in which every node has been counted. -/
def sample_counts : nmv_context_counts :=
  { joints := [1, 2, 3, 4], zero_rmv := (5, 5),
    comps := [sample_component_counts, sample_component_counts] }

/-- The integer a reader rebuilds from the `n` raw bits `(d >> i) & 1`, `i < n`, that
`encode_mv_component` writes for the integer part `d` (and `build_nmv_component_cost_table`
prices): bit `i` has the weight `2 ^ i`. -/
def raw_bits_value (d : Int) (n : Nat) : Int :=
  ((List.range n).map fun (i : Nat) => Int.land (d >>> i) 1 * 2 ^ i).sum

/-- The call `vp10_encode_mv` leaves before the joint type is written: the build has
`CONFIG_REF_MV` without `CONFIG_EXT_INTER`, the block is compound and the difference is zero,
so that only the zero flag is written. -/
def zero_flag_only (cfg : Coder) (mv ref : MV) (is_compound : Bool) : Prop :=
  (cfg.CONFIG_REF_MV && !cfg.CONFIG_EXT_INTER) = true ∧ is_compound = true ∧
    mv.row - ref.row = 0 ∧ mv.col - ref.col = 0

/-- What the update of the node `x.1` with the branch counts `x.2` writes, `old` being the
context before the call of `vp10_write_nmv_probs`: the symbols that
`vp10_cond_prob_diff_update` writes for the probability `old` holds at the node. -/
def update_symbols (cfg : Coder) (old : nmv_context) (x : Node × (Nat × Nat)) : List Symbol :=
  (cfg.vp10_cond_prob_diff_update (old.load x.1) x.2).1

/-- The probability that the update of the node `x.1` with the branch counts `x.2` leaves at
the node, `old` being the context before the call of `vp10_write_nmv_probs`. -/
def update_value (cfg : Coder) (old : nmv_context) (x : Node × (Nat × Nat)) : vpx_prob :=
  (cfg.vp10_cond_prob_diff_update (old.load x.1) x.2).2

/-- The context `old` after each node of a list has been given its updated probability, in
the order of the list. -/
def updated_context (cfg : Coder) (old : nmv_context) (l : List (Node × (Nat × Nat))) :
    nmv_context :=
  l.foldl (fun mvc x => mvc.store (update_value cfg old x) x.1) old

end Encodemv

namespace Picklpf

/-! ## Lemmas about the loop of `search_filter_level` -/

section frame_lemmas
variable (ops : Operators) (sd : YV12_BUFFER_CONFIG) (partial_frame plane dir : Int)

@[simp] theorem search_eval_filt_mid (lvl : Int) (s : SearchState) :
    (search_eval ops sd partial_frame plane dir lvl s).filt_mid = s.filt_mid := by
  unfold search_eval; split <;> rfl

@[simp] theorem search_eval_filter_step (lvl : Int) (s : SearchState) :
    (search_eval ops sd partial_frame plane dir lvl s).filter_step = s.filter_step := by
  unfold search_eval; split <;> rfl

@[simp] theorem search_eval_filt_direction (lvl : Int) (s : SearchState) :
    (search_eval ops sd partial_frame plane dir lvl s).filt_direction = s.filt_direction := by
  unfold search_eval; split <;> rfl

@[simp] theorem search_eval_best_err (lvl : Int) (s : SearchState) :
    (search_eval ops sd partial_frame plane dir lvl s).best_err = s.best_err := by
  unfold search_eval; split <;> rfl

@[simp] theorem search_eval_filt_best (lvl : Int) (s : SearchState) :
    (search_eval ops sd partial_frame plane dir lvl s).filt_best = s.filt_best := by
  unfold search_eval; split <;> rfl

@[simp] theorem search_low_filt_mid (filt_low bias : Int) (s : SearchState) :
    (search_low ops sd partial_frame plane dir filt_low bias s).filt_mid = s.filt_mid := by
  unfold search_low; dsimp only; split_ifs <;> simp

@[simp] theorem search_low_filter_step (filt_low bias : Int) (s : SearchState) :
    (search_low ops sd partial_frame plane dir filt_low bias s).filter_step = s.filter_step := by
  unfold search_low; dsimp only; split_ifs <;> simp

@[simp] theorem search_low_filt_direction (filt_low bias : Int) (s : SearchState) :
    (search_low ops sd partial_frame plane dir filt_low bias s).filt_direction
      = s.filt_direction := by
  unfold search_low; dsimp only; split_ifs <;> simp

@[simp] theorem search_high_filt_mid (filt_high bias : Int) (s : SearchState) :
    (search_high ops sd partial_frame plane dir filt_high bias s).filt_mid = s.filt_mid := by
  unfold search_high; dsimp only; split_ifs <;> simp

@[simp] theorem search_high_filter_step (filt_high bias : Int) (s : SearchState) :
    (search_high ops sd partial_frame plane dir filt_high bias s).filter_step
      = s.filter_step := by
  unfold search_high; dsimp only; split_ifs <;> simp

@[simp] theorem search_high_filt_direction (filt_high bias : Int) (s : SearchState) :
    (search_high ops sd partial_frame plane dir filt_high bias s).filt_direction
      = s.filt_direction := by
  unfold search_high; dsimp only; split_ifs <;> simp

/-- The low block either leaves `filt_best` alone or, when it was entered, sets it to
`filt_low`. -/
theorem search_low_filt_best (filt_low bias : Int) (s : SearchState) :
    (search_low ops sd partial_frame plane dir filt_low bias s).filt_best = s.filt_best ∨
    ((search_low ops sd partial_frame plane dir filt_low bias s).filt_best = filt_low ∧
      s.filt_direction ≤ 0 ∧ filt_low ≠ s.filt_mid) := by
  unfold search_low; dsimp only; split_ifs with h1 h2 <;> simp [h1]

/-- The high block either leaves `filt_best` alone or, when it was entered, sets it to
`filt_high`. -/
theorem search_high_filt_best (filt_high bias : Int) (s : SearchState) :
    (search_high ops sd partial_frame plane dir filt_high bias s).filt_best = s.filt_best ∨
    ((search_high ops sd partial_frame plane dir filt_high bias s).filt_best = filt_high ∧
      s.filt_direction ≥ 0 ∧ filt_high ≠ s.filt_mid) := by
  unfold search_high; dsimp only; split_ifs with h1 h2 <;> simp [h1]

end frame_lemmas

section termination
variable (ops : Operators) (sd : YV12_BUFFER_CONFIG) (partial_frame plane dir : Int)

theorem AOMMIN_eq (x y : Int) : AOMMIN x y = min x y := by
  unfold AOMMIN; split_ifs <;> omega

theorem AOMMAX_eq (x y : Int) : AOMMAX x y = max x y := by
  unfold AOMMAX; split_ifs <;> omega

theorem clamp_range (v lo hi : Int) (h : lo ≤ hi) : lo ≤ clamp v lo hi ∧ clamp v lo hi ≤ hi := by
  unfold clamp; split_ifs <;> omega

theorem av1_get_max_filter_level_eq (cpi : AV1_COMP) :
    av1_get_max_filter_level cpi
      = if cpi.pass = 2 ∧ cpi.section_intra_rating > 8 then 47 else 63 := by
  unfold av1_get_max_filter_level MAX_LOOP_FILTER
  split_ifs <;> first | rfl | (exfalso; tauto)

theorem av1_get_max_filter_level_range (cpi : AV1_COMP) :
    0 ≤ av1_get_max_filter_level cpi ∧ av1_get_max_filter_level cpi ≤ 63 := by
  rw [av1_get_max_filter_level_eq]; split_ifs <;> omega

/-- What one iteration does to the variables that steer the loop. -/
theorem search_iter_cases (m : Int) (s : SearchState) (hb : s.filt_best = s.filt_mid)
    (h0 : 0 ≤ s.filt_mid) (hm : s.filt_mid ≤ m) (hs : 0 ≤ s.filter_step) :
    (search_iter ops sd partial_frame plane dir m s).filt_best
      = (search_iter ops sd partial_frame plane dir m s).filt_mid ∧
    (((search_iter ops sd partial_frame plane dir m s).filt_mid = s.filt_mid ∧
      (search_iter ops sd partial_frame plane dir m s).filter_step
        = Int.tdiv s.filter_step 2 ∧
      (search_iter ops sd partial_frame plane dir m s).filt_direction = 0) ∨
     ((search_iter ops sd partial_frame plane dir m s).filt_mid
        = max (s.filt_mid - s.filter_step) 0 ∧
      (search_iter ops sd partial_frame plane dir m s).filt_mid < s.filt_mid ∧
      (search_iter ops sd partial_frame plane dir m s).filter_step = s.filter_step ∧
      (search_iter ops sd partial_frame plane dir m s).filt_direction = -1 ∧
      s.filt_direction ≤ 0) ∨
     ((search_iter ops sd partial_frame plane dir m s).filt_mid
        = min (s.filt_mid + s.filter_step) m ∧
      s.filt_mid < (search_iter ops sd partial_frame plane dir m s).filt_mid ∧
      (search_iter ops sd partial_frame plane dir m s).filter_step = s.filter_step ∧
      (search_iter ops sd partial_frame plane dir m s).filt_direction = 1 ∧
      s.filt_direction ≥ 0)) := by
  have hlow := search_low_filt_best ops sd partial_frame plane dir
    (max (s.filt_mid - s.filter_step) 0) (search_bias s) s
  have hhigh := search_high_filt_best ops sd partial_frame plane dir
    (min (s.filt_mid + s.filter_step) m) (search_bias s)
    (search_low ops sd partial_frame plane dir (max (s.filt_mid - s.filter_step) 0)
      (search_bias s) s)
  simp only [search_low_filt_mid, search_low_filt_direction] at hhigh
  have e1 := search_high_filt_mid ops sd partial_frame plane dir
    (min (s.filt_mid + s.filter_step) m) (search_bias s)
    (search_low ops sd partial_frame plane dir (max (s.filt_mid - s.filter_step) 0)
      (search_bias s) s)
  have e2 := search_high_filter_step ops sd partial_frame plane dir
    (min (s.filt_mid + s.filter_step) m) (search_bias s)
    (search_low ops sd partial_frame plane dir (max (s.filt_mid - s.filter_step) 0)
      (search_bias s) s)
  simp only [search_low_filt_mid, search_low_filter_step] at e1 e2
  simp only [search_iter, search_body, search_advance, AOMMAX_eq, AOMMIN_eq]
  generalize search_low ops sd partial_frame plane dir (max (s.filt_mid - s.filter_step) 0)
    (search_bias s) s = v at hlow hhigh e1 e2 ⊢
  generalize search_high ops sd partial_frame plane dir (min (s.filt_mid + s.filter_step) m)
    (search_bias s) v = u at hhigh e1 e2 ⊢
  by_cases hc : u.filt_best = u.filt_mid
  · simp only [hc, if_true]
    exact ⟨trivial, Or.inl ⟨e1, by rw [e2], trivial⟩⟩
  · simp only [hc, if_false, true_and]
    rcases hhigh with hh | ⟨hh, hd, hne⟩
    · rcases hlow with hl | ⟨hl, hd, hne⟩
      · exact absurd (hh.trans (hl.trans (hb.trans e1.symm))) hc
      · right; left
        have hlt : max (s.filt_mid - s.filter_step) 0 < s.filt_mid := by omega
        have hbest := hh.trans hl
        rw [e1, hbest, if_pos hlt]
        exact ⟨rfl, hlt, e2, rfl, hd⟩
    · right; right
      have hlt : s.filt_mid < min (s.filt_mid + s.filter_step) m := by omega
      rw [e1, hh, if_neg (by omega)]
      exact ⟨rfl, hlt, e2, rfl, hd⟩

/-- One iteration keeps the invariant. -/
theorem search_iter_inv (m : Int) (s : SearchState) (h : SearchInv m s) :
    SearchInv m (search_iter ops sd partial_frame plane dir m s) := by
  obtain ⟨hmax, h0, hm, hb, hs, hd⟩ := h
  obtain ⟨c0, c⟩ := search_iter_cases ops sd partial_frame plane dir m s hb h0 hm hs
  have ht : Int.tdiv s.filter_step 2 = s.filter_step / 2 :=
    Int.tdiv_eq_ediv hs (by decide)
  rcases c with ⟨a1, a2, a3⟩ | ⟨a1, a2, a3, a4, _⟩ | ⟨a1, a2, a3, a4, _⟩
  · exact ⟨hmax, by omega, by omega, c0, by omega, by omega⟩
  · exact ⟨hmax, by omega, by omega, c0, by omega, by omega⟩
  · exact ⟨hmax, by omega, by omega, c0, by omega, by omega⟩

/-- One iteration with a positive step lowers the measure. -/
theorem search_iter_measure (m : Int) (s : SearchState) (h : SearchInv m s)
    (hpos : 0 < s.filter_step) :
    search_measure m (search_iter ops sd partial_frame plane dir m s) < search_measure m s := by
  obtain ⟨hmax, h0, hm, hb, hs, hd⟩ := h
  obtain ⟨_, c⟩ := search_iter_cases ops sd partial_frame plane dir m s hb h0 hm hs
  have ht : Int.tdiv s.filter_step 2 = s.filter_step / 2 :=
    Int.tdiv_eq_ediv hs (by decide)
  unfold search_measure
  have hposm : 0 < s.filter_step * 66 +
      (if s.filt_direction = 0 then m + 2
       else if s.filt_direction < 0 then s.filt_mid + 1
       else m - s.filt_mid + 1) := by
    split_ifs <;> omega
  rw [Int.toNat_lt_toNat hposm]
  rcases c with ⟨a1, a2, a3⟩ | ⟨a1, a2, a3, a4, a5⟩ | ⟨a1, a2, a3, a4, a5⟩
  · rw [a1, a2, a3, ht]; split_ifs <;> omega
  · rw [a3, a4]; split_ifs <;> first | omega | contradiction
  · rw [a3, a4]; split_ifs <;> omega

/-- The loop exits, with step 0, as soon as the fuel covers the measure; a property `P` that
every iteration keeps (under the invariant) holds at the exit. -/
theorem search_loop_exits (m : Int) (P : SearchState → Prop)
    (hP : ∀ s, SearchInv m s → P s → P (search_iter ops sd partial_frame plane dir m s))
    (fuel : Nat) :
    ∀ s : SearchState, SearchInv m s → P s → search_measure m s ≤ fuel →
      ∃ t, search_loop ops sd partial_frame plane dir m fuel s = some t ∧
        t.filter_step = 0 ∧ SearchInv m t ∧ P t := by
  induction fuel with
  | zero =>
    intro s h hp hle
    have hs := h.step_nonneg
    have h0 := h.mid_nonneg
    have hm := h.mid_le
    have hz : s.filter_step = 0 := by
      unfold search_measure at hle
      have := Int.toNat_eq_zero.mp (Nat.le_zero.mp hle)
      split_ifs at this <;> omega
    exact ⟨s, by simp [search_loop, hz], hz, h, hp⟩
  | succ n ih =>
    intro s h hp hle
    by_cases hpos : s.filter_step > 0
    · have hdec := search_iter_measure ops sd partial_frame plane dir m s h hpos
      obtain ⟨t, ht, hz, hi⟩ := ih _ (search_iter_inv ops sd partial_frame plane dir m s h)
        (hP s h hp) (by omega)
      exact ⟨t, by simp [search_loop, hpos, ht], hz, hi⟩
    · have hz : s.filter_step = 0 := by have := h.step_nonneg; omega
      exact ⟨s, by simp [search_loop, hz], hz, h, hp⟩

/-- Whatever the fuel, a state the loop exits with has step 0 and keeps the invariant and
every property that each iteration keeps. -/
theorem search_loop_some (m : Int) (P : SearchState → Prop)
    (hP : ∀ s, SearchInv m s → P s → P (search_iter ops sd partial_frame plane dir m s))
    (fuel : Nat) :
    ∀ s t : SearchState, SearchInv m s → P s →
      search_loop ops sd partial_frame plane dir m fuel s = some t →
        t.filter_step = 0 ∧ SearchInv m t ∧ P t := by
  induction fuel with
  | zero =>
    intro s t h hp hrun
    by_cases hpos : s.filter_step > 0
    · simp [search_loop, hpos] at hrun
    · have hz : s.filter_step = 0 := by have := h.step_nonneg; omega
      simp only [search_loop, hpos, if_false, Option.some.injEq] at hrun
      subst hrun
      exact ⟨hz, h, hp⟩
  | succ n ih =>
    intro s t h hp hrun
    by_cases hpos : s.filter_step > 0
    · simp only [search_loop, hpos, if_true] at hrun
      exact ih _ t (search_iter_inv ops sd partial_frame plane dir m s h) (hP s h hp) hrun
    · have hz : s.filter_step = 0 := by have := h.step_nonneg; omega
      simp only [search_loop, hpos, if_false, Option.some.injEq] at hrun
      subst hrun
      exact ⟨hz, h, hp⟩

/-- The state at loop entry satisfies the invariant. -/
theorem search_init_inv (cpi : AV1_COMP) :
    SearchInv (av1_get_max_filter_level cpi)
      (search_init ops sd cpi partial_frame plane dir) := by
  obtain ⟨hm0, hm⟩ := av1_get_max_filter_level_range cpi
  obtain ⟨c0, c1⟩ := clamp_range (search_start_level ops cpi plane dir) 0
    (av1_get_max_filter_level cpi) hm0
  refine ⟨hm, c0, c1, rfl, ?_, Or.inr (Or.inl rfl)⟩
  simp only [search_init]
  split_ifs with h16
  · decide
  · rw [Int.tdiv_eq_ediv c0 (by decide)]; omega

/-- The measure at loop entry is at most `SEARCH_FUEL`. -/
theorem search_init_measure (cpi : AV1_COMP) :
    search_measure (av1_get_max_filter_level cpi)
      (search_init ops sd cpi partial_frame plane dir) ≤ SEARCH_FUEL := by
  obtain ⟨hm0, hm⟩ := av1_get_max_filter_level_range cpi
  obtain ⟨c0, c1⟩ := clamp_range (search_start_level ops cpi plane dir) 0
    (av1_get_max_filter_level cpi) hm0
  simp only [search_measure, search_init, SEARCH_FUEL, if_true]
  split_ifs with h16
  · omega
  · rw [Int.tdiv_eq_ediv c0 (by decide)]; omega

end termination

/-- C1. The loop of `search_filter_level` terminates: whatever the operators (hence whatever
error curve they produce), the previous filter levels and the bias configuration (`pass`,
`section_intra_rating`, `tx_mode`) held by `cpi`, `SEARCH_FUEL` iterations (or any larger
number) reach the loop exit, and there `filter_step` is 0. -/
theorem search_filter_level_terminates (ops : Operators) (sd : YV12_BUFFER_CONFIG)
    (cpi : AV1_COMP) (partial_frame plane dir : Int) (extra : Nat) :
    ∃ s, search_run (SEARCH_FUEL + extra) ops sd cpi partial_frame plane dir = some s ∧
      s.filter_step = 0 := by
  obtain ⟨t, ht, hz, _⟩ := search_loop_exits ops sd partial_frame plane dir
    (av1_get_max_filter_level cpi) (fun _ => True) (fun _ _ _ => trivial)
    (SEARCH_FUEL + extra) _
    (search_init_inv ops sd partial_frame plane dir cpi) trivial
    (le_trans (search_init_measure ops sd partial_frame plane dir cpi) (Nat.le_add_right _ _))
  exact ⟨t, ht, hz⟩

/-! ### Memoisation -/

theorem ss_get_set (a : List Int) (i j v : Int) (hi : 0 ≤ i) (hj : 0 ≤ j)
    (hlen : i < a.length) :
    ss_get (ss_set a i v) j = if j = i then v else ss_get a j := by
  unfold ss_get ss_set
  have hlt : i.toNat < a.length := by omega
  rw [List.getD_eq_getElem?_getD, List.getD_eq_getElem?_getD, List.getElem?_set]
  by_cases hji : j = i
  · subst hji; simp [hlt]
  · have : i.toNat ≠ j.toNat := by omega
    simp [this, hji]

section memo
variable (ops : Operators) (sd : YV12_BUFFER_CONFIG) (partial_frame plane dir : Int)

/-- A trial measures what the distortion operator returns, so a non-negative operator gives a
non-negative error. -/
theorem try_filter_frame_nonneg
    (hpos : ∀ a b p h, 0 ≤ ops.aom_get_sse_plane a b p h) (cpi : AV1_COMP) (lvl : Int) :
    0 ≤ (try_filter_frame ops sd cpi lvl partial_frame plane dir).1 := by
  unfold try_filter_frame
  split_ifs <;> exact hpos _ _ _ _

theorem search_eval_memo (m : Int) (hm : m ≤ 63)
    (hpos : ∀ a b p h, 0 ≤ ops.aom_get_sse_plane a b p h)
    (lvl : Int) (h0 : 0 ≤ lvl) (h1 : lvl ≤ m) (s : SearchState) (h : MemoInv m s) :
    MemoInv m (search_eval ops sd partial_frame plane dir lvl s) := by
  obtain ⟨hlen, hseen, hnd, hr⟩ := h
  unfold search_eval
  split_ifs with hneg
  · have hnot : lvl ∉ s.tried := (hseen lvl h0 (by omega)).mp hneg
    have hr1 := try_filter_frame_nonneg ops sd partial_frame plane dir hpos s.cpi lvl
    refine ⟨?_, ?_, ?_, ?_⟩
    · simp only [ss_set, List.length_set]; exact hlen
    · intro i hi0 hi1
      simp only
      rw [ss_get_set _ _ _ _ h0 hi0 (by rw [hlen]; omega)]
      by_cases hil : i = lvl
      · subst hil
        simp only [if_true, List.mem_append, List.mem_singleton, or_true, not_true_eq_false,
          iff_false, not_lt]
        exact hr1
      · simp only [hil, if_false, List.mem_append, List.mem_singleton, or_false]
        exact hseen i hi0 hi1
    · simp only
      rw [List.nodup_append]
      refine ⟨hnd, List.nodup_singleton _, ?_⟩
      intro x hx hx2
      rw [List.mem_singleton] at hx2
      exact hnot (hx2 ▸ hx)
    · intro l hl
      simp only [List.mem_append, List.mem_singleton] at hl
      rcases hl with hl | hl
      · exact hr l hl
      · subst hl; exact ⟨h0, h1⟩
  · exact ⟨hlen, hseen, hnd, hr⟩

/-- The memo invariant only looks at `ss_err` and `tried`. -/
theorem MemoInv_congr {m : Int} {s t : SearchState} (h : MemoInv m s)
    (h1 : t.ss_err = s.ss_err) (h2 : t.tried = s.tried) : MemoInv m t := by
  obtain ⟨hlen, hseen, hnd, hr⟩ := h
  exact ⟨h1 ▸ hlen, by rw [h1, h2]; exact hseen, h2 ▸ hnd, by rw [h2]; exact hr⟩

theorem search_low_memo (m : Int) (hm : m ≤ 63)
    (hpos : ∀ a b p h, 0 ≤ ops.aom_get_sse_plane a b p h)
    (lvl bias : Int) (h0 : 0 ≤ lvl) (h1 : lvl ≤ m) (s : SearchState) (h : MemoInv m s) :
    MemoInv m (search_low ops sd partial_frame plane dir lvl bias s) := by
  have he := search_eval_memo ops sd partial_frame plane dir m hm hpos lvl h0 h1 s h
  unfold search_low
  dsimp only
  split_ifs <;> first | exact h | exact he | exact MemoInv_congr he rfl rfl

theorem search_high_memo (m : Int) (hm : m ≤ 63)
    (hpos : ∀ a b p h, 0 ≤ ops.aom_get_sse_plane a b p h)
    (lvl bias : Int) (h0 : 0 ≤ lvl) (h1 : lvl ≤ m) (s : SearchState) (h : MemoInv m s) :
    MemoInv m (search_high ops sd partial_frame plane dir lvl bias s) := by
  have he := search_eval_memo ops sd partial_frame plane dir m hm hpos lvl h0 h1 s h
  unfold search_high
  dsimp only
  split_ifs <;> first | exact h | exact he | exact MemoInv_congr he rfl rfl

theorem search_iter_memo (m : Int)
    (hpos : ∀ a b p h, 0 ≤ ops.aom_get_sse_plane a b p h)
    (s : SearchState) (hi : SearchInv m s) (h : MemoInv m s) :
    MemoInv m (search_iter ops sd partial_frame plane dir m s) := by
  obtain ⟨hmax, h0, hm, hb, hs, hd⟩ := hi
  have hl := search_low_memo ops sd partial_frame plane dir m hmax hpos
    (AOMMAX (s.filt_mid - s.filter_step) 0) (search_bias s)
    (by rw [AOMMAX_eq]; omega) (by rw [AOMMAX_eq]; omega) s h
  have hh := search_high_memo ops sd partial_frame plane dir m hmax hpos
    (AOMMIN (s.filt_mid + s.filter_step) m) (search_bias s)
    (by rw [AOMMIN_eq]; omega) (by rw [AOMMIN_eq]; omega) _ hl
  unfold search_iter search_body search_advance
  dsimp only
  split_ifs <;> exact MemoInv_congr hh rfl rfl

theorem search_init_memo (hpos : ∀ a b p h, 0 ≤ ops.aom_get_sse_plane a b p h)
    (cpi : AV1_COMP) :
    MemoInv (av1_get_max_filter_level cpi)
      (search_init ops sd cpi partial_frame plane dir) := by
  obtain ⟨hm0, hm⟩ := av1_get_max_filter_level_range cpi
  obtain ⟨c0, c1⟩ := clamp_range (search_start_level ops cpi plane dir) 0
    (av1_get_max_filter_level cpi) hm0
  have hlen : (List.replicate (MAX_LOOP_FILTER + 1).toNat (-1 : Int)).length = 64 := by
    simp [MAX_LOOP_FILTER]
  refine ⟨?_, ?_, ?_, ?_⟩
  · simp only [search_init, ss_set, List.length_set]; exact hlen
  · intro i hi0 hi1
    simp only [search_init]
    rw [ss_get_set _ _ _ _ c0 hi0 (by rw [hlen]; omega)]
    by_cases hil : i = clamp (search_start_level ops cpi plane dir) 0
        (av1_get_max_filter_level cpi)
    · rw [if_pos hil]
      simp only [List.mem_singleton, hil, not_true_eq_false, iff_false, not_lt]
      exact try_filter_frame_nonneg ops sd partial_frame plane dir hpos _ _
    · rw [if_neg hil]
      simp only [List.mem_singleton, hil, not_false_eq_true, iff_true]
      unfold ss_get
      rw [List.getD_eq_getElem?_getD, List.getElem?_replicate]
      have : i.toNat < (MAX_LOOP_FILTER + 1).toNat := by simp [MAX_LOOP_FILTER]; omega
      simp [this]
  · simp [search_init]
  · intro l hl
    simp only [search_init, List.mem_singleton] at hl
    subst hl
    exact ⟨c0, c1⟩

end memo

/-- C2. When the distortion operator is non-negative (a non-negative error curve), one run of
`search_filter_level` reaches its loop exit and has passed every level to
`try_filter_frame` at most once; every level passed lies in `0..max_filter_level`. -/
theorem search_filter_level_tries_once (ops : Operators) (sd : YV12_BUFFER_CONFIG)
    (cpi : AV1_COMP) (partial_frame plane dir : Int) (extra : Nat)
    (hpos : ∀ a b p h, 0 ≤ ops.aom_get_sse_plane a b p h) :
    ∃ s, search_run (SEARCH_FUEL + extra) ops sd cpi partial_frame plane dir = some s ∧
      (∀ i : Int, s.tried.count i ≤ 1) ∧
      (∀ i ∈ s.tried, 0 ≤ i ∧ i ≤ av1_get_max_filter_level cpi) := by
  obtain ⟨t, ht, _, _, hmemo⟩ := search_loop_exits ops sd partial_frame plane dir
    (av1_get_max_filter_level cpi) (MemoInv (av1_get_max_filter_level cpi))
    (fun s hi hp => search_iter_memo ops sd partial_frame plane dir _ hpos s hi hp)
    (SEARCH_FUEL + extra) _
    (search_init_inv ops sd partial_frame plane dir cpi)
    (search_init_memo ops sd partial_frame plane dir hpos cpi)
    (le_trans (search_init_measure ops sd partial_frame plane dir cpi) (Nat.le_add_right _ _))
  exact ⟨t, ht, List.nodup_iff_count_le_one.mp hmemo.nodup, hmemo.range⟩

/-- Witness for C2: the operators of the curve `(i - 4)^2` are non-negative. -/
theorem search_filter_level_tries_once_witness :
    ∃ s, search_run (SEARCH_FUEL + 0) (curve_operators false fun i => (i - 4) ^ 2)
        sample_source (sample_cpi 0 0 1 32) 0 0 0 = some s ∧
      (∀ i : Int, s.tried.count i ≤ 1) ∧
      (∀ i ∈ s.tried, 0 ≤ i ∧ i ≤ av1_get_max_filter_level (sample_cpi 0 0 1 32)) :=
  search_filter_level_tries_once (curve_operators false fun i => (i - 4) ^ 2)
    sample_source (sample_cpi 0 0 1 32) 0 0 0 0 (fun _ _ _ _ => sq_nonneg _)

/-! ### Frames and settings -/

theorem yv12_copy_plane_plane (src dst : YV12_BUFFER_CONFIG) (p : Int) :
    (yv12_copy_plane src dst p).plane p = src.plane p := by
  unfold yv12_copy_plane YV12_BUFFER_CONFIG.plane aom_yv12_copy_y aom_yv12_copy_u
    aom_yv12_copy_v
  split_ifs <;> rfl

section frames
variable (ops : Operators) (sd : YV12_BUFFER_CONFIG) (partial_frame plane dir : Int)

theorem try_filter_frame_settings (cpi : AV1_COMP) (lvl : Int) :
    (try_filter_frame ops sd cpi lvl partial_frame plane dir).2.settings = cpi.settings := by
  unfold try_filter_frame; split_ifs <;> rfl

theorem try_filter_frame_last_frame_uf (cpi : AV1_COMP) (lvl : Int) :
    (try_filter_frame ops sd cpi lvl partial_frame plane dir).2.last_frame_uf
      = cpi.last_frame_uf := by
  unfold try_filter_frame; split_ifs <;> rfl

/-- After a trial the searched plane of the reconstructed frame is the one of the snapshot. -/
theorem try_filter_frame_restores (cpi : AV1_COMP) (lvl : Int) :
    (try_filter_frame ops sd cpi lvl partial_frame plane dir).2.frame_to_show.plane
        (searched_plane ops plane)
      = cpi.last_frame_uf.plane (searched_plane ops plane) := by
  unfold try_filter_frame searched_plane
  split_ifs <;> exact yv12_copy_plane_plane _ _ _

theorem try_filter_frame_frame_inv (cpi0 cpi : AV1_COMP) (lvl : Int)
    (h : FrameInv ops plane cpi0 cpi) :
    FrameInv ops plane cpi0 (try_filter_frame ops sd cpi lvl partial_frame plane dir).2 := by
  obtain ⟨h1, _, h3⟩ := h
  refine ⟨?_, ?_, ?_⟩
  · rw [try_filter_frame_settings]; exact h1
  · rw [try_filter_frame_restores]; exact h3
  · rw [try_filter_frame_last_frame_uf]; exact h3

theorem search_eval_frame_inv (cpi0 : AV1_COMP) (lvl : Int) (s : SearchState)
    (h : FrameInv ops plane cpi0 s.cpi) :
    FrameInv ops plane cpi0 (search_eval ops sd partial_frame plane dir lvl s).cpi := by
  unfold search_eval
  split_ifs
  · exact try_filter_frame_frame_inv ops sd partial_frame plane dir cpi0 s.cpi lvl h
  · exact h

theorem search_low_frame_inv (cpi0 : AV1_COMP) (lvl bias : Int) (s : SearchState)
    (h : FrameInv ops plane cpi0 s.cpi) :
    FrameInv ops plane cpi0 (search_low ops sd partial_frame plane dir lvl bias s).cpi := by
  have he := search_eval_frame_inv ops sd partial_frame plane dir cpi0 lvl s h
  unfold search_low
  dsimp only
  split_ifs <;> first | exact h | exact he

theorem search_high_frame_inv (cpi0 : AV1_COMP) (lvl bias : Int) (s : SearchState)
    (h : FrameInv ops plane cpi0 s.cpi) :
    FrameInv ops plane cpi0 (search_high ops sd partial_frame plane dir lvl bias s).cpi := by
  have he := search_eval_frame_inv ops sd partial_frame plane dir cpi0 lvl s h
  unfold search_high
  dsimp only
  split_ifs <;> first | exact h | exact he

theorem search_iter_frame_inv (cpi0 : AV1_COMP) (m : Int) (s : SearchState)
    (h : FrameInv ops plane cpi0 s.cpi) :
    FrameInv ops plane cpi0 (search_iter ops sd partial_frame plane dir m s).cpi := by
  have hh := search_high_frame_inv ops sd partial_frame plane dir cpi0
    (AOMMIN (s.filt_mid + s.filter_step) m) (search_bias s) _
    (search_low_frame_inv ops sd partial_frame plane dir cpi0
      (AOMMAX (s.filt_mid - s.filter_step) 0) (search_bias s) s h)
  unfold search_iter search_body search_advance
  dsimp only
  split_ifs <;> exact hh

theorem search_init_frame_inv (cpi : AV1_COMP) :
    FrameInv ops plane cpi (search_init ops sd cpi partial_frame plane dir).cpi := by
  simp only [search_init]
  apply try_filter_frame_frame_inv
  split_ifs with hc
  · exact ⟨rfl, rfl, by simp only [searched_plane, hc, if_true]; exact yv12_copy_plane_plane _ _ _⟩
  · exact ⟨rfl, rfl, by simp only [searched_plane, hc]; rfl⟩

/-- What a run of `search_filter_level` with enough fuel ends in. -/
theorem search_run_spec (cpi : AV1_COMP) (extra : Nat) :
    ∃ s, search_run (SEARCH_FUEL + extra) ops sd cpi partial_frame plane dir = some s ∧
      0 ≤ s.filt_best ∧ s.filt_best ≤ av1_get_max_filter_level cpi ∧
      FrameInv ops plane cpi s.cpi := by
  obtain ⟨t, ht, _, hinv, hf⟩ := search_loop_exits ops sd partial_frame plane dir
    (av1_get_max_filter_level cpi) (fun s => FrameInv ops plane cpi s.cpi)
    (fun s _ hp => search_iter_frame_inv ops sd partial_frame plane dir cpi _ s hp)
    (SEARCH_FUEL + extra) _
    (search_init_inv ops sd partial_frame plane dir cpi)
    (search_init_frame_inv ops sd partial_frame plane dir cpi)
    (le_trans (search_init_measure ops sd partial_frame plane dir cpi) (Nat.le_add_right _ _))
  exact ⟨t, ht, hinv.best_eq ▸ hinv.mid_nonneg, hinv.best_eq ▸ hinv.mid_le, hf⟩

end frames

/-! ### `search_filter_level` and `av1_pick_filter_level` as a whole -/

theorem settings_fields {a b : AV1_COMP} (h : a.settings = b.settings) :
    a.pass = b.pass ∧ a.section_intra_rating = b.section_intra_rating ∧ a.lf = b.lf :=
  ⟨by have := congrArg AV1_COMP.pass h; exact this,
    by have := congrArg AV1_COMP.section_intra_rating h; exact this,
    by have := congrArg AV1_COMP.lf h; exact this⟩

theorem av1_get_max_filter_level_congr {a b : AV1_COMP} (h1 : a.pass = b.pass)
    (h2 : a.section_intra_rating = b.section_intra_rating) :
    av1_get_max_filter_level a = av1_get_max_filter_level b := by
  unfold av1_get_max_filter_level; rw [h1, h2]

section whole
variable (ops : Operators) (sd : YV12_BUFFER_CONFIG)

/-- With enough fuel `search_filter_level` returns, for a plane in `0..2` (any plane without
the build switch), a level in `[0, max_filter_level]` and a state that keeps the invariant. -/
theorem search_filter_level_returns (cpi : AV1_COMP) (partial_frame plane dir : Int)
    (extra : Nat) (hv : ¬ (ops.CONFIG_LOOPFILTER_LEVEL ∧ ¬ (plane = 0 ∨ plane = 1 ∨ plane = 2))) :
    ∃ l c, search_filter_level (SEARCH_FUEL + extra) ops sd cpi partial_frame plane dir
        = .returned (l, c) ∧
      0 ≤ l ∧ l ≤ av1_get_max_filter_level cpi ∧ FrameInv ops plane cpi c := by
  obtain ⟨s, hs, h0, h1, hf⟩ := search_run_spec ops sd partial_frame plane dir cpi extra
  refine ⟨s.filt_best, s.cpi, ?_, h0, h1, hf⟩
  unfold search_filter_level
  rw [if_neg hv, hs]

theorem with_search_returns (cpi : AV1_COMP) (partial_frame plane dir : Int) (extra : Nat)
    (hv : ¬ (ops.CONFIG_LOOPFILTER_LEVEL ∧ ¬ (plane = 0 ∨ plane = 1 ∨ plane = 2))) :
    ∃ l c, (∀ k, with_search (SEARCH_FUEL + extra) ops sd cpi partial_frame plane dir k
        = k l c) ∧
      0 ≤ l ∧ l ≤ av1_get_max_filter_level cpi ∧ c.pass = cpi.pass ∧
      c.section_intra_rating = cpi.section_intra_rating ∧ c.lf = cpi.lf := by
  obtain ⟨l, c, hr, h0, h1, hf⟩ :=
    search_filter_level_returns ops sd cpi partial_frame plane dir extra hv
  exact ⟨l, c, fun k => by unfold with_search; rw [hr], h0, h1, settings_fields hf.settings⟩

/-- The search methods: with enough fuel `av1_pick_filter_level` returns; every level it
assigns is in range; pass, rating and sharpness level are the ones on entry to the searches. -/
theorem pick_search_spec (cpi : AV1_COMP) (method : LPF_PICK_METHOD) (extra : Nat)
    (hm : method = .LPF_PICK_FROM_FULL_IMAGE ∨ method = .LPF_PICK_FROM_SUBIMAGE) :
    ∃ c, av1_pick_filter_level (SEARCH_FUEL + extra) ops sd cpi method = .returned c ∧
      (∀ l ∈ written_levels ops method c.lf,
        0 ≤ l ∧ l ≤ av1_get_max_filter_level cpi) ∧
      c.lf.sharpness_level = (if cpi.frame_type = KEY_FRAME then 0 else cpi.sharpness) := by
  have hne : method ≠ .LPF_PICK_MINIMAL_LPF := by rcases hm with h | h <;> rw [h] <;> decide
  have hlt : ¬ method.toInt ≥ LPF_PICK_METHOD.LPF_PICK_FROM_Q.toInt := by
    rcases hm with h | h <;> rw [h] <;> decide
  unfold av1_pick_filter_level
  simp only [hne, hlt, if_false]
  cases hc : ops.CONFIG_LOOPFILTER_LEVEL
  · simp only [Bool.false_eq_true, if_false]
    obtain ⟨l, c, hk, h0, h1, p1, r1, f1⟩ := with_search_returns ops sd
      { cpi with lf := { cpi.lf with
          sharpness_level := if cpi.frame_type = KEY_FRAME then 0 else cpi.sharpness } }
      (if method = .LPF_PICK_FROM_SUBIMAGE then 1 else 0) 0 0 extra (by simp [hc])
    rw [hk]
    refine ⟨_, rfl, ?_, ?_⟩
    · intro x hx
      simp only [written_levels, hc, Bool.false_eq_true, if_false, List.mem_singleton] at hx
      subst hx
      exact ⟨h0, h1⟩
    · simp only [f1]
  · simp only [if_true]
    obtain ⟨l1, c1, hk1, -, -, p1, r1, f1⟩ := with_search_returns ops sd
      { cpi with lf := { cpi.lf with
          sharpness_level := if cpi.frame_type = KEY_FRAME then 0 else cpi.sharpness } }
      (if method = .LPF_PICK_FROM_SUBIMAGE then 1 else 0) 0 2 extra (by simp)
    rw [hk1]
    obtain ⟨l2, c2, hk2, a2, b2, p2, r2, f2⟩ := with_search_returns ops sd
      { c1 with lf := { c1.lf with filter_level_0 := l1, filter_level_1 := l1 } }
      (if method = .LPF_PICK_FROM_SUBIMAGE then 1 else 0) 0 0 extra (by simp)
    rw [hk2]
    obtain ⟨l3, c3, hk3, a3, b3, p3, r3, f3⟩ := with_search_returns ops sd
      { c2 with lf := { c2.lf with filter_level_0 := l2 } }
      (if method = .LPF_PICK_FROM_SUBIMAGE then 1 else 0) 0 1 extra (by simp)
    rw [hk3]
    obtain ⟨l4, c4, hk4, a4, b4, p4, r4, f4⟩ := with_search_returns ops sd
      { c3 with lf := { c3.lf with filter_level_1 := l3 } }
      (if method = .LPF_PICK_FROM_SUBIMAGE then 1 else 0) 1 0 extra (by simp)
    rw [hk4]
    obtain ⟨l5, c5, hk5, a5, b5, p5, r5, f5⟩ := with_search_returns ops sd
      { c4 with lf := { c4.lf with filter_level_u := l4 } }
      (if method = .LPF_PICK_FROM_SUBIMAGE then 1 else 0) 2 0 extra (by simp)
    rw [hk5]
    have q1 : c1.pass = cpi.pass := p1
    have q2 : c2.pass = cpi.pass := p2.trans q1
    have q3 : c3.pass = cpi.pass := p3.trans q2
    have q4 : c4.pass = cpi.pass := p4.trans q3
    have s1 : c1.section_intra_rating = cpi.section_intra_rating := r1
    have s2 : c2.section_intra_rating = cpi.section_intra_rating := r2.trans s1
    have s3 : c3.section_intra_rating = cpi.section_intra_rating := r3.trans s2
    have s4 : c4.section_intra_rating = cpi.section_intra_rating := r4.trans s3
    have e2 : av1_get_max_filter_level
        { c1 with lf := { c1.lf with filter_level_0 := l1, filter_level_1 := l1 } }
        = av1_get_max_filter_level cpi := av1_get_max_filter_level_congr q1 s1
    have e3 : av1_get_max_filter_level { c2 with lf := { c2.lf with filter_level_0 := l2 } }
        = av1_get_max_filter_level cpi := av1_get_max_filter_level_congr q2 s2
    have e4 : av1_get_max_filter_level { c3 with lf := { c3.lf with filter_level_1 := l3 } }
        = av1_get_max_filter_level cpi := av1_get_max_filter_level_congr q3 s3
    have e5 : av1_get_max_filter_level { c4 with lf := { c4.lf with filter_level_u := l4 } }
        = av1_get_max_filter_level cpi := av1_get_max_filter_level_congr q4 s4
    rw [e2] at b2
    rw [e3] at b3
    rw [e4] at b4
    rw [e5] at b5
    refine ⟨_, rfl, ?_, ?_⟩
    · intro x hx
      simp only [written_levels, hc, if_true, hne, if_false, f5, f4, f3, List.mem_cons,
        List.mem_singleton, List.not_mem_nil, or_false] at hx
      rcases hx with hx | hx | hx | hx <;> subst hx
      · exact ⟨a2, b2⟩
      · exact ⟨a3, b3⟩
      · exact ⟨a4, b4⟩
      · exact ⟨a5, b5⟩
    · simp only [f5, f4, f3, f2, f1]

end whole

section pick
variable (ops : Operators) (sd : YV12_BUFFER_CONFIG)

theorem ROUND_POWER_OF_TWO_eq (value : Int) (n : Nat) :
    ROUND_POWER_OF_TWO value n = (value + 2 ^ (n - 1)) / 2 ^ n := by
  unfold ROUND_POWER_OF_TWO
  rw [Int.shiftRight_eq_div_pow, Nat.shiftLeft_eq, one_mul]
  push_cast
  rfl

/-- The method `LPF_PICK_MINIMAL_LPF` in closed form. -/
theorem pick_minimal_eq (fuel : Nat) (cpi : AV1_COMP) :
    av1_pick_filter_level fuel ops sd cpi .LPF_PICK_MINIMAL_LPF =
      .returned
        (if ops.CONFIG_LOOPFILTER_LEVEL then
          { cpi with lf := { cpi.lf with
              filter_level_0 := 0, filter_level_1 := 0,
              sharpness_level := if cpi.frame_type = KEY_FRAME then 0 else cpi.sharpness } }
        else
          { cpi with lf := { cpi.lf with
              filter_level := 0,
              sharpness_level :=
                if cpi.frame_type = KEY_FRAME then 0 else cpi.sharpness } }) := by
  unfold av1_pick_filter_level
  simp only [if_true]
  split_ifs <;> rfl

/-- The method `LPF_PICK_FROM_Q` in closed form. -/
theorem pick_from_q_eq (fuel : Nat) (cpi : AV1_COMP) :
    av1_pick_filter_level fuel ops sd cpi .LPF_PICK_FROM_Q =
      match filt_guess_switch cpi.bit_depth cpi.frame_type
          (ops.av1_ac_quant_Q3 cpi.base_qindex 0 cpi.bit_depth) with
      | none =>
        .assert_failed { cpi with lf := { cpi.lf with
          sharpness_level := if cpi.frame_type = KEY_FRAME then 0 else cpi.sharpness } }
      | some g =>
        .returned
          (if ops.CONFIG_LOOPFILTER_LEVEL then
            { cpi with lf := { cpi.lf with
                filter_level_0 :=
                  clamp (if cpi.bit_depth ≠ AOM_BITS_8 ∧ cpi.frame_type = KEY_FRAME
                    then g - 4 else g) 0 (av1_get_max_filter_level cpi),
                filter_level_1 :=
                  clamp (if cpi.bit_depth ≠ AOM_BITS_8 ∧ cpi.frame_type = KEY_FRAME
                    then g - 4 else g) 0 (av1_get_max_filter_level cpi),
                filter_level_u :=
                  clamp (if cpi.bit_depth ≠ AOM_BITS_8 ∧ cpi.frame_type = KEY_FRAME
                    then g - 4 else g) 0 (av1_get_max_filter_level cpi),
                filter_level_v :=
                  clamp (if cpi.bit_depth ≠ AOM_BITS_8 ∧ cpi.frame_type = KEY_FRAME
                    then g - 4 else g) 0 (av1_get_max_filter_level cpi),
                sharpness_level :=
                  if cpi.frame_type = KEY_FRAME then 0 else cpi.sharpness } }
          else
            { cpi with lf := { cpi.lf with
                filter_level :=
                  clamp (if cpi.bit_depth ≠ AOM_BITS_8 ∧ cpi.frame_type = KEY_FRAME
                    then g - 4 else g) 0 (av1_get_max_filter_level cpi),
                sharpness_level :=
                  if cpi.frame_type = KEY_FRAME then 0 else cpi.sharpness } }) := by
  unfold av1_pick_filter_level
  have h1 : ¬ (LPF_PICK_METHOD.LPF_PICK_FROM_Q = LPF_PICK_METHOD.LPF_PICK_MINIMAL_LPF) := by
    decide
  have h2 : LPF_PICK_METHOD.LPF_PICK_FROM_Q.toInt ≥ LPF_PICK_METHOD.LPF_PICK_FROM_Q.toInt :=
    le_refl _
  simp only [h1, h2, if_true, if_false]
  cases filt_guess_switch cpi.bit_depth cpi.frame_type
      (ops.av1_ac_quant_Q3 cpi.base_qindex 0 cpi.bit_depth) with
  | none => rfl
  | some g =>
    simp only
    split_ifs <;> rfl

theorem filt_guess_switch_none (bit_depth frame_type q : Int) :
    filt_guess_switch bit_depth frame_type q = none ↔
      ¬ (bit_depth = 8 ∨ bit_depth = 10 ∨ bit_depth = 12) := by
  unfold filt_guess_switch AOM_BITS_8 AOM_BITS_10 AOM_BITS_12
  split_ifs <;> simp_all

end pick

/-- C3. The maximum level `M = av1_get_max_filter_level` is 47 when `pass == 2` and
`section_intra_rating > 8` and 63 otherwise; `search_filter_level` returns (with enough fuel)
a level in `[0, M]`, whatever the previous levels are; and every level that
`av1_pick_filter_level` assigns lies in `[0, M]`, for every method and bit depth (the only
call that does not return normally is the closed-form method on an unsupported bit depth). -/
theorem pick_filter_level_in_range (ops : Operators) (sd : YV12_BUFFER_CONFIG)
    (cpi : AV1_COMP) (method : LPF_PICK_METHOD) (extra : Nat) :
    (av1_get_max_filter_level cpi
      = if cpi.pass = 2 ∧ cpi.section_intra_rating > 8 then 47 else 63) ∧
    (∀ partial_frame plane dir : Int,
      match search_filter_level (SEARCH_FUEL + extra) ops sd cpi partial_frame plane dir with
      | .returned r => 0 ≤ r.1 ∧ r.1 ≤ av1_get_max_filter_level cpi
      | .assert_failed r =>
        r.1 = 0 ∧ ops.CONFIG_LOOPFILTER_LEVEL ∧ ¬ (plane = 0 ∨ plane = 1 ∨ plane = 2)
      | .out_of_fuel => False) ∧
    (match av1_pick_filter_level (SEARCH_FUEL + extra) ops sd cpi method with
      | .returned c =>
        ∀ l ∈ written_levels ops method c.lf, 0 ≤ l ∧ l ≤ av1_get_max_filter_level cpi
      | .assert_failed _ =>
        method = .LPF_PICK_FROM_Q ∧
          ¬ (cpi.bit_depth = 8 ∨ cpi.bit_depth = 10 ∨ cpi.bit_depth = 12)
      | .out_of_fuel => False) := by
  obtain ⟨hm0, hm⟩ := av1_get_max_filter_level_range cpi
  refine ⟨av1_get_max_filter_level_eq cpi, ?_, ?_⟩
  · intro partial_frame plane dir
    by_cases hv : ops.CONFIG_LOOPFILTER_LEVEL ∧ ¬ (plane = 0 ∨ plane = 1 ∨ plane = 2)
    · have : search_filter_level (SEARCH_FUEL + extra) ops sd cpi partial_frame plane dir
          = .assert_failed (0, cpi) := by
        unfold search_filter_level; rw [if_pos hv]
      rw [this]
      exact ⟨rfl, hv⟩
    · obtain ⟨l, c, hr, h0, h1, _⟩ :=
        search_filter_level_returns ops sd cpi partial_frame plane dir extra hv
      rw [hr]
      exact ⟨h0, h1⟩
  · cases method with
    | LPF_PICK_FROM_FULL_IMAGE =>
      obtain ⟨c, hc, hr, _⟩ := pick_search_spec ops sd cpi _ extra (Or.inl rfl)
      rw [hc]; exact hr
    | LPF_PICK_FROM_SUBIMAGE =>
      obtain ⟨c, hc, hr, _⟩ := pick_search_spec ops sd cpi _ extra (Or.inr rfl)
      rw [hc]; exact hr
    | LPF_PICK_FROM_Q =>
      rw [pick_from_q_eq]
      cases hg : filt_guess_switch cpi.bit_depth cpi.frame_type
          (ops.av1_ac_quant_Q3 cpi.base_qindex 0 cpi.bit_depth) with
      | none => exact ⟨rfl, (filt_guess_switch_none _ _ _).mp hg⟩
      | some g =>
        intro l hl
        have hcl := clamp_range
          (if cpi.bit_depth ≠ AOM_BITS_8 ∧ cpi.frame_type = KEY_FRAME then g - 4 else g) 0
          (av1_get_max_filter_level cpi) hm0
        cases hcfg : ops.CONFIG_LOOPFILTER_LEVEL <;>
          simp [written_levels, hcfg] at hl <;> subst hl <;> exact hcl
    | LPF_PICK_MINIMAL_LPF =>
      rw [pick_minimal_eq]
      intro l hl
      cases hcfg : ops.CONFIG_LOOPFILTER_LEVEL <;>
        simp [written_levels, hcfg] at hl <;> subst hl <;> exact ⟨le_refl _, hm0⟩

/-- C6. For bit depth 8 the closed-form method returns, and every level it assigns is
`clamp(floor((q*17563 - 421574 + 2^17) / 2^18), 0, max_filter_level)` on a key frame and
`clamp(floor((q*6017 + 650707 + 2^17) / 2^18), 0, max_filter_level)` on another frame, where
`q` is the AC quantizer value; on a key frame with `q = 100` the level is exactly 5. -/
theorem from_q_8bit_formula (fuel : Nat) (ops : Operators) (sd : YV12_BUFFER_CONFIG)
    (cpi : AV1_COMP) (h8 : cpi.bit_depth = 8) :
    ∃ c, av1_pick_filter_level fuel ops sd cpi .LPF_PICK_FROM_Q = .returned c ∧
      (∀ l ∈ written_levels ops .LPF_PICK_FROM_Q c.lf,
        l = clamp
          (if cpi.frame_type = KEY_FRAME then
            (ops.av1_ac_quant_Q3 cpi.base_qindex 0 cpi.bit_depth * 17563 - 421574 + 2 ^ 17)
              / 2 ^ 18
           else
            (ops.av1_ac_quant_Q3 cpi.base_qindex 0 cpi.bit_depth * 6017 + 650707 + 2 ^ 17)
              / 2 ^ 18)
          0 (av1_get_max_filter_level cpi)) ∧
      (cpi.frame_type = KEY_FRAME →
        ops.av1_ac_quant_Q3 cpi.base_qindex 0 cpi.bit_depth = 100 →
        ∀ l ∈ written_levels ops .LPF_PICK_FROM_Q c.lf, l = 5) := by
  have hsw : filt_guess_switch cpi.bit_depth cpi.frame_type
      (ops.av1_ac_quant_Q3 cpi.base_qindex 0 cpi.bit_depth)
      = some (if cpi.frame_type = KEY_FRAME then
            (ops.av1_ac_quant_Q3 cpi.base_qindex 0 cpi.bit_depth * 17563 - 421574 + 2 ^ 17)
              / 2 ^ 18
           else
            (ops.av1_ac_quant_Q3 cpi.base_qindex 0 cpi.bit_depth * 6017 + 650707 + 2 ^ 17)
              / 2 ^ 18) := by
    unfold filt_guess_switch
    rw [if_pos (by rw [h8]; rfl), ROUND_POWER_OF_TWO_eq, ROUND_POWER_OF_TWO_eq]
  have hno : ¬ (cpi.bit_depth ≠ AOM_BITS_8 ∧ cpi.frame_type = KEY_FRAME) := by
    rw [h8]; intro h; exact h.1 rfl
  rw [pick_from_q_eq, hsw]
  simp only [hno, if_false]
  have hall : ∀ l ∈ written_levels ops .LPF_PICK_FROM_Q
      (if ops.CONFIG_LOOPFILTER_LEVEL then
        ({ cpi with lf := { cpi.lf with
            filter_level_0 := clamp (if cpi.frame_type = KEY_FRAME then
                (ops.av1_ac_quant_Q3 cpi.base_qindex 0 cpi.bit_depth * 17563 - 421574 + 2 ^ 17)
                  / 2 ^ 18
              else
                (ops.av1_ac_quant_Q3 cpi.base_qindex 0 cpi.bit_depth * 6017 + 650707 + 2 ^ 17)
                  / 2 ^ 18) 0 (av1_get_max_filter_level cpi),
            filter_level_1 := clamp (if cpi.frame_type = KEY_FRAME then
                (ops.av1_ac_quant_Q3 cpi.base_qindex 0 cpi.bit_depth * 17563 - 421574 + 2 ^ 17)
                  / 2 ^ 18
              else
                (ops.av1_ac_quant_Q3 cpi.base_qindex 0 cpi.bit_depth * 6017 + 650707 + 2 ^ 17)
                  / 2 ^ 18) 0 (av1_get_max_filter_level cpi),
            filter_level_u := clamp (if cpi.frame_type = KEY_FRAME then
                (ops.av1_ac_quant_Q3 cpi.base_qindex 0 cpi.bit_depth * 17563 - 421574 + 2 ^ 17)
                  / 2 ^ 18
              else
                (ops.av1_ac_quant_Q3 cpi.base_qindex 0 cpi.bit_depth * 6017 + 650707 + 2 ^ 17)
                  / 2 ^ 18) 0 (av1_get_max_filter_level cpi),
            filter_level_v := clamp (if cpi.frame_type = KEY_FRAME then
                (ops.av1_ac_quant_Q3 cpi.base_qindex 0 cpi.bit_depth * 17563 - 421574 + 2 ^ 17)
                  / 2 ^ 18
              else
                (ops.av1_ac_quant_Q3 cpi.base_qindex 0 cpi.bit_depth * 6017 + 650707 + 2 ^ 17)
                  / 2 ^ 18) 0 (av1_get_max_filter_level cpi),
            sharpness_level :=
              if cpi.frame_type = KEY_FRAME then 0 else cpi.sharpness } } : AV1_COMP)
      else
        { cpi with lf := { cpi.lf with
            filter_level := clamp (if cpi.frame_type = KEY_FRAME then
                (ops.av1_ac_quant_Q3 cpi.base_qindex 0 cpi.bit_depth * 17563 - 421574 + 2 ^ 17)
                  / 2 ^ 18
              else
                (ops.av1_ac_quant_Q3 cpi.base_qindex 0 cpi.bit_depth * 6017 + 650707 + 2 ^ 17)
                  / 2 ^ 18) 0 (av1_get_max_filter_level cpi),
            sharpness_level :=
              if cpi.frame_type = KEY_FRAME then 0 else cpi.sharpness } }).lf,
      l = clamp
          (if cpi.frame_type = KEY_FRAME then
            (ops.av1_ac_quant_Q3 cpi.base_qindex 0 cpi.bit_depth * 17563 - 421574 + 2 ^ 17)
              / 2 ^ 18
           else
            (ops.av1_ac_quant_Q3 cpi.base_qindex 0 cpi.bit_depth * 6017 + 650707 + 2 ^ 17)
              / 2 ^ 18)
          0 (av1_get_max_filter_level cpi) := by
    intro l hl
    cases hcfg : ops.CONFIG_LOOPFILTER_LEVEL <;>
      simp [written_levels, hcfg] at hl <;> exact hl
  refine ⟨_, rfl, hall, ?_⟩
  intro hkey hq l hl
  have := hall l hl
  rw [if_pos hkey, hq] at this
  rw [this]
  have hM := av1_get_max_filter_level_eq cpi
  unfold clamp
  rw [hM]
  split_ifs <;> omega

/-- Witness for C6: an 8-bit key frame whose quantizer value is 100. -/
theorem from_q_8bit_formula_witness :
    sample_key_cpi.bit_depth = 8 ∧
    ∃ c, av1_pick_filter_level 0 (curve_operators false fun _ => 0) sample_source
        sample_key_cpi .LPF_PICK_FROM_Q = .returned c ∧
      (∀ l ∈ written_levels (curve_operators false fun _ => 0) .LPF_PICK_FROM_Q c.lf,
        l = clamp
          (if sample_key_cpi.frame_type = KEY_FRAME then
            ((curve_operators false fun _ => 0).av1_ac_quant_Q3 sample_key_cpi.base_qindex 0
                sample_key_cpi.bit_depth * 17563 - 421574 + 2 ^ 17) / 2 ^ 18
           else
            ((curve_operators false fun _ => 0).av1_ac_quant_Q3 sample_key_cpi.base_qindex 0
                sample_key_cpi.bit_depth * 6017 + 650707 + 2 ^ 17) / 2 ^ 18)
          0 (av1_get_max_filter_level sample_key_cpi)) ∧
      (sample_key_cpi.frame_type = KEY_FRAME →
        (curve_operators false fun _ => 0).av1_ac_quant_Q3 sample_key_cpi.base_qindex 0
          sample_key_cpi.bit_depth = 100 →
        ∀ l ∈ written_levels (curve_operators false fun _ => 0) .LPF_PICK_FROM_Q c.lf,
          l = 5) :=
  ⟨rfl, from_q_8bit_formula 0 (curve_operators false fun _ => 0) sample_source
    sample_key_cpi rfl⟩

/-- C7, counterexample. With per-plane levels enabled and previous levels 12, 13 (luma),
7 (chroma U) and 9 (chroma V), the method `LPF_PICK_MINIMAL_LPF` returns with the luma levels
0 and the chroma levels still 7 and 9. -/
theorem minimal_keeps_chroma_levels :
    ∃ c, av1_pick_filter_level 0 (curve_operators true fun _ => 0) sample_source
        sample_levels_cpi .LPF_PICK_MINIMAL_LPF = .returned c ∧
      c.lf.filter_level_0 = 0 ∧ c.lf.filter_level_1 = 0 ∧
      c.lf.filter_level_u = 7 ∧ c.lf.filter_level_v = 9 :=
  ⟨_, rfl, by decide, by decide, by decide, by decide⟩

/-- C7, amended. The method `LPF_PICK_MINIMAL_LPF` always returns; without per-plane levels
the scalar level is 0 afterwards; with them both luma levels are 0 and the chroma U and chroma
V levels are the previous ones. -/
theorem pick_minimal_levels (fuel : Nat) (ops : Operators) (sd : YV12_BUFFER_CONFIG)
    (cpi : AV1_COMP) :
    ∃ c, av1_pick_filter_level fuel ops sd cpi .LPF_PICK_MINIMAL_LPF = .returned c ∧
      (if ops.CONFIG_LOOPFILTER_LEVEL then
        c.lf.filter_level_0 = 0 ∧ c.lf.filter_level_1 = 0 ∧
        c.lf.filter_level_u = cpi.lf.filter_level_u ∧
        c.lf.filter_level_v = cpi.lf.filter_level_v
      else c.lf.filter_level = 0) := by
  refine ⟨_, pick_minimal_eq ops sd fuel cpi, ?_⟩
  cases hcfg : ops.CONFIG_LOOPFILTER_LEVEL <;> simp

/-- C8. For every method the call of `av1_pick_filter_level` ends (normally, or in the failed
bit-depth assertion) with sharpness level 0 on a key frame and the configured sharpness on
any other frame. -/
theorem pick_sharpness_level (ops : Operators) (sd : YV12_BUFFER_CONFIG) (cpi : AV1_COMP)
    (method : LPF_PICK_METHOD) (extra : Nat) :
    ∃ c, (av1_pick_filter_level (SEARCH_FUEL + extra) ops sd cpi method = .returned c ∨
        av1_pick_filter_level (SEARCH_FUEL + extra) ops sd cpi method = .assert_failed c) ∧
      c.lf.sharpness_level = (if cpi.frame_type = KEY_FRAME then 0 else cpi.sharpness) := by
  cases method with
  | LPF_PICK_FROM_FULL_IMAGE =>
    obtain ⟨c, hc, _, hs⟩ := pick_search_spec ops sd cpi _ extra (Or.inl rfl)
    exact ⟨c, Or.inl hc, hs⟩
  | LPF_PICK_FROM_SUBIMAGE =>
    obtain ⟨c, hc, _, hs⟩ := pick_search_spec ops sd cpi _ extra (Or.inr rfl)
    exact ⟨c, Or.inl hc, hs⟩
  | LPF_PICK_FROM_Q =>
    rw [pick_from_q_eq]
    cases filt_guess_switch cpi.bit_depth cpi.frame_type
        (ops.av1_ac_quant_Q3 cpi.base_qindex 0 cpi.bit_depth) with
    | none => exact ⟨_, Or.inr rfl, rfl⟩
    | some g =>
      refine ⟨_, Or.inl rfl, ?_⟩
      cases hcfg : ops.CONFIG_LOOPFILTER_LEVEL <;> simp
  | LPF_PICK_MINIMAL_LPF =>
    rw [pick_minimal_eq]
    refine ⟨_, Or.inl rfl, ?_⟩
    cases hcfg : ops.CONFIG_LOOPFILTER_LEVEL <;> simp

/-- C9. The closed-form method ends in the failed assertion exactly when the bit depth is none
of 8, 10, 12 (otherwise it returns normally), and a call that ends there has assigned no
filter level: all five level fields hold their previous values. -/
theorem from_q_bit_depth_assertion (fuel : Nat) (ops : Operators) (sd : YV12_BUFFER_CONFIG)
    (cpi : AV1_COMP) :
    ((∃ c, av1_pick_filter_level fuel ops sd cpi .LPF_PICK_FROM_Q = .assert_failed c) ↔
      ¬ (cpi.bit_depth = 8 ∨ cpi.bit_depth = 10 ∨ cpi.bit_depth = 12)) ∧
    ((∃ c, av1_pick_filter_level fuel ops sd cpi .LPF_PICK_FROM_Q = .returned c) ↔
      (cpi.bit_depth = 8 ∨ cpi.bit_depth = 10 ∨ cpi.bit_depth = 12)) ∧
    (∀ c, av1_pick_filter_level fuel ops sd cpi .LPF_PICK_FROM_Q = .assert_failed c →
      c.lf.filter_level = cpi.lf.filter_level ∧
      c.lf.filter_level_0 = cpi.lf.filter_level_0 ∧
      c.lf.filter_level_1 = cpi.lf.filter_level_1 ∧
      c.lf.filter_level_u = cpi.lf.filter_level_u ∧
      c.lf.filter_level_v = cpi.lf.filter_level_v) := by
  rw [pick_from_q_eq]
  have hnone := filt_guess_switch_none cpi.bit_depth cpi.frame_type
    (ops.av1_ac_quant_Q3 cpi.base_qindex 0 cpi.bit_depth)
  cases hg : filt_guess_switch cpi.bit_depth cpi.frame_type
      (ops.av1_ac_quant_Q3 cpi.base_qindex 0 cpi.bit_depth) with
  | none =>
    rw [hg] at hnone
    have hbad := hnone.mp rfl
    refine ⟨⟨fun _ => hbad, fun _ => ⟨_, rfl⟩⟩, ⟨?_, fun h => absurd h hbad⟩, ?_⟩
    · rintro ⟨c, hc⟩; cases hc
    · intro c hc
      cases hc
      exact ⟨rfl, rfl, rfl, rfl, rfl⟩
  | some g =>
    rw [hg] at hnone
    have hgood : cpi.bit_depth = 8 ∨ cpi.bit_depth = 10 ∨ cpi.bit_depth = 12 := by
      by_contra hbad
      exact absurd (hnone.mpr hbad) (by simp)
    refine ⟨⟨?_, fun h => absurd hgood h⟩, ⟨fun _ => hgood, fun _ => ⟨_, rfl⟩⟩, ?_⟩
    · rintro ⟨c, hc⟩; cases hc
    · intro c hc; cases hc

/-- C10. After `try_filter_frame`, whatever the level and the operators, the searched plane of
the reconstructed frame is the searched plane of the snapshot, and the snapshot is untouched;
and when `search_filter_level` returns (it does, with enough fuel), the searched plane of the
reconstructed frame, and of the snapshot taken before the first trial, is the plane that the
reconstructed frame held before the search. -/
theorem search_restores_frame (ops : Operators) (sd : YV12_BUFFER_CONFIG) (cpi : AV1_COMP)
    (partial_frame plane dir : Int) (extra : Nat) :
    (∀ filt_level : Int,
      (try_filter_frame ops sd cpi filt_level partial_frame plane dir).2.frame_to_show.plane
          (searched_plane ops plane)
        = cpi.last_frame_uf.plane (searched_plane ops plane) ∧
      (try_filter_frame ops sd cpi filt_level partial_frame plane dir).2.last_frame_uf
        = cpi.last_frame_uf) ∧
    (match search_filter_level (SEARCH_FUEL + extra) ops sd cpi partial_frame plane dir with
      | .returned r =>
        r.2.frame_to_show.plane (searched_plane ops plane)
          = cpi.frame_to_show.plane (searched_plane ops plane) ∧
        r.2.last_frame_uf.plane (searched_plane ops plane)
          = cpi.frame_to_show.plane (searched_plane ops plane)
      | .assert_failed r =>
        r.2 = cpi ∧ ops.CONFIG_LOOPFILTER_LEVEL ∧ ¬ (plane = 0 ∨ plane = 1 ∨ plane = 2)
      | .out_of_fuel => False) := by
  refine ⟨fun filt_level =>
    ⟨try_filter_frame_restores ops sd partial_frame plane dir cpi filt_level,
      try_filter_frame_last_frame_uf ops sd partial_frame plane dir cpi filt_level⟩, ?_⟩
  by_cases hv : ops.CONFIG_LOOPFILTER_LEVEL ∧ ¬ (plane = 0 ∨ plane = 1 ∨ plane = 2)
  · have : search_filter_level (SEARCH_FUEL + extra) ops sd cpi partial_frame plane dir
        = .assert_failed (0, cpi) := by
      unfold search_filter_level; rw [if_pos hv]
    rw [this]
    exact ⟨rfl, hv⟩
  · obtain ⟨l, c, hr, _, _, hf⟩ :=
      search_filter_level_returns ops sd cpi partial_frame plane dir extra hv
    rw [hr]
    exact ⟨hf.shown, hf.saved⟩

/-- C4, counterexample. On the non-negative curve `two_dip_curve`, started from level 20 with
`pass = 0` and `tx_mode = ONLY_4X4`, the search with its computed bias returns level 17 and the
same search with the bias forced to 0 returns level 14. -/
theorem biased_search_ends_higher :
    (∀ i, 0 ≤ two_dip_curve i) ∧
    (search_run 20 (curve_operators false two_dip_curve) sample_source
        (sample_cpi 0 0 ONLY_4X4 20) 0 0 0).map (fun s => s.filt_best) = some 17 ∧
    (search_run_zero_bias 20 (curve_operators false two_dip_curve) sample_source
        (sample_cpi 0 0 ONLY_4X4 20) 0 0 0).map (fun s => s.filt_best) = some 14 := by
  refine ⟨?_, by decide, by decide⟩
  intro i
  unfold two_dip_curve
  split_ifs <;> decide

/-! ### One iteration, block by block -/

section blocks
variable (ops : Operators) (sd : YV12_BUFFER_CONFIG) (partial_frame plane dir : Int)

/-- The guarded evaluation only reads `ss_err` and the encoder state. -/
theorem search_eval_congr (lvl : Int) (t u : SearchState) (h1 : t.ss_err = u.ss_err)
    (h2 : t.cpi = u.cpi) :
    (search_eval ops sd partial_frame plane dir lvl t).ss_err
      = (search_eval ops sd partial_frame plane dir lvl u).ss_err ∧
    (search_eval ops sd partial_frame plane dir lvl t).cpi
      = (search_eval ops sd partial_frame plane dir lvl u).cpi := by
  unfold search_eval
  rw [h1, h2]
  split_ifs <;> first | exact ⟨rfl, rfl⟩ | exact ⟨h1, h2⟩

theorem search_low_filt_best_eq (filt_low bias : Int) (s : SearchState) :
    (search_low ops sd partial_frame plane dir filt_low bias s).filt_best =
      if s.filt_direction ≤ 0 ∧ filt_low ≠ s.filt_mid ∧
          ss_get (search_eval ops sd partial_frame plane dir filt_low s).ss_err filt_low
            < s.best_err + bias
      then filt_low else s.filt_best := by
  unfold search_low
  dsimp only
  by_cases h1 : s.filt_direction ≤ 0 ∧ filt_low ≠ s.filt_mid
  · rw [if_pos h1]
    simp only [search_eval_best_err, h1.1, h1.2, ne_eq, not_false_eq_true, true_and]
    split_ifs <;> simp
  · rw [if_neg h1, if_neg (fun h => h1 ⟨h.1, h.2.1⟩)]

theorem search_low_best_err_eq (filt_low bias : Int) (s : SearchState) :
    (search_low ops sd partial_frame plane dir filt_low bias s).best_err =
      if s.filt_direction ≤ 0 ∧ filt_low ≠ s.filt_mid ∧
          ss_get (search_eval ops sd partial_frame plane dir filt_low s).ss_err filt_low
            < s.best_err + bias ∧
          ss_get (search_eval ops sd partial_frame plane dir filt_low s).ss_err filt_low
            < s.best_err
      then ss_get (search_eval ops sd partial_frame plane dir filt_low s).ss_err filt_low
      else s.best_err := by
  unfold search_low
  dsimp only
  by_cases h1 : s.filt_direction ≤ 0 ∧ filt_low ≠ s.filt_mid
  · rw [if_pos h1]
    simp only [search_eval_best_err, h1.1, h1.2, ne_eq, not_false_eq_true, true_and]
    split_ifs <;> simp_all
  · rw [if_neg h1, if_neg (fun h => h1 ⟨h.1, h.2.1⟩)]

/-- What the low block leaves in `ss_err` and in the encoder state does not depend on the
bias. -/
theorem search_low_memo_eq (filt_low bias : Int) (s : SearchState) :
    (search_low ops sd partial_frame plane dir filt_low bias s).ss_err =
      (if s.filt_direction ≤ 0 ∧ filt_low ≠ s.filt_mid
       then (search_eval ops sd partial_frame plane dir filt_low s).ss_err else s.ss_err) ∧
    (search_low ops sd partial_frame plane dir filt_low bias s).cpi =
      (if s.filt_direction ≤ 0 ∧ filt_low ≠ s.filt_mid
       then (search_eval ops sd partial_frame plane dir filt_low s).cpi else s.cpi) := by
  unfold search_low
  dsimp only
  split_ifs <;> exact ⟨rfl, rfl⟩

theorem search_high_filt_best_eq (filt_high bias : Int) (s : SearchState) :
    (search_high ops sd partial_frame plane dir filt_high bias s).filt_best =
      if s.filt_direction ≥ 0 ∧ filt_high ≠ s.filt_mid ∧
          ss_get (search_eval ops sd partial_frame plane dir filt_high s).ss_err filt_high
            < s.best_err - bias
      then filt_high else s.filt_best := by
  unfold search_high
  dsimp only
  by_cases h1 : s.filt_direction ≥ 0 ∧ filt_high ≠ s.filt_mid
  · rw [if_pos h1]
    simp only [search_eval_best_err, h1.1, h1.2, ne_eq, not_false_eq_true, true_and]
    split_ifs <;> simp
  · rw [if_neg h1, if_neg (fun h => h1 ⟨h.1, h.2.1⟩)]

theorem search_high_best_err_eq (filt_high bias : Int) (s : SearchState) :
    (search_high ops sd partial_frame plane dir filt_high bias s).best_err =
      if s.filt_direction ≥ 0 ∧ filt_high ≠ s.filt_mid ∧
          ss_get (search_eval ops sd partial_frame plane dir filt_high s).ss_err filt_high
            < s.best_err - bias
      then ss_get (search_eval ops sd partial_frame plane dir filt_high s).ss_err filt_high
      else s.best_err := by
  unfold search_high
  dsimp only
  by_cases h1 : s.filt_direction ≥ 0 ∧ filt_high ≠ s.filt_mid
  · rw [if_pos h1]
    simp only [search_eval_best_err, h1.1, h1.2, ne_eq, not_false_eq_true, true_and]
    split_ifs <;> simp
  · rw [if_neg h1, if_neg (fun h => h1 ⟨h.1, h.2.1⟩)]

theorem search_advance_filt_best (s : SearchState) :
    (search_advance s).filt_best = s.filt_best := by
  unfold search_advance; split_ifs <;> rfl

/-- The bias is non-negative when the best error, the step and the intra rating are. -/
theorem search_bias_nonneg (s : SearchState) (hb : 0 ≤ s.best_err) (hs : 0 ≤ s.filter_step)
    (hr : 0 ≤ s.cpi.section_intra_rating) : 0 ≤ search_bias s := by
  have hshift : ∀ (x : Int) (n : Nat), 0 ≤ x → 0 ≤ x >>> n := by
    intro x n hx
    rw [Int.shiftRight_eq_div_pow]
    exact Int.ediv_nonneg hx (by positivity)
  have h1 : 0 ≤ (s.best_err >>> (15 - Int.tdiv s.filt_mid 8).toNat) * s.filter_step :=
    mul_nonneg (hshift _ _ hb) hs
  have h2 : 0 ≤ Int.tdiv ((s.best_err >>> (15 - Int.tdiv s.filt_mid 8).toNat) * s.filter_step
      * s.cpi.section_intra_rating) 20 := by
    rw [Int.tdiv_eq_ediv (mul_nonneg h1 hr) (by decide)]
    exact Int.ediv_nonneg (mul_nonneg h1 hr) (by decide)
  unfold search_bias
  dsimp only
  split_ifs <;> first | exact hshift _ _ h2 | exact hshift _ _ h1 | exact h2 | exact h1

end blocks

/-- In one iteration, started at the head of the loop (`filt_best = filt_mid`) with
non-negative best error, step and intra rating and `0 <= filt_mid <= max_filter_level`, the
level selected with the computed bias is never greater than the level selected from the same
state with the bias forced to 0, whatever the error curve. -/
theorem iteration_bias_pulls_down (ops : Operators) (sd : YV12_BUFFER_CONFIG)
    (partial_frame plane dir m : Int) (s : SearchState)
    (hbest : s.filt_best = s.filt_mid) (h0 : 0 ≤ s.filt_mid) (hm : s.filt_mid ≤ m)
    (hs : 0 ≤ s.filter_step) (he : 0 ≤ s.best_err)
    (hr : 0 ≤ s.cpi.section_intra_rating) :
    (search_iter ops sd partial_frame plane dir m s).filt_best
      ≤ (search_body ops sd partial_frame plane dir m 0 s).filt_best := by
  have hbias := search_bias_nonneg s he hs hr
  unfold search_iter
  generalize search_bias s = bias at hbias
  simp only [search_body, search_advance_filt_best, AOMMIN_eq, AOMMAX_eq]
  rw [search_high_filt_best_eq, search_high_filt_best_eq]
  simp only [search_low_filt_mid, search_low_filt_direction, search_high_best_err_eq,
    search_low_best_err_eq, search_low_filt_best_eq]
  obtain ⟨e1, e2⟩ := search_low_memo_eq ops sd partial_frame plane dir
    (max (s.filt_mid - s.filter_step) 0) bias s
  obtain ⟨z1, z2⟩ := search_low_memo_eq ops sd partial_frame plane dir
    (max (s.filt_mid - s.filter_step) 0) 0 s
  have hcong := (search_eval_congr ops sd partial_frame plane dir
    (min (s.filt_mid + s.filter_step) m) _ _ (e1.trans z1.symm) (e2.trans z2.symm)).1
  rw [hcong]
  generalize ss_get (search_eval ops sd partial_frame plane dir
    (min (s.filt_mid + s.filter_step) m)
    (search_low ops sd partial_frame plane dir (max (s.filt_mid - s.filter_step) 0) 0
      s)).ss_err (min (s.filt_mid + s.filter_step) m) = ehi
  generalize ss_get (search_eval ops sd partial_frame plane dir
    (max (s.filt_mid - s.filter_step) 0) s).ss_err (max (s.filt_mid - s.filter_step) 0) = elo
  rw [hbest]
  split_ifs <;> omega

/-- An instance of `iteration_bias_pulls_down`: the first iteration of the search on
`two_dip_curve` from level 20 selects level 15 with the computed bias and stays at level 20
with bias 0. -/
theorem iteration_bias_pulls_down_witness :
    (search_iter (curve_operators false two_dip_curve) sample_source 0 0 0 63
        two_dip_start).filt_best = 15 ∧
    (search_body (curve_operators false two_dip_curve) sample_source 0 0 0 63 0
        two_dip_start).filt_best = 20 ∧
    (search_iter (curve_operators false two_dip_curve) sample_source 0 0 0 63
        two_dip_start).filt_best
      ≤ (search_body (curve_operators false two_dip_curve) sample_source 0 0 0 63 0
        two_dip_start).filt_best :=
  ⟨by decide, by decide,
    iteration_bias_pulls_down (curve_operators false two_dip_curve) sample_source 0 0 0 63
      two_dip_start (by decide) (by decide) (by decide) (by decide) (by decide) (by decide)⟩

/-! ### The search on an error curve -/

section curve
variable (ops : Operators) (sd : YV12_BUFFER_CONFIG) (partial_frame plane dir : Int)
variable (curve : Int → Int)

/-- After the guarded evaluation of a level the memo holds the curve value there. -/
theorem search_eval_curve (hc : HasErrorCurve ops sd partial_frame plane dir curve)
    (lvl : Int) (h0 : 0 ≤ lvl) (h1 : lvl ≤ 63) (s : SearchState) (h : CurveMemo curve s) :
    ss_get (search_eval ops sd partial_frame plane dir lvl s).ss_err lvl = curve lvl ∧
    CurveMemo curve (search_eval ops sd partial_frame plane dir lvl s) := by
  obtain ⟨hlen, hval⟩ := h
  unfold search_eval
  split_ifs with hneg
  · have hset : ∀ j : Int, 0 ≤ j →
        ss_get (ss_set s.ss_err lvl
          (try_filter_frame ops sd s.cpi lvl partial_frame plane dir).1) j
        = if j = lvl then curve lvl else ss_get s.ss_err j := by
      intro j hj
      rw [ss_get_set _ _ _ _ h0 hj (by rw [hlen]; omega), hc s.cpi lvl h0 h1]
    refine ⟨by simp only [hset lvl h0, if_true], ?_, ?_⟩
    · simp only [ss_set, List.length_set]; exact hlen
    · intro i hi0 hi1
      simp only [hset i hi0]
      by_cases hil : i = lvl
      · right; rw [if_pos hil, hil]
      · rw [if_neg hil]; exact hval i hi0 hi1
  · rcases hval lvl h0 h1 with hv | hv
    · exact absurd hv hneg
    · exact ⟨hv, hlen, hval⟩

theorem CurveMemo_congr {s t : SearchState} (h : CurveMemo curve s)
    (h1 : t.ss_err = s.ss_err) : CurveMemo curve t := by
  obtain ⟨hlen, hval⟩ := h
  exact ⟨h1 ▸ hlen, by rw [h1]; exact hval⟩

theorem search_low_curve_memo (hc : HasErrorCurve ops sd partial_frame plane dir curve)
    (lvl bias : Int) (h0 : 0 ≤ lvl) (h1 : lvl ≤ 63) (s : SearchState)
    (h : CurveMemo curve s) :
    CurveMemo curve (search_low ops sd partial_frame plane dir lvl bias s) := by
  have he := (search_eval_curve ops sd partial_frame plane dir curve hc lvl h0 h1 s h).2
  unfold search_low
  dsimp only
  split_ifs <;> first | exact h | exact he | exact CurveMemo_congr curve he rfl

theorem search_high_curve_memo (hc : HasErrorCurve ops sd partial_frame plane dir curve)
    (lvl bias : Int) (h0 : 0 ≤ lvl) (h1 : lvl ≤ 63) (s : SearchState)
    (h : CurveMemo curve s) :
    CurveMemo curve (search_high ops sd partial_frame plane dir lvl bias s) := by
  have he := (search_eval_curve ops sd partial_frame plane dir curve hc lvl h0 h1 s h).2
  unfold search_high
  dsimp only
  split_ifs <;> first | exact h | exact he | exact CurveMemo_congr curve he rfl

theorem search_eval_settings (lvl : Int) (s : SearchState) :
    (search_eval ops sd partial_frame plane dir lvl s).cpi.settings = s.cpi.settings := by
  unfold search_eval
  split_ifs
  · exact try_filter_frame_settings ops sd partial_frame plane dir s.cpi lvl
  · rfl

theorem search_iter_settings (m : Int) (s : SearchState) :
    (search_iter ops sd partial_frame plane dir m s).cpi.settings = s.cpi.settings := by
  have hl : ∀ lvl bias (t : SearchState),
      (search_low ops sd partial_frame plane dir lvl bias t).cpi.settings
        = t.cpi.settings := by
    intro lvl bias t
    have he := search_eval_settings ops sd partial_frame plane dir lvl t
    unfold search_low; dsimp only
    split_ifs <;> first | rfl | exact he
  have hh : ∀ lvl bias (t : SearchState),
      (search_high ops sd partial_frame plane dir lvl bias t).cpi.settings
        = t.cpi.settings := by
    intro lvl bias t
    have he := search_eval_settings ops sd partial_frame plane dir lvl t
    unfold search_high; dsimp only
    split_ifs <;> first | rfl | exact he
  have := (hh (AOMMIN (s.filt_mid + s.filter_step) m) (search_bias s) _).trans
    (hl (AOMMAX (s.filt_mid - s.filter_step) 0) (search_bias s) s)
  unfold search_iter search_body search_advance
  dsimp only
  split_ifs <;> exact this

/-- One iteration of the search, on operators with an error curve, steers like
`control_iter` and keeps the memo on the curve. -/
theorem search_iter_control (hc : HasErrorCurve ops sd partial_frame plane dir curve)
    (m : Int) (s : SearchState) (hi : SearchInv m s) (h : CurveMemo curve s) :
    (search_iter ops sd partial_frame plane dir m s).control
      = control_iter curve s.cpi.pass s.cpi.section_intra_rating s.cpi.tx_mode m s.control ∧
    CurveMemo curve (search_iter ops sd partial_frame plane dir m s) := by
  obtain ⟨hmax, h0, hm, hb, hs, hd⟩ := hi
  have hlo0 : 0 ≤ max (s.filt_mid - s.filter_step) 0 := by omega
  have hlo1 : max (s.filt_mid - s.filter_step) 0 ≤ 63 := by omega
  have hhi0 : 0 ≤ min (s.filt_mid + s.filter_step) m := by omega
  have hhi1 : min (s.filt_mid + s.filter_step) m ≤ 63 := by omega
  have hlm := search_low_curve_memo ops sd partial_frame plane dir curve hc
    (max (s.filt_mid - s.filter_step) 0) (search_bias s) hlo0 hlo1 s h
  have hhm := search_high_curve_memo ops sd partial_frame plane dir curve hc
    (min (s.filt_mid + s.filter_step) m) (search_bias s) hhi0 hhi1 _ hlm
  have elo := (search_eval_curve ops sd partial_frame plane dir curve hc
    (max (s.filt_mid - s.filter_step) 0) hlo0 hlo1 s h).1
  have ehi := (search_eval_curve ops sd partial_frame plane dir curve hc
    (min (s.filt_mid + s.filter_step) m) hhi0 hhi1 _ hlm).1
  constructor
  · have hadv : ∀ u : SearchState, (search_advance u).control =
        if u.filt_best = u.filt_mid then
          ⟨u.filt_mid, Int.tdiv u.filter_step 2, 0, u.best_err⟩
        else
          ⟨u.filt_best, u.filter_step, if u.filt_best < u.filt_mid then -1 else 1,
            u.best_err⟩ := by
      intro u; unfold search_advance SearchState.control; split_ifs <;> rfl
    simp only [search_iter, search_body, AOMMIN_eq, AOMMAX_eq]
    rw [hadv]
    simp only [search_high_filt_mid, search_high_filter_step, search_low_filt_mid,
      search_low_filter_step, search_high_filt_best_eq, search_high_best_err_eq,
      search_low_filt_direction, search_low_best_err_eq, search_low_filt_best_eq, ehi, elo,
      hb]
    rfl
  · unfold search_iter search_body search_advance
    simp only [AOMMIN_eq, AOMMAX_eq]
    split_ifs <;> exact CurveMemo_congr curve hhm rfl

end curve

section control
variable (curve : Int → Int) (pass rating tx_mode m : Int)

theorem control_loop_step (n : Nat) (k : Control) (h : 0 < k.filter_step) :
    control_loop curve pass rating tx_mode m (n + 1) k
      = control_loop curve pass rating tx_mode m n
          (control_iter curve pass rating tx_mode m k) := by
  simp [control_loop, h]

theorem control_loop_next (n : Nat) (k k2 : Control) (h : 0 < k.filter_step)
    (e : control_iter curve pass rating tx_mode m k = k2) :
    control_loop curve pass rating tx_mode m (n + 1) k
      = control_loop curve pass rating tx_mode m n k2 := by
  rw [control_loop_step _ _ _ _ _ _ _ h, e]

theorem control_loop_done (n : Nat) (k : Control) (h : k.filter_step = 0) :
    control_loop curve pass rating tx_mode m n k = some k := by
  cases n <;> simp [control_loop, h]

theorem control_bias_nonneg (k : Control) (hb : 0 ≤ k.best_err) (hs : 0 ≤ k.filter_step)
    (hr : pass = 2 → 0 ≤ rating) : 0 ≤ control_bias pass rating tx_mode k := by
  have hshift : ∀ (x : Int) (n : Nat), 0 ≤ x → 0 ≤ x >>> n := by
    intro x n hx
    rw [Int.shiftRight_eq_div_pow]
    exact Int.ediv_nonneg hx (by positivity)
  have h1 : 0 ≤ (k.best_err >>> (15 - Int.tdiv k.filt_mid 8).toNat) * k.filter_step :=
    mul_nonneg (hshift _ _ hb) hs
  unfold control_bias
  dsimp only
  by_cases hp : pass = 2 ∧ rating < 20
  · have h2 := mul_nonneg h1 (hr hp.1)
    have h3 : 0 ≤ Int.tdiv ((k.best_err >>> (15 - Int.tdiv k.filt_mid 8).toNat)
        * k.filter_step * rating) 20 := by
      rw [Int.tdiv_eq_ediv h2 (by decide)]
      exact Int.ediv_nonneg h2 (by decide)
    rw [if_pos hp]
    split_ifs
    · exact hshift _ _ h3
    · exact h3
  · rw [if_neg hp]
    split_ifs
    · exact hshift _ _ h1
    · exact h1

theorem control_bias_zero (k : Control) (hb : 0 ≤ k.best_err) (hb2 : k.best_err < 256)
    (h0 : 0 ≤ k.filt_mid) (h1 : k.filt_mid ≤ 63) :
    control_bias pass rating tx_mode k = 0 := by
  have hz : k.best_err >>> (15 - Int.tdiv k.filt_mid 8).toNat = 0 := by
    rw [Int.shiftRight_eq_div_pow, Int.tdiv_eq_ediv h0 (by decide)]
    have h8 : 8 ≤ (15 - k.filt_mid / 8).toNat := by omega
    have hpow : (256 : Int) ≤ ((2 ^ (15 - k.filt_mid / 8).toNat : Nat) : Int) := by
      have : 2 ^ 8 ≤ 2 ^ (15 - k.filt_mid / 8).toNat :=
        Nat.pow_le_pow_right (by decide) h8
      exact_mod_cast this
    exact Int.ediv_eq_zero_of_lt hb (by omega)
  unfold control_bias
  dsimp only
  rw [hz]
  split_ifs <;> simp

end control

section curve_run
variable (ops : Operators) (sd : YV12_BUFFER_CONFIG) (partial_frame plane dir : Int)
variable (curve : Int → Int)

/-- The loop of the search, on operators with an error curve, steers like `control_loop`. -/
theorem search_loop_control (hc : HasErrorCurve ops sd partial_frame plane dir curve)
    (m : Int) (cpi0 : AV1_COMP) (fuel : Nat) :
    ∀ s : SearchState, SearchInv m s → CurveMemo curve s → s.cpi.settings = cpi0.settings →
      (search_loop ops sd partial_frame plane dir m fuel s).map SearchState.control
        = control_loop curve cpi0.pass cpi0.section_intra_rating cpi0.tx_mode m fuel
            s.control := by
  induction fuel with
  | zero =>
    intro s _ _ _
    simp only [search_loop, control_loop, SearchState.control]
    split_ifs <;> rfl
  | succ n ih =>
    intro s hi hm hset
    have hp : s.cpi.pass = cpi0.pass := by have := congrArg AV1_COMP.pass hset; exact this
    have hr : s.cpi.section_intra_rating = cpi0.section_intra_rating := by
      have := congrArg AV1_COMP.section_intra_rating hset; exact this
    have ht : s.cpi.tx_mode = cpi0.tx_mode := by
      have := congrArg AV1_COMP.tx_mode hset; exact this
    obtain ⟨hctl, hmemo⟩ :=
      search_iter_control ops sd partial_frame plane dir curve hc m s hi hm
    rw [hp, hr, ht] at hctl
    have hnext := ih _ (search_iter_inv ops sd partial_frame plane dir m s hi) hmemo
      ((search_iter_settings ops sd partial_frame plane dir m s).trans hset)
    rw [hctl] at hnext
    simp only [search_loop, control_loop]
    have hstep : s.control.filter_step = s.filter_step := rfl
    rw [hstep]
    split_ifs
    · exact hnext
    · rfl

/-- The state at loop entry, on operators with an error curve. -/
theorem search_init_control (hc : HasErrorCurve ops sd partial_frame plane dir curve)
    (cpi : AV1_COMP) :
    (search_init ops sd cpi partial_frame plane dir).control
      = ⟨clamp (search_start_level ops cpi plane dir) 0 (av1_get_max_filter_level cpi),
          if clamp (search_start_level ops cpi plane dir) 0 (av1_get_max_filter_level cpi) < 16
          then 4
          else Int.tdiv
            (clamp (search_start_level ops cpi plane dir) 0 (av1_get_max_filter_level cpi)) 4,
          0,
          curve
            (clamp (search_start_level ops cpi plane dir) 0 (av1_get_max_filter_level cpi))⟩ ∧
    CurveMemo curve (search_init ops sd cpi partial_frame plane dir) ∧
    (search_init ops sd cpi partial_frame plane dir).cpi.settings = cpi.settings := by
  obtain ⟨hm0, hm⟩ := av1_get_max_filter_level_range cpi
  obtain ⟨c0, c1⟩ := clamp_range (search_start_level ops cpi plane dir) 0
    (av1_get_max_filter_level cpi) hm0
  have hlen : (List.replicate (MAX_LOOP_FILTER + 1).toNat (-1 : Int)).length = 64 := by
    simp [MAX_LOOP_FILTER]
  refine ⟨?_, ⟨?_, ?_⟩, ?_⟩
  · simp only [search_init, SearchState.control]
    rw [hc _ _ c0 (by omega)]
  · simp only [search_init, ss_set, List.length_set]; exact hlen
  · intro i hi0 hi1
    simp only [search_init]
    rw [ss_get_set _ _ _ _ c0 hi0 (by rw [hlen]; omega), hc _ _ c0 (by omega)]
    by_cases hil : i = clamp (search_start_level ops cpi plane dir) 0
        (av1_get_max_filter_level cpi)
    · right; rw [if_pos hil, hil]
    · left
      rw [if_neg hil]
      unfold ss_get
      rw [List.getD_eq_getElem?_getD, List.getElem?_replicate]
      have : i.toNat < (MAX_LOOP_FILTER + 1).toNat := by simp [MAX_LOOP_FILTER]; omega
      simp [this]
  · exact (search_init_frame_inv ops sd partial_frame plane dir cpi).settings

/-- The level a run returns, on operators with an error curve, is the level `control_loop`
ends at. -/
theorem search_run_control (hc : HasErrorCurve ops sd partial_frame plane dir curve)
    (cpi : AV1_COMP) (fuel : Nat) :
    (search_run fuel ops sd cpi partial_frame plane dir).map (fun s => s.filt_best)
      = (control_loop curve cpi.pass cpi.section_intra_rating cpi.tx_mode
          (av1_get_max_filter_level cpi) fuel
          (search_init ops sd cpi partial_frame plane dir).control).map
          (fun k => k.filt_mid) := by
  obtain ⟨_, hmemo, hset⟩ := search_init_control ops sd partial_frame plane dir curve hc cpi
  have hloop := search_loop_control ops sd partial_frame plane dir curve hc
    (av1_get_max_filter_level cpi) cpi fuel _
    (search_init_inv ops sd partial_frame plane dir cpi) hmemo hset
  rw [← hloop]
  unfold search_run
  cases hrun : search_loop ops sd partial_frame plane dir (av1_get_max_filter_level cpi) fuel
      (search_init ops sd cpi partial_frame plane dir) with
  | none => rfl
  | some t =>
    have hinv := (search_loop_some ops sd partial_frame plane dir
      (av1_get_max_filter_level cpi) (fun _ => True) (fun _ _ _ => trivial) fuel _ t
      (search_init_inv ops sd partial_frame plane dir cpi) trivial hrun).2.1
    simp only [Option.map_some', SearchState.control]
    rw [hinv.best_eq]

end curve_run

set_option maxHeartbeats 2000000 in
/-- The scenario on the steering variables: from level 32 with step 8, on a curve that starts
100, 90, 80, 75, 74, 76 and rises strictly from level 4 on, the loop ends at level 4. -/
theorem scenario_control (curve : Int → Int) (pass rating tx_mode m : Int) (extra : Nat)
    (hm47 : 47 ≤ m) (hm63 : m ≤ 63) (hr : pass = 2 → 0 ≤ rating)
    (h0 : curve 0 = 100) (h2 : curve 2 = 80) (h3 : curve 3 = 75)
    (h4 : curve 4 = 74) (h5 : curve 5 = 76)
    (hinc : ∀ i j : Int, 4 ≤ i → i < j → j ≤ 63 → curve i < curve j) :
    (control_loop curve pass rating tx_mode m (9 + extra) ⟨32, 8, 0, curve 32⟩).map
      (fun k => k.filt_mid) = some 4 := by
  have c6 := hinc 4 6 (by decide) (by decide) (by decide)
  have c8 := hinc 4 8 (by decide) (by decide) (by decide)
  have c12 := hinc 4 12 (by decide) (by decide) (by decide)
  have c16 := hinc 8 16 (by decide) (by decide) (by decide)
  have c24 := hinc 16 24 (by decide) (by decide) (by decide)
  have c32 := hinc 24 32 (by decide) (by decide) (by decide)
  have c40 := hinc 32 40 (by decide) (by decide) (by decide)
  have e1 : control_iter curve pass rating tx_mode m ⟨32, 8, 0, curve 32⟩
      = ⟨24, 8, -1, curve 24⟩ := by
    have hB := control_bias_nonneg pass rating tx_mode ⟨32, 8, 0, curve 32⟩
      (by show 0 ≤ curve 32; omega) (by show (0 : Int) ≤ 8; decide) hr
    unfold control_iter
    generalize control_bias pass rating tx_mode ⟨32, 8, 0, curve 32⟩ = B at hB
    have hlo : max ((32 : Int) - 8) 0 = 24 := by decide
    have hhi : min ((32 : Int) + 8) m = 40 := by omega
    simp only [hlo, hhi, h0, h2, h3, h4, h5]
    split_ifs <;> first | (exfalso; omega) | rfl
  have e2 : control_iter curve pass rating tx_mode m ⟨24, 8, -1, curve 24⟩
      = ⟨16, 8, -1, curve 16⟩ := by
    have hB := control_bias_nonneg pass rating tx_mode ⟨24, 8, -1, curve 24⟩
      (by show 0 ≤ curve 24; omega) (by show (0 : Int) ≤ 8; decide) hr
    unfold control_iter
    generalize control_bias pass rating tx_mode ⟨24, 8, -1, curve 24⟩ = B at hB
    have hlo : max ((24 : Int) - 8) 0 = 16 := by decide
    have hhi : min ((24 : Int) + 8) m = 32 := by omega
    simp only [hlo, hhi, h0, h2, h3, h4, h5]
    split_ifs <;> first | (exfalso; omega) | rfl
  have e3 : control_iter curve pass rating tx_mode m ⟨16, 8, -1, curve 16⟩
      = ⟨8, 8, -1, curve 8⟩ := by
    have hB := control_bias_nonneg pass rating tx_mode ⟨16, 8, -1, curve 16⟩
      (by show 0 ≤ curve 16; omega) (by show (0 : Int) ≤ 8; decide) hr
    unfold control_iter
    generalize control_bias pass rating tx_mode ⟨16, 8, -1, curve 16⟩ = B at hB
    have hlo : max ((16 : Int) - 8) 0 = 8 := by decide
    have hhi : min ((16 : Int) + 8) m = 24 := by omega
    simp only [hlo, hhi, h0, h2, h3, h4, h5]
    split_ifs <;> first | (exfalso; omega) | rfl
  have e8 : control_iter curve pass rating tx_mode m ⟨4, 2, 0, 74⟩
      = ⟨4, 1, 0, 74⟩ := by
    have hB := control_bias_zero pass rating tx_mode ⟨4, 2, 0, 74⟩
      (by show 0 ≤ 74; omega) (by show 74 < 256; omega)
      (by show (0 : Int) ≤ 4; decide) (by show (4 : Int) ≤ 63; decide)
    unfold control_iter
    generalize control_bias pass rating tx_mode ⟨4, 2, 0, 74⟩ = B at hB
    have hlo : max ((4 : Int) - 2) 0 = 2 := by decide
    have hhi : min ((4 : Int) + 2) m = 6 := by omega
    simp only [hlo, hhi, h0, h2, h3, h4, h5]
    split_ifs <;> first | (exfalso; omega) | rfl
  have e9 : control_iter curve pass rating tx_mode m ⟨4, 1, 0, 74⟩
      = ⟨4, 0, 0, 74⟩ := by
    have hB := control_bias_zero pass rating tx_mode ⟨4, 1, 0, 74⟩
      (by show 0 ≤ 74; omega) (by show 74 < 256; omega)
      (by show (0 : Int) ≤ 4; decide) (by show (4 : Int) ≤ 63; decide)
    unfold control_iter
    generalize control_bias pass rating tx_mode ⟨4, 1, 0, 74⟩ = B at hB
    have hlo : max ((4 : Int) - 1) 0 = 3 := by decide
    have hhi : min ((4 : Int) + 1) m = 5 := by omega
    simp only [hlo, hhi, h0, h2, h3, h4, h5]
    split_ifs <;> first | (exfalso; omega) | rfl
  have hB8 := control_bias_nonneg pass rating tx_mode ⟨8, 8, -1, curve 8⟩
    (by show 0 ≤ curve 8; omega) (by show (0 : Int) ≤ 8; decide) hr
  by_cases hA : 100 < curve 8 + control_bias pass rating tx_mode ⟨8, 8, -1, curve 8⟩
  · obtain ⟨b, e4, hb1, hb2⟩ : ∃ b, control_iter curve pass rating tx_mode m
        ⟨8, 8, -1, curve 8⟩ = ⟨0, 8, -1, b⟩ ∧ 74 < b ∧ b ≤ 100 := by
      unfold control_iter
      generalize control_bias pass rating tx_mode ⟨8, 8, -1, curve 8⟩ = B at hB8 hA
      have hlo : max ((8 : Int) - 8) 0 = 0 := by decide
      have hhi : min ((8 : Int) + 8) m = 16 := by omega
      simp only [hlo, hhi, h0]
      by_cases h100 : 100 < curve 8
      · refine ⟨100, ?_, by omega, by omega⟩
        split_ifs <;> first | (exfalso; omega) | rfl
      · refine ⟨curve 8, ?_, by omega, by omega⟩
        split_ifs <;> first | (exfalso; omega) | rfl
    have e5 : control_iter curve pass rating tx_mode m ⟨0, 8, -1, b⟩
        = ⟨0, 4, 0, b⟩ := by
      have hB := control_bias_nonneg pass rating tx_mode ⟨0, 8, -1, b⟩
        (by show 0 ≤ b; omega) (by show (0 : Int) ≤ 8; decide) hr
      unfold control_iter
      generalize control_bias pass rating tx_mode ⟨0, 8, -1, b⟩ = B at hB
      have hlo : max ((0 : Int) - 8) 0 = 0 := by decide
      have hhi : min ((0 : Int) + 8) m = 8 := by omega
      simp only [hlo, hhi, h0, h2, h3, h4, h5]
      split_ifs <;> first | (exfalso; omega) | rfl
    have e6 : control_iter curve pass rating tx_mode m ⟨0, 4, 0, b⟩
        = ⟨4, 4, 1, 74⟩ := by
      have hB := control_bias_zero pass rating tx_mode ⟨0, 4, 0, b⟩
        (by show 0 ≤ b; omega) (by show b < 256; omega)
        (by show (0 : Int) ≤ 0; decide) (by show (0 : Int) ≤ 63; decide)
      unfold control_iter
      generalize control_bias pass rating tx_mode ⟨0, 4, 0, b⟩ = B at hB
      have hlo : max ((0 : Int) - 4) 0 = 0 := by decide
      have hhi : min ((0 : Int) + 4) m = 4 := by omega
      simp only [hlo, hhi, h0, h2, h3, h4, h5]
      split_ifs <;> first | (exfalso; omega) | rfl
    have e7 : control_iter curve pass rating tx_mode m ⟨4, 4, 1, 74⟩
        = ⟨4, 2, 0, 74⟩ := by
      have hB := control_bias_zero pass rating tx_mode ⟨4, 4, 1, 74⟩
        (by show 0 ≤ 74; omega) (by show 74 < 256; omega)
        (by show (0 : Int) ≤ 4; decide) (by show (4 : Int) ≤ 63; decide)
      unfold control_iter
      generalize control_bias pass rating tx_mode ⟨4, 4, 1, 74⟩ = B at hB
      have hlo : max ((4 : Int) - 4) 0 = 0 := by decide
      have hhi : min ((4 : Int) + 4) m = 8 := by omega
      simp only [hlo, hhi, h0, h2, h3, h4, h5]
      split_ifs <;> first | (exfalso; omega) | rfl
    have r9 : control_loop curve pass rating tx_mode m (extra + (9 - 9)) ⟨4, 0, 0, 74⟩
        = some ⟨4, 0, 0, 74⟩ := control_loop_done _ _ _ _ _ _ _ rfl
    have r8 : control_loop curve pass rating tx_mode m (extra + (9 - 9) + 1) ⟨4, 1, 0, 74⟩
        = some ⟨4, 0, 0, 74⟩ :=
      (control_loop_next curve pass rating tx_mode m _ ⟨4, 1, 0, 74⟩ ⟨4, 0, 0, 74⟩
        (by show (0 : Int) < 1; decide) e9).trans r9
    have r7 : control_loop curve pass rating tx_mode m (extra + (9 - 9) + 2) ⟨4, 2, 0, 74⟩
        = some ⟨4, 0, 0, 74⟩ :=
      (control_loop_next curve pass rating tx_mode m _ ⟨4, 2, 0, 74⟩ ⟨4, 1, 0, 74⟩
        (by show (0 : Int) < 2; decide) e8).trans r8
    have r6 : control_loop curve pass rating tx_mode m (extra + (9 - 9) + 3) ⟨4, 4, 1, 74⟩
        = some ⟨4, 0, 0, 74⟩ :=
      (control_loop_next curve pass rating tx_mode m _ ⟨4, 4, 1, 74⟩ ⟨4, 2, 0, 74⟩
        (by show (0 : Int) < 4; decide) e7).trans r7
    have r5 : control_loop curve pass rating tx_mode m (extra + (9 - 9) + 4) ⟨0, 4, 0, b⟩
        = some ⟨4, 0, 0, 74⟩ :=
      (control_loop_next curve pass rating tx_mode m _ ⟨0, 4, 0, b⟩ ⟨4, 4, 1, 74⟩
        (by show (0 : Int) < 4; decide) e6).trans r6
    have r4 : control_loop curve pass rating tx_mode m (extra + (9 - 9) + 5) ⟨0, 8, -1, b⟩
        = some ⟨4, 0, 0, 74⟩ :=
      (control_loop_next curve pass rating tx_mode m _ ⟨0, 8, -1, b⟩ ⟨0, 4, 0, b⟩
        (by show (0 : Int) < 8; decide) e5).trans r5
    have r3 : control_loop curve pass rating tx_mode m (extra + (9 - 9) + 6) ⟨8, 8, -1, curve 8⟩
        = some ⟨4, 0, 0, 74⟩ :=
      (control_loop_next curve pass rating tx_mode m _ ⟨8, 8, -1, curve 8⟩ ⟨0, 8, -1, b⟩
        (by show (0 : Int) < 8; decide) e4).trans r4
    have r2 : control_loop curve pass rating tx_mode m (extra + (9 - 9) + 7) ⟨16, 8, -1, curve 16⟩
        = some ⟨4, 0, 0, 74⟩ :=
      (control_loop_next curve pass rating tx_mode m _ ⟨16, 8, -1, curve 16⟩ ⟨8, 8, -1, curve 8⟩
        (by show (0 : Int) < 8; decide) e3).trans r3
    have r1 : control_loop curve pass rating tx_mode m (extra + (9 - 9) + 8) ⟨24, 8, -1, curve 24⟩
        = some ⟨4, 0, 0, 74⟩ :=
      (control_loop_next curve pass rating tx_mode m _ ⟨24, 8, -1, curve 24⟩ ⟨16, 8, -1, curve 16⟩
        (by show (0 : Int) < 8; decide) e2).trans r2
    have r0 : control_loop curve pass rating tx_mode m (extra + (9 - 9) + 9) ⟨32, 8, 0, curve 32⟩
        = some ⟨4, 0, 0, 74⟩ :=
      (control_loop_next curve pass rating tx_mode m _ ⟨32, 8, 0, curve 32⟩ ⟨24, 8, -1, curve 24⟩
        (by show (0 : Int) < 8; decide) e1).trans r1
    rw [show 9 + extra = extra + (9 - 9) + 9 by omega, r0]
    rfl
  · have hc8 : curve 8 ≤ 100 := by omega
    have f4 : control_iter curve pass rating tx_mode m ⟨8, 8, -1, curve 8⟩
        = ⟨8, 4, 0, curve 8⟩ := by
      unfold control_iter
      generalize control_bias pass rating tx_mode ⟨8, 8, -1, curve 8⟩ = B at hB8 hA
      have hlo : max ((8 : Int) - 8) 0 = 0 := by decide
      have hhi : min ((8 : Int) + 8) m = 16 := by omega
      simp only [hlo, hhi, h0]
      split_ifs <;> first | (exfalso; omega) | rfl
    have f5 : control_iter curve pass rating tx_mode m ⟨8, 4, 0, curve 8⟩
        = ⟨4, 4, -1, 74⟩ := by
      have hB := control_bias_zero pass rating tx_mode ⟨8, 4, 0, curve 8⟩
        (by show 0 ≤ curve 8; omega) (by show curve 8 < 256; omega)
        (by show (0 : Int) ≤ 8; decide) (by show (8 : Int) ≤ 63; decide)
      unfold control_iter
      generalize control_bias pass rating tx_mode ⟨8, 4, 0, curve 8⟩ = B at hB
      have hlo : max ((8 : Int) - 4) 0 = 4 := by decide
      have hhi : min ((8 : Int) + 4) m = 12 := by omega
      simp only [hlo, hhi, h0, h2, h3, h4, h5]
      split_ifs <;> first | (exfalso; omega) | rfl
    have f6 : control_iter curve pass rating tx_mode m ⟨4, 4, -1, 74⟩
        = ⟨4, 2, 0, 74⟩ := by
      have hB := control_bias_zero pass rating tx_mode ⟨4, 4, -1, 74⟩
        (by show 0 ≤ 74; omega) (by show 74 < 256; omega)
        (by show (0 : Int) ≤ 4; decide) (by show (4 : Int) ≤ 63; decide)
      unfold control_iter
      generalize control_bias pass rating tx_mode ⟨4, 4, -1, 74⟩ = B at hB
      have hlo : max ((4 : Int) - 4) 0 = 0 := by decide
      have hhi : min ((4 : Int) + 4) m = 8 := by omega
      simp only [hlo, hhi, h0, h2, h3, h4, h5]
      split_ifs <;> first | (exfalso; omega) | rfl
    have r8 : control_loop curve pass rating tx_mode m (extra + (9 - 8)) ⟨4, 0, 0, 74⟩
        = some ⟨4, 0, 0, 74⟩ := control_loop_done _ _ _ _ _ _ _ rfl
    have r7 : control_loop curve pass rating tx_mode m (extra + (9 - 8) + 1) ⟨4, 1, 0, 74⟩
        = some ⟨4, 0, 0, 74⟩ :=
      (control_loop_next curve pass rating tx_mode m _ ⟨4, 1, 0, 74⟩ ⟨4, 0, 0, 74⟩
        (by show (0 : Int) < 1; decide) e9).trans r8
    have r6 : control_loop curve pass rating tx_mode m (extra + (9 - 8) + 2) ⟨4, 2, 0, 74⟩
        = some ⟨4, 0, 0, 74⟩ :=
      (control_loop_next curve pass rating tx_mode m _ ⟨4, 2, 0, 74⟩ ⟨4, 1, 0, 74⟩
        (by show (0 : Int) < 2; decide) e8).trans r7
    have r5 : control_loop curve pass rating tx_mode m (extra + (9 - 8) + 3) ⟨4, 4, -1, 74⟩
        = some ⟨4, 0, 0, 74⟩ :=
      (control_loop_next curve pass rating tx_mode m _ ⟨4, 4, -1, 74⟩ ⟨4, 2, 0, 74⟩
        (by show (0 : Int) < 4; decide) f6).trans r6
    have r4 : control_loop curve pass rating tx_mode m (extra + (9 - 8) + 4) ⟨8, 4, 0, curve 8⟩
        = some ⟨4, 0, 0, 74⟩ :=
      (control_loop_next curve pass rating tx_mode m _ ⟨8, 4, 0, curve 8⟩ ⟨4, 4, -1, 74⟩
        (by show (0 : Int) < 4; decide) f5).trans r5
    have r3 : control_loop curve pass rating tx_mode m (extra + (9 - 8) + 5) ⟨8, 8, -1, curve 8⟩
        = some ⟨4, 0, 0, 74⟩ :=
      (control_loop_next curve pass rating tx_mode m _ ⟨8, 8, -1, curve 8⟩ ⟨8, 4, 0, curve 8⟩
        (by show (0 : Int) < 8; decide) f4).trans r4
    have r2 : control_loop curve pass rating tx_mode m (extra + (9 - 8) + 6) ⟨16, 8, -1, curve 16⟩
        = some ⟨4, 0, 0, 74⟩ :=
      (control_loop_next curve pass rating tx_mode m _ ⟨16, 8, -1, curve 16⟩ ⟨8, 8, -1, curve 8⟩
        (by show (0 : Int) < 8; decide) e3).trans r3
    have r1 : control_loop curve pass rating tx_mode m (extra + (9 - 8) + 7) ⟨24, 8, -1, curve 24⟩
        = some ⟨4, 0, 0, 74⟩ :=
      (control_loop_next curve pass rating tx_mode m _ ⟨24, 8, -1, curve 24⟩ ⟨16, 8, -1, curve 16⟩
        (by show (0 : Int) < 8; decide) e2).trans r2
    have r0 : control_loop curve pass rating tx_mode m (extra + (9 - 8) + 8) ⟨32, 8, 0, curve 32⟩
        = some ⟨4, 0, 0, 74⟩ :=
      (control_loop_next curve pass rating tx_mode m _ ⟨32, 8, 0, curve 32⟩ ⟨24, 8, -1, curve 24⟩
        (by show (0 : Int) < 8; decide) e1).trans r1
    rw [show 9 + extra = extra + (9 - 8) + 8 by omega, r0]
    rfl

/-- The operators built from a curve have that curve (without the build switch). -/
theorem curve_operators_has_curve (curve : Int → Int) (sd : YV12_BUFFER_CONFIG)
    (partial_frame plane dir : Int) :
    HasErrorCurve (curve_operators false curve) sd partial_frame plane dir curve := by
  intro cpi lvl h0 _
  simp only [try_filter_frame, curve_operators, YV12_BUFFER_CONFIG.plane, if_true,
    Bool.false_eq_true, if_false, List.headD_cons]
  rw [Int.toNat_of_nonneg h0]

/-- C5. Scenario: on operators whose error curve begins 100, 90, 80, 75, 74, 76 and rises
strictly from level 4 on (so that its minimum is at level 4), with previous level 32 (and a
non-negative intra rating in the second pass), `search_filter_level` returns a level within 1
of level 4; it returns level 4 itself. -/
theorem scenario_search (ops : Operators) (sd : YV12_BUFFER_CONFIG) (cpi : AV1_COMP)
    (partial_frame plane dir : Int) (curve : Int → Int) (extra : Nat)
    (hc : HasErrorCurve ops sd partial_frame plane dir curve)
    (hv : ¬ (ops.CONFIG_LOOPFILTER_LEVEL ∧ ¬ (plane = 0 ∨ plane = 1 ∨ plane = 2)))
    (hprev : search_start_level ops cpi plane dir = 32)
    (hr : cpi.pass = 2 → 0 ≤ cpi.section_intra_rating)
    (h0 : curve 0 = 100) (_h1 : curve 1 = 90) (h2 : curve 2 = 80) (h3 : curve 3 = 75)
    (h4 : curve 4 = 74) (h5 : curve 5 = 76)
    (hinc : ∀ i j : Int, 4 ≤ i → i < j → j ≤ 63 → curve i < curve j) :
    ∃ l c, search_filter_level (SEARCH_FUEL + extra) ops sd cpi partial_frame plane dir
        = .returned (l, c) ∧ 3 ≤ l ∧ l ≤ 5 ∧ l = 4 := by
  obtain ⟨s, hs, _, _, _⟩ := search_run_spec ops sd partial_frame plane dir cpi extra
  have hctl := search_run_control ops sd partial_frame plane dir curve hc cpi
    (SEARCH_FUEL + extra)
  have hM := av1_get_max_filter_level_eq cpi
  have hM47 : 47 ≤ av1_get_max_filter_level cpi := by rw [hM]; split_ifs <;> decide
  have hM63 : av1_get_max_filter_level cpi ≤ 63 := (av1_get_max_filter_level_range cpi).2
  have hclamp : clamp (search_start_level ops cpi plane dir) 0
      (av1_get_max_filter_level cpi) = 32 := by
    rw [hprev]; unfold clamp; split_ifs <;> omega
  have hinit := (search_init_control ops sd partial_frame plane dir curve hc cpi).1
  rw [hclamp] at hinit
  have hstep : (if (32 : Int) < 16 then 4 else Int.tdiv 32 4) = 8 := by decide
  rw [hstep] at hinit
  rw [hs, hinit, show SEARCH_FUEL + extra = 9 + (1046 + extra) by unfold SEARCH_FUEL; omega,
    scenario_control curve cpi.pass cpi.section_intra_rating cpi.tx_mode
      (av1_get_max_filter_level cpi) (1046 + extra) hM47 hM63 hr h0 h2 h3 h4 h5 hinc] at hctl
  simp only [Option.map_some', Option.some.injEq] at hctl
  refine ⟨s.filt_best, s.cpi, ?_, by omega, by omega, hctl⟩
  unfold search_filter_level
  rw [if_neg hv, hs]

/-- Witness for C5: the curve 100, 90, 80, 75, 74, 76, 78, ... with previous level 32. -/
theorem scenario_search_witness :
    ∃ l c, search_filter_level (SEARCH_FUEL + 0) (curve_operators false scenario_curve)
        sample_source (sample_cpi 0 0 1 32) 0 0 0 = .returned (l, c) ∧
      3 ≤ l ∧ l ≤ 5 ∧ l = 4 :=
  scenario_search (curve_operators false scenario_curve) sample_source (sample_cpi 0 0 1 32)
    0 0 0 scenario_curve 0 (curve_operators_has_curve scenario_curve sample_source 0 0 0)
    (by decide) (by decide) (by decide) (by decide) (by decide) (by decide) (by decide)
    (by decide) (by decide)
    (by intro i j hi hij hj; unfold scenario_curve; split_ifs <;> omega)

/-! ### The levels evaluated by one iteration -/

section evaluated
variable (ops : Operators) (sd : YV12_BUFFER_CONFIG) (partial_frame plane dir : Int)

theorem search_eval_tried (lvl : Int) (s : SearchState) :
    (search_eval ops sd partial_frame plane dir lvl s).tried = s.tried ∨
    (search_eval ops sd partial_frame plane dir lvl s).tried = s.tried ++ [lvl] := by
  unfold search_eval
  split_ifs
  · exact Or.inr rfl
  · exact Or.inl rfl

theorem search_low_tried (filt_low bias : Int) (s : SearchState) :
    (search_low ops sd partial_frame plane dir filt_low bias s).tried = s.tried ∨
    ((search_low ops sd partial_frame plane dir filt_low bias s).tried
        = s.tried ++ [filt_low] ∧
      s.filt_direction ≤ 0 ∧ filt_low ≠ s.filt_mid) := by
  have he := search_eval_tried ops sd partial_frame plane dir filt_low s
  unfold search_low
  dsimp only
  split_ifs with h1 <;>
    first
    | exact Or.inl rfl
    | (rcases he with he | he
       · exact Or.inl he
       · exact Or.inr ⟨he, h1⟩)

theorem search_high_tried (filt_high bias : Int) (s : SearchState) :
    (search_high ops sd partial_frame plane dir filt_high bias s).tried = s.tried ∨
    ((search_high ops sd partial_frame plane dir filt_high bias s).tried
        = s.tried ++ [filt_high] ∧
      s.filt_direction ≥ 0 ∧ filt_high ≠ s.filt_mid) := by
  have he := search_eval_tried ops sd partial_frame plane dir filt_high s
  unfold search_high
  dsimp only
  split_ifs with h1 <;>
    first
    | exact Or.inl rfl
    | (rcases he with he | he
       · exact Or.inl he
       · exact Or.inr ⟨he, h1⟩)

theorem search_advance_tried (s : SearchState) : (search_advance s).tried = s.tried := by
  unfold search_advance; split_ifs <;> rfl

end evaluated

/-- C20, counterexample. From previous level 2 the search starts at `filt_mid = 2` with step
4, so that `mid - step = -2` lies outside the range; the first iteration nevertheless
evaluates a level on the low side, the bound 0, before it evaluates `mid + step = 6`. -/
theorem clamped_candidate_is_evaluated :
    (search_init (curve_operators false scenario_curve) sample_source
        (sample_cpi 0 0 1 2) 0 0 0).filt_mid = 2 ∧
    (search_init (curve_operators false scenario_curve) sample_source
        (sample_cpi 0 0 1 2) 0 0 0).filter_step = 4 ∧
    (search_init (curve_operators false scenario_curve) sample_source
        (sample_cpi 0 0 1 2) 0 0 0).tried = [2] ∧
    (search_iter (curve_operators false scenario_curve) sample_source 0 0 0 63
        (search_init (curve_operators false scenario_curve) sample_source
          (sample_cpi 0 0 1 2) 0 0 0)).tried = [2, 0, 6] := by
  decide

/-- C20, amended. In every iteration of `search_filter_level` the levels passed to
`try_filter_frame` are, in this order, at most the clamped low candidate
`max(filt_mid - filter_step, 0)` and the clamped high candidate
`min(filt_mid + filter_step, max_filter_level)`: a candidate outside the range is replaced by
the nearest bound, and a clamped candidate is evaluated only when it differs from `filt_mid`
and its side is allowed by `filt_direction`. -/
theorem iteration_evaluates_clamped_candidates (ops : Operators) (sd : YV12_BUFFER_CONFIG)
    (partial_frame plane dir m : Int) (s : SearchState) :
    ∃ low high : List Int,
      (search_iter ops sd partial_frame plane dir m s).tried = s.tried ++ low ++ high ∧
      (low = [] ∨ (low = [max (s.filt_mid - s.filter_step) 0] ∧ s.filt_direction ≤ 0 ∧
        max (s.filt_mid - s.filter_step) 0 ≠ s.filt_mid)) ∧
      (high = [] ∨ (high = [min (s.filt_mid + s.filter_step) m] ∧ s.filt_direction ≥ 0 ∧
        min (s.filt_mid + s.filter_step) m ≠ s.filt_mid)) := by
  have hl := search_low_tried ops sd partial_frame plane dir
    (max (s.filt_mid - s.filter_step) 0) (search_bias s) s
  have hh := search_high_tried ops sd partial_frame plane dir
    (min (s.filt_mid + s.filter_step) m) (search_bias s)
    (search_low ops sd partial_frame plane dir (max (s.filt_mid - s.filter_step) 0)
      (search_bias s) s)
  simp only [search_low_filt_mid, search_low_filt_direction] at hh
  simp only [search_iter, search_body, search_advance_tried, AOMMIN_eq, AOMMAX_eq]
  rcases hl with hl | ⟨hl, hl2⟩
  · rcases hh with hh | ⟨hh, hh2⟩
    · exact ⟨[], [], by rw [hh, hl]; simp, Or.inl rfl, Or.inl rfl⟩
    · exact ⟨[], _, by rw [hh, hl]; simp, Or.inl rfl, Or.inr ⟨rfl, hh2⟩⟩
  · rcases hh with hh | ⟨hh, hh2⟩
    · exact ⟨_, [], by rw [hh, hl]; simp, Or.inr ⟨rfl, hl2⟩, Or.inl rfl⟩
    · exact ⟨_, _, by rw [hh, hl], Or.inr ⟨rfl, hl2⟩, Or.inr ⟨rfl, hh2⟩⟩

/-! ### The acceptance of the candidates -/

theorem search_advance_best_err (s : SearchState) :
    (search_advance s).best_err = s.best_err := by
  unfold search_advance; split_ifs <;> rfl

theorem tdiv_eight (x : Int) (h : 0 ≤ x) : Int.tdiv x 8 = x / 8 :=
  Int.tdiv_eq_ediv h (by decide)

/-- C21. Acceptance is asymmetric in every iteration of `search_filter_level`. The bias is
`(best_err >> (15 - mid/8)) * step`, then multiplied by `section_intra_rating` and divided by
20 when `pass == 2` and `section_intra_rating < 20`, then halved when `tx_mode` is not
`ONLY_4X4`. An examined lower candidate becomes the best level iff its error is below
`best_err + bias`, and `best_err` is lowered (to that error) only when the error is below
`best_err`; an examined higher candidate becomes the best level iff its error is below
`best_err - bias`, and then `best_err` becomes its error. -/
theorem iteration_acceptance (ops : Operators) (sd : YV12_BUFFER_CONFIG)
    (partial_frame plane dir m : Int) (s : SearchState)
    (hbest : s.filt_best = s.filt_mid) (h0 : 0 ≤ s.filt_mid) (hm : s.filt_mid ≤ m)
    (hs : 0 ≤ s.filter_step) :
    search_iter ops sd partial_frame plane dir m s
      = search_advance (iter_after_high ops sd partial_frame plane dir m s) ∧
    search_bias s
      = (if s.cpi.tx_mode ≠ ONLY_4X4 then
          (if s.cpi.pass = 2 ∧ s.cpi.section_intra_rating < 20 then
            Int.tdiv
              (s.best_err / 2 ^ (15 - s.filt_mid / 8).toNat * s.filter_step
                * s.cpi.section_intra_rating) 20
           else s.best_err / 2 ^ (15 - s.filt_mid / 8).toNat * s.filter_step) / 2
         else
          (if s.cpi.pass = 2 ∧ s.cpi.section_intra_rating < 20 then
            Int.tdiv
              (s.best_err / 2 ^ (15 - s.filt_mid / 8).toNat * s.filter_step
                * s.cpi.section_intra_rating) 20
           else s.best_err / 2 ^ (15 - s.filt_mid / 8).toNat * s.filter_step)) ∧
    (s.filt_direction ≤ 0 → iter_filt_low s ≠ s.filt_mid →
      ((iter_after_low ops sd partial_frame plane dir s).filt_best = iter_filt_low s ↔
        seen_error ops sd partial_frame plane dir (iter_filt_low s) s
          < s.best_err + search_bias s) ∧
      (iter_after_low ops sd partial_frame plane dir s).best_err
        = (if seen_error ops sd partial_frame plane dir (iter_filt_low s) s
                < s.best_err + search_bias s ∧
              seen_error ops sd partial_frame plane dir (iter_filt_low s) s < s.best_err
           then seen_error ops sd partial_frame plane dir (iter_filt_low s) s
           else s.best_err)) ∧
    (s.filt_direction ≥ 0 → iter_filt_high m s ≠ s.filt_mid →
      ((search_iter ops sd partial_frame plane dir m s).filt_best = iter_filt_high m s ↔
        seen_error ops sd partial_frame plane dir (iter_filt_high m s)
            (iter_after_low ops sd partial_frame plane dir s)
          < (iter_after_low ops sd partial_frame plane dir s).best_err - search_bias s) ∧
      (search_iter ops sd partial_frame plane dir m s).best_err
        = (if seen_error ops sd partial_frame plane dir (iter_filt_high m s)
                (iter_after_low ops sd partial_frame plane dir s)
              < (iter_after_low ops sd partial_frame plane dir s).best_err - search_bias s
           then seen_error ops sd partial_frame plane dir (iter_filt_high m s)
                (iter_after_low ops sd partial_frame plane dir s)
           else (iter_after_low ops sd partial_frame plane dir s).best_err)) := by
  have hiter : search_iter ops sd partial_frame plane dir m s
      = search_advance (iter_after_high ops sd partial_frame plane dir m s) := rfl
  refine ⟨hiter, ?_, ?_, ?_⟩
  · unfold search_bias
    simp only [tdiv_eight _ h0, Int.shiftRight_eq_div_pow]
    norm_cast
  · intro hd hne
    unfold iter_after_low seen_error
    rw [search_low_filt_best_eq, search_low_best_err_eq]
    constructor
    · constructor
      · intro h
        by_contra hlt
        rw [if_neg (fun hc => hlt hc.2.2)] at h
        exact hne (h.symm.trans hbest)
      · intro h
        rw [if_pos ⟨hd, hne, h⟩]
    · by_cases h : ss_get (search_eval ops sd partial_frame plane dir (iter_filt_low s)
          s).ss_err (iter_filt_low s) < s.best_err + search_bias s ∧
          ss_get (search_eval ops sd partial_frame plane dir (iter_filt_low s)
          s).ss_err (iter_filt_low s) < s.best_err
      · rw [if_pos ⟨hd, hne, h⟩, if_pos h]
      · rw [if_neg (fun hc => h hc.2.2), if_neg h]
  · intro hd hne
    have hlow : (iter_after_low ops sd partial_frame plane dir s).filt_best
        ≠ iter_filt_high m s := by
      unfold iter_after_low
      rw [search_low_filt_best_eq]
      have e1 : iter_filt_low s = max (s.filt_mid - s.filter_step) 0 := AOMMAX_eq _ _
      have e2 : iter_filt_high m s = min (s.filt_mid + s.filter_step) m := AOMMIN_eq _ _
      split_ifs with hc
      · intro hx
        apply hne
        omega
      · rw [hbest]; exact fun hx => hne hx.symm
    rw [hiter, search_advance_filt_best, search_advance_best_err]
    unfold iter_after_high seen_error
    rw [search_high_filt_best_eq, search_high_best_err_eq]
    have hd' : (iter_after_low ops sd partial_frame plane dir s).filt_direction ≥ 0 := by
      unfold iter_after_low; rw [search_low_filt_direction]; exact hd
    have hne' : iter_filt_high m s
        ≠ (iter_after_low ops sd partial_frame plane dir s).filt_mid := by
      unfold iter_after_low; rw [search_low_filt_mid]; exact hne
    constructor
    · constructor
      · intro h
        by_contra hlt
        rw [if_neg (fun hc => hlt hc.2.2)] at h
        exact hlow h
      · intro h
        rw [if_pos ⟨hd', hne', h⟩]
    · by_cases h : ss_get (search_eval ops sd partial_frame plane dir (iter_filt_high m s)
          (iter_after_low ops sd partial_frame plane dir s)).ss_err (iter_filt_high m s)
          < (iter_after_low ops sd partial_frame plane dir s).best_err - search_bias s
      · rw [if_pos ⟨hd', hne', h⟩, if_pos h]
      · rw [if_neg (fun hc => h hc.2.2), if_neg h]

/-- Witness for C21: the first iteration on `two_dip_curve` from level 20 (step 5, bias 5):
the lower candidate 15 with error 8193 becomes the best level without lowering `best_err`,
the higher candidate 25 with error 9000 does not. -/
theorem iteration_acceptance_witness :
    search_bias two_dip_start = 5 ∧
    ((iter_after_low (curve_operators false two_dip_curve) sample_source 0 0 0
        two_dip_start).filt_best = iter_filt_low two_dip_start ↔
      seen_error (curve_operators false two_dip_curve) sample_source 0 0 0
          (iter_filt_low two_dip_start) two_dip_start
        < two_dip_start.best_err + search_bias two_dip_start) ∧
    ((search_iter (curve_operators false two_dip_curve) sample_source 0 0 0 63
        two_dip_start).filt_best = iter_filt_high 63 two_dip_start ↔
      seen_error (curve_operators false two_dip_curve) sample_source 0 0 0
          (iter_filt_high 63 two_dip_start)
          (iter_after_low (curve_operators false two_dip_curve) sample_source 0 0 0
            two_dip_start)
        < (iter_after_low (curve_operators false two_dip_curve) sample_source 0 0 0
            two_dip_start).best_err - search_bias two_dip_start) :=
  ⟨by decide,
    ((iteration_acceptance (curve_operators false two_dip_curve) sample_source 0 0 0 63
      two_dip_start (by decide) (by decide) (by decide) (by decide)).2.2.1
      (by decide) (by decide)).1,
    ((iteration_acceptance (curve_operators false two_dip_curve) sample_source 0 0 0 63
      two_dip_start (by decide) (by decide) (by decide) (by decide)).2.2.2
      (by decide) (by decide)).1⟩

/-! ### The indices of `ss_err` -/

section bounds
variable (ops : Operators) (sd : YV12_BUFFER_CONFIG) (partial_frame plane dir : Int)

theorem search_eval_length (lvl : Int) (s : SearchState) :
    (search_eval ops sd partial_frame plane dir lvl s).ss_err.length = s.ss_err.length := by
  unfold search_eval
  split_ifs
  · simp only [ss_set, List.length_set]
  · rfl

theorem search_low_length (lvl bias : Int) (s : SearchState) :
    (search_low ops sd partial_frame plane dir lvl bias s).ss_err.length
      = s.ss_err.length := by
  have he := search_eval_length ops sd partial_frame plane dir lvl s
  unfold search_low
  dsimp only
  split_ifs <;> first | exact he | rfl

theorem search_high_length (lvl bias : Int) (s : SearchState) :
    (search_high ops sd partial_frame plane dir lvl bias s).ss_err.length
      = s.ss_err.length := by
  have he := search_eval_length ops sd partial_frame plane dir lvl s
  unfold search_high
  dsimp only
  split_ifs <;> first | exact he | rfl

theorem search_iter_length (m : Int) (s : SearchState) :
    (search_iter ops sd partial_frame plane dir m s).ss_err.length = s.ss_err.length := by
  have ha : (search_iter ops sd partial_frame plane dir m s).ss_err
      = (search_high ops sd partial_frame plane dir (AOMMIN (s.filt_mid + s.filter_step) m)
          (search_bias s)
          (search_low ops sd partial_frame plane dir (AOMMAX (s.filt_mid - s.filter_step) 0)
            (search_bias s) s)).ss_err := by
    unfold search_iter search_body search_advance
    dsimp only
    split_ifs <;> rfl
  rw [ha, search_high_length, search_low_length]

theorem search_init_length (cpi : AV1_COMP) :
    (search_init ops sd cpi partial_frame plane dir).ss_err.length = 64 := by
  simp [search_init, ss_set, MAX_LOOP_FILTER]

theorem search_state_at_inv (cpi : AV1_COMP) (n : Nat) :
    SearchInv (av1_get_max_filter_level cpi)
        (search_state_at ops sd cpi partial_frame plane dir n) ∧
    (search_state_at ops sd cpi partial_frame plane dir n).ss_err.length = 64 := by
  induction n with
  | zero =>
    exact ⟨search_init_inv ops sd partial_frame plane dir cpi,
      search_init_length ops sd partial_frame plane dir cpi⟩
  | succ n ih =>
    have e : search_state_at ops sd cpi partial_frame plane dir (n + 1)
        = search_iter ops sd partial_frame plane dir (av1_get_max_filter_level cpi)
            (search_state_at ops sd cpi partial_frame plane dir n) := by
      unfold search_state_at
      rw [Function.iterate_succ_apply']
    rw [e]
    exact ⟨search_iter_inv ops sd partial_frame plane dir _ _ ih.1,
      by rw [search_iter_length]; exact ih.2⟩

/-- A level that has gone through the guarded evaluation has been tried. -/
theorem search_eval_mem_tried (m : Int) (hm : m ≤ 63) (lvl : Int) (h0 : 0 ≤ lvl)
    (h1 : lvl ≤ m) (s : SearchState) (h : MemoInv m s) :
    lvl ∈ (search_eval ops sd partial_frame plane dir lvl s).tried := by
  unfold search_eval
  split_ifs with hneg
  · exact List.mem_append_right _ (List.mem_singleton_self _)
  · by_contra hnot
    exact hneg ((h.seen lvl h0 (by omega)).mpr hnot)

theorem search_eval_tried_subset (lvl : Int) (s : SearchState) (x : Int)
    (hx : x ∈ s.tried) : x ∈ (search_eval ops sd partial_frame plane dir lvl s).tried := by
  rcases search_eval_tried ops sd partial_frame plane dir lvl s with h | h <;> rw [h]
  · exact hx
  · exact List.mem_append_left _ hx

theorem search_low_best_tried (m : Int) (hm : m ≤ 63) (lvl bias : Int) (h0 : 0 ≤ lvl)
    (h1 : lvl ≤ m) (s : SearchState) (h : MemoInv m s) (hb : s.filt_best ∈ s.tried) :
    (search_low ops sd partial_frame plane dir lvl bias s).filt_best
      ∈ (search_low ops sd partial_frame plane dir lvl bias s).tried := by
  have he := search_eval_mem_tried ops sd partial_frame plane dir m hm lvl h0 h1 s h
  have hs := search_eval_tried_subset ops sd partial_frame plane dir lvl s _ hb
  unfold search_low
  dsimp only
  split_ifs <;> first | exact he | (rw [search_eval_filt_best]; exact hs) | exact hb

theorem search_high_best_tried (m : Int) (hm : m ≤ 63) (lvl bias : Int) (h0 : 0 ≤ lvl)
    (h1 : lvl ≤ m) (s : SearchState) (h : MemoInv m s) (hb : s.filt_best ∈ s.tried) :
    (search_high ops sd partial_frame plane dir lvl bias s).filt_best
      ∈ (search_high ops sd partial_frame plane dir lvl bias s).tried := by
  have he := search_eval_mem_tried ops sd partial_frame plane dir m hm lvl h0 h1 s h
  have hs := search_eval_tried_subset ops sd partial_frame plane dir lvl s _ hb
  unfold search_high
  dsimp only
  split_ifs <;> first | exact he | (rw [search_eval_filt_best]; exact hs) | exact hb

theorem search_iter_best_tried (m : Int)
    (hpos : ∀ a b p h, 0 ≤ ops.aom_get_sse_plane a b p h)
    (s : SearchState) (hi : SearchInv m s) (h : MemoInv m s) (hb : s.filt_best ∈ s.tried) :
    (search_iter ops sd partial_frame plane dir m s).filt_best
      ∈ (search_iter ops sd partial_frame plane dir m s).tried := by
  obtain ⟨hmax, h0, hm, _, hs, _⟩ := hi
  have hl0 : 0 ≤ AOMMAX (s.filt_mid - s.filter_step) 0 := by rw [AOMMAX_eq]; omega
  have hl1 : AOMMAX (s.filt_mid - s.filter_step) 0 ≤ m := by rw [AOMMAX_eq]; omega
  have hh0 : 0 ≤ AOMMIN (s.filt_mid + s.filter_step) m := by rw [AOMMIN_eq]; omega
  have hh1 : AOMMIN (s.filt_mid + s.filter_step) m ≤ m := by rw [AOMMIN_eq]; omega
  have hlm := search_low_memo ops sd partial_frame plane dir m hmax hpos _ (search_bias s)
    hl0 hl1 s h
  have hlb := search_low_best_tried ops sd partial_frame plane dir m hmax _ (search_bias s)
    hl0 hl1 s h hb
  have hhb := search_high_best_tried ops sd partial_frame plane dir m hmax _ (search_bias s)
    hh0 hh1 _ hlm hlb
  unfold search_iter search_body
  dsimp only
  rw [search_advance_filt_best, search_advance_tried]
  exact hhb

end bounds

/-- C24. At the head of every iteration of `search_filter_level`,
`0 <= filt_low <= filt_mid <= filt_high <= max_filter_level <= 63`, the array `ss_err` has its
64 entries, so that every index into it is in bounds, and the shift amount
`15 - filt_mid / 8` lies in `[8, 15]`; and when the errors are non-negative the run reaches
its exit with `filt_best` in `0..63` a level that was passed to `try_filter_frame`, whose entry
`ss_err[filt_best]` is not negative (never the -1 sentinel). -/
theorem search_indices_in_bounds (ops : Operators) (sd : YV12_BUFFER_CONFIG) (cpi : AV1_COMP)
    (partial_frame plane dir : Int) (extra : Nat) :
    (∀ n : Nat,
      0 ≤ iter_filt_low (search_state_at ops sd cpi partial_frame plane dir n) ∧
      iter_filt_low (search_state_at ops sd cpi partial_frame plane dir n)
        ≤ (search_state_at ops sd cpi partial_frame plane dir n).filt_mid ∧
      (search_state_at ops sd cpi partial_frame plane dir n).filt_mid
        ≤ iter_filt_high (av1_get_max_filter_level cpi)
            (search_state_at ops sd cpi partial_frame plane dir n) ∧
      iter_filt_high (av1_get_max_filter_level cpi)
          (search_state_at ops sd cpi partial_frame plane dir n)
        ≤ av1_get_max_filter_level cpi ∧
      av1_get_max_filter_level cpi ≤ 63 ∧
      (search_state_at ops sd cpi partial_frame plane dir n).ss_err.length = 64 ∧
      8 ≤ 15 - Int.tdiv (search_state_at ops sd cpi partial_frame plane dir n).filt_mid 8 ∧
      15 - Int.tdiv (search_state_at ops sd cpi partial_frame plane dir n).filt_mid 8 ≤ 15) ∧
    ((∀ a b p h, 0 ≤ ops.aom_get_sse_plane a b p h) →
      ∃ s, search_run (SEARCH_FUEL + extra) ops sd cpi partial_frame plane dir = some s ∧
        0 ≤ s.filt_best ∧ s.filt_best ≤ 63 ∧ s.ss_err.length = 64 ∧
        s.filt_best ∈ s.tried ∧ 0 ≤ ss_get s.ss_err s.filt_best) := by
  constructor
  · intro n
    obtain ⟨⟨hmax, h0, hm, _, hs, _⟩, hlen⟩ :=
      search_state_at_inv ops sd partial_frame plane dir cpi n
    have ht := tdiv_eight _ h0
    unfold iter_filt_low iter_filt_high
    rw [AOMMAX_eq, AOMMIN_eq, ht]
    refine ⟨by omega, by omega, by omega, by omega, hmax, hlen, by omega, by omega⟩
  · intro hpos
    obtain ⟨t, ht, _, hinv, hmemo, hbest⟩ := search_loop_exits ops sd partial_frame plane dir
      (av1_get_max_filter_level cpi)
      (fun s => MemoInv (av1_get_max_filter_level cpi) s ∧ s.filt_best ∈ s.tried)
      (fun s hi hp =>
        ⟨search_iter_memo ops sd partial_frame plane dir _ hpos s hi hp.1,
          search_iter_best_tried ops sd partial_frame plane dir _ hpos s hi hp.1 hp.2⟩)
      (SEARCH_FUEL + extra) _
      (search_init_inv ops sd partial_frame plane dir cpi)
      ⟨search_init_memo ops sd partial_frame plane dir hpos cpi, by simp [search_init]⟩
      (le_trans (search_init_measure ops sd partial_frame plane dir cpi)
        (Nat.le_add_right _ _))
    obtain ⟨hmax, h0, hm, hb, _, _⟩ := hinv
    have hb0 : 0 ≤ t.filt_best := by rw [hb]; exact h0
    have hb1 : t.filt_best ≤ 63 := by rw [hb]; omega
    refine ⟨t, ht, hb0, hb1, hmemo.len, hbest, ?_⟩
    by_contra hneg
    exact ((hmemo.seen t.filt_best hb0 hb1).mp (by omega)) hbest

/-! ### The closed-form method as a function of the quantizer value -/

theorem clamp_mono (a b lo hi : Int) (hlo : lo ≤ hi) (h : a ≤ b) :
    clamp a lo hi ≤ clamp b lo hi := by
  unfold clamp
  split_ifs <;> omega

theorem ROUND_POWER_OF_TWO_mono (a b : Int) (n : Nat) (h : a ≤ b) :
    ROUND_POWER_OF_TWO a n ≤ ROUND_POWER_OF_TWO b n := by
  rw [ROUND_POWER_OF_TWO_eq, ROUND_POWER_OF_TWO_eq]
  exact Int.ediv_le_ediv (by positivity) (by omega)

/-- The first value of `filt_guess` does not decrease when the quantizer value grows. -/
theorem filt_guess_switch_mono (bit_depth frame_type q1 q2 g1 g2 : Int) (h : q1 ≤ q2)
    (h1 : filt_guess_switch bit_depth frame_type q1 = some g1)
    (h2 : filt_guess_switch bit_depth frame_type q2 = some g2) : g1 ≤ g2 := by
  unfold filt_guess_switch at h1 h2
  split_ifs at h1 h2 <;>
    simp only [Option.some.injEq, reduceCtorEq] at h1 h2 <;>
    subst h1 <;> subst h2 <;>
    apply ROUND_POWER_OF_TWO_mono <;> omega

theorem filt_guess_switch_some (bit_depth frame_type q : Int)
    (h : bit_depth = AOM_BITS_8 ∨ bit_depth = AOM_BITS_10 ∨ bit_depth = AOM_BITS_12) :
    ∃ g, filt_guess_switch bit_depth frame_type q = some g := by
  unfold filt_guess_switch
  split_ifs
  · exact ⟨_, rfl⟩
  · exact ⟨_, rfl⟩
  · exact ⟨_, rfl⟩
  · exact ⟨_, rfl⟩
  · omega

section from_q
variable (ops : Operators) (sd : YV12_BUFFER_CONFIG)

/-- The levels the closed-form method assigns, from the first value `g` of `filt_guess`. -/
theorem pick_from_q_written (fuel : Nat) (cpi : AV1_COMP) (g : Int)
    (hg : filt_guess_switch cpi.bit_depth cpi.frame_type
      (ops.av1_ac_quant_Q3 cpi.base_qindex 0 cpi.bit_depth) = some g) :
    ∃ c, av1_pick_filter_level fuel ops sd cpi .LPF_PICK_FROM_Q = .returned c ∧
      ∀ l ∈ written_levels ops .LPF_PICK_FROM_Q c.lf,
        l = clamp (if cpi.bit_depth ≠ AOM_BITS_8 ∧ cpi.frame_type = KEY_FRAME then g - 4
          else g) 0 (av1_get_max_filter_level cpi) := by
  rw [pick_from_q_eq, hg]
  refine ⟨_, rfl, ?_⟩
  intro l hl
  cases hcfg : ops.CONFIG_LOOPFILTER_LEVEL <;>
    simp [written_levels, hcfg] at hl <;> exact hl

end from_q

/-- C25. For a fixed supported bit depth, frame type and `max_filter_level`, the level chosen
by the method `LPF_PICK_FROM_Q` is monotonically non-decreasing in the quantizer value: for
two encoder states that agree in these and whose quantizer values satisfy `q1 <= q2`, the
method returns for both and every level it assigns for `q1` is at most every level it
assigns for `q2`. -/
theorem from_q_level_monotone (fuel : Nat) (ops : Operators) (sd : YV12_BUFFER_CONFIG)
    (cpi1 cpi2 : AV1_COMP)
    (hdepth : cpi1.bit_depth = AOM_BITS_8 ∨ cpi1.bit_depth = AOM_BITS_10 ∨
      cpi1.bit_depth = AOM_BITS_12)
    (hbd : cpi2.bit_depth = cpi1.bit_depth) (hft : cpi2.frame_type = cpi1.frame_type)
    (hmax : av1_get_max_filter_level cpi2 = av1_get_max_filter_level cpi1)
    (hq : ops.av1_ac_quant_Q3 cpi1.base_qindex 0 cpi1.bit_depth
      ≤ ops.av1_ac_quant_Q3 cpi2.base_qindex 0 cpi2.bit_depth) :
    ∃ c1 c2,
      av1_pick_filter_level fuel ops sd cpi1 .LPF_PICK_FROM_Q = .returned c1 ∧
      av1_pick_filter_level fuel ops sd cpi2 .LPF_PICK_FROM_Q = .returned c2 ∧
      ∀ l1 ∈ written_levels ops .LPF_PICK_FROM_Q c1.lf,
        ∀ l2 ∈ written_levels ops .LPF_PICK_FROM_Q c2.lf, l1 ≤ l2 := by
  obtain ⟨g1, hg1⟩ := filt_guess_switch_some cpi1.bit_depth cpi1.frame_type
    (ops.av1_ac_quant_Q3 cpi1.base_qindex 0 cpi1.bit_depth) hdepth
  obtain ⟨g2, hg2⟩ := filt_guess_switch_some cpi2.bit_depth cpi2.frame_type
    (ops.av1_ac_quant_Q3 cpi2.base_qindex 0 cpi2.bit_depth) (hbd ▸ hdepth)
  obtain ⟨c1, e1, w1⟩ := pick_from_q_written ops sd fuel cpi1 g1 hg1
  obtain ⟨c2, e2, w2⟩ := pick_from_q_written ops sd fuel cpi2 g2 hg2
  have hg : g1 ≤ g2 := by
    have hg2' : filt_guess_switch cpi1.bit_depth cpi1.frame_type
        (ops.av1_ac_quant_Q3 cpi2.base_qindex 0 cpi2.bit_depth) = some g2 := by
      rw [← hbd, ← hft]; exact hg2
    exact filt_guess_switch_mono _ _ _ _ g1 g2 hq hg1 hg2'
  refine ⟨c1, c2, e1, e2, ?_⟩
  intro l1 h1 l2 h2
  rw [w1 l1 h1, w2 l2 h2, hbd, hft, hmax]
  apply clamp_mono _ _ _ _ (av1_get_max_filter_level_range cpi1).1
  split_ifs <;> omega

/-- Witness for C25: the 8-bit key frame with the quantizer values 100 and 200. -/
theorem from_q_level_monotone_witness :
    ∃ c1 c2,
      av1_pick_filter_level 0 (curve_operators false fun _ => 0) sample_source
          sample_key_cpi .LPF_PICK_FROM_Q = .returned c1 ∧
      av1_pick_filter_level 0 (curve_operators false fun _ => 0) sample_source
          { sample_key_cpi with base_qindex := 200 } .LPF_PICK_FROM_Q = .returned c2 ∧
      ∀ l1 ∈ written_levels (curve_operators false fun _ => 0) .LPF_PICK_FROM_Q c1.lf,
        ∀ l2 ∈ written_levels (curve_operators false fun _ => 0) .LPF_PICK_FROM_Q c2.lf,
          l1 ≤ l2 :=
  from_q_level_monotone 0 (curve_operators false fun _ => 0) sample_source sample_key_cpi
    { sample_key_cpi with base_qindex := 200 } (by decide) (by decide) (by decide)
    (by decide) (by decide)

/-! ### The search without bias on a unimodal curve -/

section descent
variable (curve : Int → Int) (pass rating tx_mode m : Int)

/-- One iteration on the steering variables when the bias is 0: the high candidate wins when
it is below the best error so far, else the low candidate when it is below the error of
`filt_mid`, else the step is halved. -/
theorem control_iter_zero_bias (k : Control)
    (hb : control_bias pass rating tx_mode k = 0) :
    control_iter curve pass rating tx_mode m k
      = if k.filt_direction ≥ 0 ∧ min (k.filt_mid + k.filter_step) m ≠ k.filt_mid ∧
            curve (min (k.filt_mid + k.filter_step) m)
              < (if k.filt_direction ≤ 0 ∧ max (k.filt_mid - k.filter_step) 0 ≠ k.filt_mid ∧
                    curve (max (k.filt_mid - k.filter_step) 0) < k.best_err
                 then curve (max (k.filt_mid - k.filter_step) 0) else k.best_err)
        then
          ⟨min (k.filt_mid + k.filter_step) m, k.filter_step,
            if min (k.filt_mid + k.filter_step) m < k.filt_mid then -1 else 1,
            curve (min (k.filt_mid + k.filter_step) m)⟩
        else if k.filt_direction ≤ 0 ∧ max (k.filt_mid - k.filter_step) 0 ≠ k.filt_mid ∧
            curve (max (k.filt_mid - k.filter_step) 0) < k.best_err
        then
          ⟨max (k.filt_mid - k.filter_step) 0, k.filter_step,
            if max (k.filt_mid - k.filter_step) 0 < k.filt_mid then -1 else 1,
            curve (max (k.filt_mid - k.filter_step) 0)⟩
        else ⟨k.filt_mid, Int.tdiv k.filter_step 2, 0, k.best_err⟩ := by
  unfold control_iter
  simp only [hb, add_zero, sub_zero]
  by_cases aL : k.filt_direction ≤ 0 ∧ max (k.filt_mid - k.filter_step) 0 ≠ k.filt_mid ∧
      curve (max (k.filt_mid - k.filter_step) 0) < k.best_err
  · have aL2 : k.filt_direction ≤ 0 ∧ max (k.filt_mid - k.filter_step) 0 ≠ k.filt_mid ∧
        curve (max (k.filt_mid - k.filter_step) 0) < k.best_err ∧
        curve (max (k.filt_mid - k.filter_step) 0) < k.best_err := ⟨aL.1, aL.2.1, aL.2.2, aL.2.2⟩
    simp only [if_pos aL, if_pos aL2]
    by_cases aH : k.filt_direction ≥ 0 ∧ min (k.filt_mid + k.filter_step) m ≠ k.filt_mid ∧
        curve (min (k.filt_mid + k.filter_step) m) < curve (max (k.filt_mid - k.filter_step) 0)
    · simp only [if_pos aH, if_neg aH.2.1]
    · simp only [if_neg aH, if_neg aL.2.1, if_pos aL]
  · have aL2 : ¬(k.filt_direction ≤ 0 ∧ max (k.filt_mid - k.filter_step) 0 ≠ k.filt_mid ∧
        curve (max (k.filt_mid - k.filter_step) 0) < k.best_err ∧
        curve (max (k.filt_mid - k.filter_step) 0) < k.best_err) :=
      fun h => aL ⟨h.1, h.2.1, h.2.2.1⟩
    simp only [if_neg aL, if_neg aL2]
    by_cases aH : k.filt_direction ≥ 0 ∧ min (k.filt_mid + k.filter_step) m ≠ k.filt_mid ∧
        curve (min (k.filt_mid + k.filter_step) m) < k.best_err
    · simp only [if_pos aH, if_neg aH.2.1]
    · simp only [if_neg aH, if_true]

theorem tdiv_two (x : Int) (h : 0 ≤ x) : Int.tdiv x 2 = x / 2 :=
  Int.tdiv_eq_ediv h (by decide)

/-- An iteration without bias on a strictly unimodal curve keeps the invariant. -/
theorem control_iter_descent (a : Int) (hu : StrictlyUnimodal curve m a) (k : Control)
    (hb : control_bias pass rating tx_mode k = 0) (hpos : 0 < k.filter_step)
    (h : DescentInv curve m a k) :
    DescentInv curve m a (control_iter curve pass rating tx_mode m k) := by
  rw [control_iter_zero_bias curve pass rating tx_mode m k hb]
  obtain ⟨h0, hm, hs, hbest, hdir, hup, hdown, _⟩ := h
  obtain ⟨ha0, ham, hdec, hinc⟩ := hu
  obtain ⟨mid, step, d, be⟩ := k
  simp only at h0 hm hs hbest hdir hup hdown hpos ⊢
  subst hbest
  have hup_case : ∀ H : Int, H = min (mid + step) m → H ≠ mid → curve H < curve mid →
      DescentInv curve m a ⟨H, step, if H < mid then -1 else 1, curve H⟩ := by
    intro H hH hne hlt
    have hgt : mid < H := by omega
    rw [if_neg (by omega)]
    refine ⟨by show 0 ≤ H; omega, by show H ≤ m; omega, hs, rfl, Or.inr (Or.inr rfl),
      ?_, ?_, ?_⟩
    · intro hs1 _ p hp
      have hp2 : p = mid := by
        have hs1' : step = 1 := hs1
        have hp' : p + 1 = H := hp
        omega
      rw [hp2]; exact hlt
    · intro _ hd
      have hd' : (1 : Int) = -1 := hd
      omega
    · intro hz
      have hz' : step = 0 := hz
      omega
  have hdown_case : ∀ L : Int, L = max (mid - step) 0 → L ≠ mid → curve L < curve mid →
      DescentInv curve m a ⟨L, step, if L < mid then -1 else 1, curve L⟩ := by
    intro L hL hne hlt
    have hgt : L < mid := by omega
    rw [if_pos hgt]
    refine ⟨by show 0 ≤ L; omega, by show L ≤ m; omega, hs, rfl, Or.inl rfl, ?_, ?_, ?_⟩
    · intro _ hd
      have hd' : (-1 : Int) = 1 := hd
      omega
    · intro hs1 _ p hp
      have hp2 : p = mid := by
        have hs1' : step = 1 := hs1
        have hp' : p = L + 1 := hp
        omega
      rw [hp2]; exact hlt
    · intro hz
      have hz' : step = 0 := hz
      omega
  by_cases aL : d ≤ 0 ∧ max (mid - step) 0 ≠ mid ∧ curve (max (mid - step) 0) < curve mid
  · simp only [if_pos aL]
    by_cases aH : d ≥ 0 ∧ min (mid + step) m ≠ mid ∧
        curve (min (mid + step) m) < curve (max (mid - step) 0)
    · rw [if_pos aH]
      exact hup_case _ rfl aH.2.1 (lt_trans aH.2.2 aL.2.2)
    · rw [if_neg aH]
      exact hdown_case _ rfl aL.2.1 aL.2.2
  · simp only [if_neg aL]
    by_cases aH : d ≥ 0 ∧ min (mid + step) m ≠ mid ∧ curve (min (mid + step) m) < curve mid
    · rw [if_pos aH]
      exact hup_case _ rfl aH.2.1 aH.2.2
    · rw [if_neg aH]
      have ht := tdiv_two step hs
      refine ⟨h0, hm, by show 0 ≤ Int.tdiv step 2; omega, rfl, Or.inr (Or.inl rfl),
        ?_, ?_, ?_⟩
      · intro _ hd
        have hd' : (0 : Int) = 1 := hd
        omega
      · intro _ hd
        have hd' : (0 : Int) = -1 := hd
        omega
      · intro hz
        have hs1 : step = 1 := by
          have hz' : Int.tdiv step 2 = 0 := hz
          omega
        subst hs1
        show mid = a
        by_contra hne
        rcases lt_or_gt_of_ne hne with hlt | hgt
        · have hH : min (mid + 1) m = mid + 1 := by omega
          have hc := hdec mid (mid + 1) h0 (by omega) (by omega)
          by_cases hd : d ≥ 0
          · exact aH ⟨hd, by rw [hH]; omega, by rw [hH]; exact hc⟩
          · have hd1 : d = -1 := by omega
            have := hdown rfl hd1 (mid + 1) rfl
            omega
        · have hL : max (mid - 1) 0 = mid - 1 := by omega
          have hc := hinc (mid - 1) mid (by omega) (by omega) hm
          by_cases hd : d ≤ 0
          · exact aL ⟨hd, by rw [hL]; omega, by rw [hL]; exact hc⟩
          · have hd1 : d = 1 := by omega
            have := hup rfl hd1 (mid - 1) (by omega)
            omega

/-- What one iteration does to the steering variables, whatever the bias: nothing is accepted
and the step is halved, or the low candidate is accepted, or the high candidate is accepted. -/
theorem control_iter_cases (k : Control) (h0 : 0 ≤ k.filt_mid) (hm : k.filt_mid ≤ m)
    (hs : 0 ≤ k.filter_step) :
    (control_iter curve pass rating tx_mode m k
        = ⟨k.filt_mid, Int.tdiv k.filter_step 2, 0, k.best_err⟩ ∧
      (k.filt_direction ≤ 0 → max (k.filt_mid - k.filter_step) 0 ≠ k.filt_mid →
        ¬ curve (max (k.filt_mid - k.filter_step) 0)
          < k.best_err + control_bias pass rating tx_mode k)) ∨
    (control_iter curve pass rating tx_mode m k
        = ⟨max (k.filt_mid - k.filter_step) 0, k.filter_step, -1,
            if curve (max (k.filt_mid - k.filter_step) 0) < k.best_err
            then curve (max (k.filt_mid - k.filter_step) 0) else k.best_err⟩ ∧
      max (k.filt_mid - k.filter_step) 0 < k.filt_mid ∧ k.filt_direction ≤ 0 ∧
      curve (max (k.filt_mid - k.filter_step) 0)
        < k.best_err + control_bias pass rating tx_mode k) ∨
    (∃ e : Int,
      control_iter curve pass rating tx_mode m k
        = ⟨min (k.filt_mid + k.filter_step) m, k.filter_step, 1,
            curve (min (k.filt_mid + k.filter_step) m)⟩ ∧
      k.filt_mid < min (k.filt_mid + k.filter_step) m ∧ k.filt_direction ≥ 0 ∧
      e ≤ k.best_err ∧
      curve (min (k.filt_mid + k.filter_step) m) < e - control_bias pass rating tx_mode k) := by
  unfold control_iter
  dsimp only
  generalize control_bias pass rating tx_mode k = b
  by_cases hB : k.filt_direction ≥ 0 ∧ min (k.filt_mid + k.filter_step) m ≠ k.filt_mid ∧
      curve (min (k.filt_mid + k.filter_step) m)
        < (if k.filt_direction ≤ 0 ∧ max (k.filt_mid - k.filter_step) 0 ≠ k.filt_mid ∧
              curve (max (k.filt_mid - k.filter_step) 0) < k.best_err + b ∧
              curve (max (k.filt_mid - k.filter_step) 0) < k.best_err
           then curve (max (k.filt_mid - k.filter_step) 0) else k.best_err) - b
  · right; right
    have hlt : k.filt_mid < min (k.filt_mid + k.filter_step) m := by
      have := hB.2.1
      omega
    refine ⟨_, ?_, hlt, hB.1, ?_, hB.2.2⟩
    · simp only [if_pos hB, if_neg hB.2.1, if_neg (not_lt.mpr (le_of_lt hlt))]
    · split_ifs with h
      · exact le_of_lt h.2.2.2
      · exact le_refl _
  · by_cases hA : k.filt_direction ≤ 0 ∧ max (k.filt_mid - k.filter_step) 0 ≠ k.filt_mid ∧
        curve (max (k.filt_mid - k.filter_step) 0) < k.best_err + b
    · right; left
      have hlt : max (k.filt_mid - k.filter_step) 0 < k.filt_mid := by
        have := hA.2.1
        omega
      refine ⟨?_, hlt, hA.1, hA.2.2⟩
      simp only [if_neg hB, if_pos hA, if_neg hA.2.1, if_pos hlt]
      by_cases hlb : curve (max (k.filt_mid - k.filter_step) 0) < k.best_err
      · rw [if_pos ⟨hA.1, hA.2.1, hA.2.2, hlb⟩, if_pos hlb]
      · rw [if_neg (fun h => hlb h.2.2.2), if_neg hlb]
    · left
      refine ⟨?_, fun hd hne hlt => hA ⟨hd, hne, hlt⟩⟩
      simp only [if_neg hB, if_neg hA, if_true]
      rw [if_neg (fun h => hA ⟨h.1, h.2.1, h.2.2.1⟩)]

/-- A property that every iteration with a positive step keeps holds when the loop on the
steering variables is left, and the step is then not positive. -/
theorem control_loop_keeps (P : Control → Prop)
    (hP : ∀ k : Control, P k → 0 < k.filter_step →
      P (control_iter curve pass rating tx_mode m k))
    (fuel : Nat) :
    ∀ k t : Control, P k →
      control_loop curve pass rating tx_mode m fuel k = some t →
        P t ∧ ¬ 0 < t.filter_step := by
  induction fuel with
  | zero =>
    intro k t h ht
    unfold control_loop at ht
    split_ifs at ht with hp
    simp only [Option.some.injEq] at ht
    subst ht
    exact ⟨h, hp⟩
  | succ n ih =>
    intro k t h ht
    unfold control_loop at ht
    split_ifs at ht with hp
    · exact ih _ t (hP k h hp) ht
    · simp only [Option.some.injEq] at ht
      subst ht
      exact ⟨h, hp⟩

/-- The loop on the steering variables, when the bias is 0 at the head of every iteration the
run from `k0` makes, ends on the minimum of a strictly unimodal curve. -/
theorem control_loop_descent (a : Int) (hu : StrictlyUnimodal curve m a) (k0 : Control)
    (hbias : ∀ n : Nat,
      0 < ((control_iter curve pass rating tx_mode m)^[n] k0).filter_step →
      control_bias pass rating tx_mode ((control_iter curve pass rating tx_mode m)^[n] k0) = 0)
    (h : DescentInv curve m a k0) (fuel : Nat) (t : Control)
    (ht : control_loop curve pass rating tx_mode m fuel k0 = some t) : t.filt_mid = a := by
  obtain ⟨⟨hinv, _⟩, hstep⟩ := control_loop_keeps curve pass rating tx_mode m
    (fun k => DescentInv curve m a k ∧
      ∃ n : Nat, k = (control_iter curve pass rating tx_mode m)^[n] k0)
    (fun k hk hpos => by
      obtain ⟨hd, n, hn⟩ := hk
      have hb : control_bias pass rating tx_mode k = 0 := by
        rw [hn]
        exact hbias n (by rw [← hn]; exact hpos)
      refine ⟨control_iter_descent curve pass rating tx_mode m a hu k hb hpos hd, n + 1, ?_⟩
      rw [Function.iterate_succ_apply', ← hn])
    fuel k0 t ⟨h, 0, rfl⟩ ht
  exact hinv.done (by have := hinv.step_nonneg; omega)

/-- Errors in `[0, 256)` keep `best_err` in `[0, 256)`, whatever the bias. -/
theorem control_iterate_small
    (hsmall : ∀ i : Int, 0 ≤ i → i ≤ m → 0 ≤ curve i ∧ curve i < 256) (k0 : Control)
    (h0 : 0 ≤ k0.filt_mid) (hm : k0.filt_mid ≤ m) (hs : 0 ≤ k0.filter_step)
    (hb0 : 0 ≤ k0.best_err) (hb1 : k0.best_err < 256) (n : Nat) :
    0 ≤ ((control_iter curve pass rating tx_mode m)^[n] k0).filt_mid ∧
    ((control_iter curve pass rating tx_mode m)^[n] k0).filt_mid ≤ m ∧
    0 ≤ ((control_iter curve pass rating tx_mode m)^[n] k0).filter_step ∧
    0 ≤ ((control_iter curve pass rating tx_mode m)^[n] k0).best_err ∧
    ((control_iter curve pass rating tx_mode m)^[n] k0).best_err < 256 := by
  induction n with
  | zero => exact ⟨h0, hm, hs, hb0, hb1⟩
  | succ n ih =>
    rw [Function.iterate_succ_apply']
    generalize (control_iter curve pass rating tx_mode m)^[n] k0 = k at ih ⊢
    obtain ⟨i0, im, is, ib0, ib1⟩ := ih
    have ht := tdiv_two k.filter_step is
    have hlo := hsmall (max (k.filt_mid - k.filter_step) 0) (by omega) (by omega)
    have hhi := hsmall (min (k.filt_mid + k.filter_step) m) (by omega) (by omega)
    rcases control_iter_cases curve pass rating tx_mode m k i0 im is with
      ⟨e, _⟩ | ⟨e, _, _, _⟩ | ⟨_, e, _, _, _, _⟩
    · rw [e]
      exact ⟨i0, im, by show 0 ≤ Int.tdiv k.filter_step 2; omega, ib0, ib1⟩
    · rw [e]
      refine ⟨by show 0 ≤ max (k.filt_mid - k.filter_step) 0; omega,
        by show max (k.filt_mid - k.filter_step) 0 ≤ m; omega, is, ?_, ?_⟩
      · show 0 ≤ ite _ _ _
        split_ifs
        · exact hlo.1
        · exact ib0
      · show ite _ _ _ < (256 : Int)
        split_ifs
        · exact hlo.2
        · exact ib1
    · rw [e]
      exact ⟨by show 0 ≤ min (k.filt_mid + k.filter_step) m; omega,
        by show min (k.filt_mid + k.filter_step) m ≤ m; omega, is, hhi.1, hhi.2⟩

end descent

section descent_run
variable (ops : Operators) (sd : YV12_BUFFER_CONFIG) (partial_frame plane dir : Int)
variable (curve : Int → Int)

/-- The state at the head of the iteration `n` of a run, on operators with an error curve, has
the steering variables that `n` rounds of `control_iter` give. -/
theorem search_state_at_control (hc : HasErrorCurve ops sd partial_frame plane dir curve)
    (cpi : AV1_COMP) (n : Nat) :
    (search_state_at ops sd cpi partial_frame plane dir n).control
      = (control_iter curve cpi.pass cpi.section_intra_rating cpi.tx_mode
          (av1_get_max_filter_level cpi))^[n]
          (search_init ops sd cpi partial_frame plane dir).control ∧
    CurveMemo curve (search_state_at ops sd cpi partial_frame plane dir n) ∧
    (search_state_at ops sd cpi partial_frame plane dir n).cpi.settings = cpi.settings := by
  induction n with
  | zero =>
    obtain ⟨_, hmemo, hset⟩ := search_init_control ops sd partial_frame plane dir curve hc cpi
    exact ⟨rfl, hmemo, hset⟩
  | succ n ih =>
    obtain ⟨ictl, imemo, iset⟩ := ih
    have e : search_state_at ops sd cpi partial_frame plane dir (n + 1)
        = search_iter ops sd partial_frame plane dir (av1_get_max_filter_level cpi)
            (search_state_at ops sd cpi partial_frame plane dir n) := by
      unfold search_state_at
      rw [Function.iterate_succ_apply']
    have hinv := (search_state_at_inv ops sd partial_frame plane dir cpi n).1
    obtain ⟨hctl, hmemo⟩ := search_iter_control ops sd partial_frame plane dir curve hc
      (av1_get_max_filter_level cpi) _ hinv imemo
    have hp : (search_state_at ops sd cpi partial_frame plane dir n).cpi.pass = cpi.pass := by
      have := congrArg AV1_COMP.pass iset; exact this
    have hr : (search_state_at ops sd cpi partial_frame plane dir n).cpi.section_intra_rating
        = cpi.section_intra_rating := by
      have := congrArg AV1_COMP.section_intra_rating iset; exact this
    have ht : (search_state_at ops sd cpi partial_frame plane dir n).cpi.tx_mode
        = cpi.tx_mode := by
      have := congrArg AV1_COMP.tx_mode iset; exact this
    rw [hp, hr, ht, ictl] at hctl
    rw [e, Function.iterate_succ_apply']
    exact ⟨hctl, hmemo,
      (search_iter_settings ops sd partial_frame plane dir _ _).trans iset⟩

/-- The bias of the iteration `n` of a run is the bias of its steering variables under the
bias configuration of the run. -/
theorem search_state_at_bias (hc : HasErrorCurve ops sd partial_frame plane dir curve)
    (cpi : AV1_COMP) (n : Nat) :
    search_bias (search_state_at ops sd cpi partial_frame plane dir n)
      = control_bias cpi.pass cpi.section_intra_rating cpi.tx_mode
          ((control_iter curve cpi.pass cpi.section_intra_rating cpi.tx_mode
            (av1_get_max_filter_level cpi))^[n]
            (search_init ops sd cpi partial_frame plane dir).control) := by
  obtain ⟨hctl, _, hset⟩ :=
    search_state_at_control ops sd partial_frame plane dir curve hc cpi n
  have hp : (search_state_at ops sd cpi partial_frame plane dir n).cpi.pass = cpi.pass := by
    have := congrArg AV1_COMP.pass hset; exact this
  have hr : (search_state_at ops sd cpi partial_frame plane dir n).cpi.section_intra_rating
      = cpi.section_intra_rating := by
    have := congrArg AV1_COMP.section_intra_rating hset; exact this
  have ht : (search_state_at ops sd cpi partial_frame plane dir n).cpi.tx_mode
      = cpi.tx_mode := by
    have := congrArg AV1_COMP.tx_mode hset; exact this
  rw [← hctl, ← hp, ← hr, ← ht]
  rfl

/-- The state at loop entry satisfies the invariant of the descent. -/
theorem search_init_descent (hc : HasErrorCurve ops sd partial_frame plane dir curve)
    (cpi : AV1_COMP) (a : Int) :
    DescentInv curve (av1_get_max_filter_level cpi) a
      (search_init ops sd cpi partial_frame plane dir).control := by
  obtain ⟨hm0, hm63⟩ := av1_get_max_filter_level_range cpi
  obtain ⟨c0, c1⟩ := clamp_range (search_start_level ops cpi plane dir) 0
    (av1_get_max_filter_level cpi) hm0
  rw [(search_init_control ops sd partial_frame plane dir curve hc cpi).1]
  have hstep : 4 ≤ (if clamp (search_start_level ops cpi plane dir) 0
      (av1_get_max_filter_level cpi) < 16 then (4 : Int)
      else Int.tdiv (clamp (search_start_level ops cpi plane dir) 0
        (av1_get_max_filter_level cpi)) 4) := by
    split_ifs with h16
    · exact le_refl _
    · rw [Int.tdiv_eq_ediv c0 (by decide)]; omega
  refine ⟨c0, c1, by show (0 : Int) ≤ ite _ _ _; omega, rfl, Or.inr (Or.inl rfl), ?_, ?_, ?_⟩
  · intro h1
    have h1' : (if clamp (search_start_level ops cpi plane dir) 0
      (av1_get_max_filter_level cpi) < 16 then (4 : Int)
      else Int.tdiv (clamp (search_start_level ops cpi plane dir) 0
        (av1_get_max_filter_level cpi)) 4) = 1 := h1
    omega
  · intro h1
    have h1' : (if clamp (search_start_level ops cpi plane dir) 0
      (av1_get_max_filter_level cpi) < 16 then (4 : Int)
      else Int.tdiv (clamp (search_start_level ops cpi plane dir) 0
        (av1_get_max_filter_level cpi)) 4) = 1 := h1
    omega
  · intro h1
    have h1' : (if clamp (search_start_level ops cpi plane dir) 0
      (av1_get_max_filter_level cpi) < 16 then (4 : Int)
      else Int.tdiv (clamp (search_start_level ops cpi plane dir) 0
        (av1_get_max_filter_level cpi)) 4) = 0 := h1
    omega

/-- Errors in `[0, 256)` over `[0, max_filter_level]` make the bias 0 at the head of every
iteration of a run. -/
theorem small_errors_zero_bias (hc : HasErrorCurve ops sd partial_frame plane dir curve)
    (cpi : AV1_COMP)
    (hsmall : ∀ i : Int, 0 ≤ i → i ≤ av1_get_max_filter_level cpi →
      0 ≤ curve i ∧ curve i < 256) (n : Nat) :
    search_bias (search_state_at ops sd cpi partial_frame plane dir n) = 0 := by
  obtain ⟨hm0, hm63⟩ := av1_get_max_filter_level_range cpi
  have hd := search_init_descent ops sd partial_frame plane dir curve hc cpi 0
  have hb := hsmall _ hd.mid_nonneg hd.mid_le
  rw [← hd.best] at hb
  obtain ⟨i0, im, _, ib0, ib1⟩ := control_iterate_small curve cpi.pass
    cpi.section_intra_rating cpi.tx_mode (av1_get_max_filter_level cpi) hsmall _
    hd.mid_nonneg hd.mid_le hd.step_nonneg hb.1 hb.2 n
  rw [search_state_at_bias ops sd partial_frame plane dir curve hc cpi n]
  exact control_bias_zero _ _ _ _ ib0 ib1 i0 (by omega)

end descent_run

theorem unimodal_minimum (curve : Int → Int) (m a : Int) (hu : StrictlyUnimodal curve m a)
    (i : Int) (h0 : 0 ≤ i) (h1 : i ≤ m) : curve a ≤ curve i := by
  obtain ⟨ha0, ham, hdec, hinc⟩ := hu
  rcases lt_trichotomy i a with h | h | h
  · exact le_of_lt (hdec i a h0 h (le_refl _))
  · rw [h]
  · exact le_of_lt (hinc a i (le_refl _) h h1)

/-- C23. When the bias is 0 at the head of every iteration that the run of
`search_filter_level` makes (errors in `[0, 256)` ensure it) and the error curve over
`[0, max_filter_level]` is strictly unimodal, strictly decreasing up to its minimum at level
`a` and strictly increasing after it, `search_filter_level` returns exactly `a`, the level of
minimum error, for every start level. -/
theorem unimodal_search_finds_minimum (ops : Operators) (sd : YV12_BUFFER_CONFIG)
    (cpi : AV1_COMP) (partial_frame plane dir : Int) (curve : Int → Int) (a : Int)
    (extra : Nat)
    (hc : HasErrorCurve ops sd partial_frame plane dir curve)
    (hv : ¬ (ops.CONFIG_LOOPFILTER_LEVEL ∧ ¬ (plane = 0 ∨ plane = 1 ∨ plane = 2)))
    (hu : StrictlyUnimodal curve (av1_get_max_filter_level cpi) a)
    (hbias : ∀ n : Nat,
      0 < (search_state_at ops sd cpi partial_frame plane dir n).filter_step →
      search_bias (search_state_at ops sd cpi partial_frame plane dir n) = 0) :
    ∃ c, search_filter_level (SEARCH_FUEL + extra) ops sd cpi partial_frame plane dir
        = .returned (a, c) ∧
      ∀ i : Int, 0 ≤ i → i ≤ av1_get_max_filter_level cpi → curve a ≤ curve i := by
  obtain ⟨s, hs, _, _, _⟩ := search_run_spec ops sd partial_frame plane dir cpi extra
  have hctl := search_run_control ops sd partial_frame plane dir curve hc cpi
    (SEARCH_FUEL + extra)
  have hinv := search_init_descent ops sd partial_frame plane dir curve hc cpi a
  have hbias' : ∀ n : Nat,
      0 < ((control_iter curve cpi.pass cpi.section_intra_rating cpi.tx_mode
        (av1_get_max_filter_level cpi))^[n]
        (search_init ops sd cpi partial_frame plane dir).control).filter_step →
      control_bias cpi.pass cpi.section_intra_rating cpi.tx_mode
        ((control_iter curve cpi.pass cpi.section_intra_rating cpi.tx_mode
          (av1_get_max_filter_level cpi))^[n]
          (search_init ops sd cpi partial_frame plane dir).control) = 0 := by
    intro n hpos
    rw [← search_state_at_bias ops sd partial_frame plane dir curve hc cpi n]
    apply hbias n
    have e := (search_state_at_control ops sd partial_frame plane dir curve hc cpi n).1
    have e2 : (search_state_at ops sd cpi partial_frame plane dir n).filter_step
        = (search_state_at ops sd cpi partial_frame plane dir n).control.filter_step := rfl
    rw [e2, e]
    exact hpos
  rw [hs] at hctl
  simp only [Option.map_some'] at hctl
  cases hk : control_loop curve cpi.pass cpi.section_intra_rating cpi.tx_mode
      (av1_get_max_filter_level cpi) (SEARCH_FUEL + extra)
      (search_init ops sd cpi partial_frame plane dir).control with
  | none => rw [hk] at hctl; simp at hctl
  | some t =>
    rw [hk] at hctl
    simp only [Option.map_some', Option.some.injEq] at hctl
    have hta := control_loop_descent curve cpi.pass cpi.section_intra_rating cpi.tx_mode
      (av1_get_max_filter_level cpi) a hu _ hbias' hinv (SEARCH_FUEL + extra) t hk
    refine ⟨s.cpi, ?_, unimodal_minimum curve _ a hu⟩
    unfold search_filter_level
    rw [if_neg hv, hs]
    show Outcome.returned (s.filt_best, s.cpi) = _
    rw [hctl, hta]

/-- Witness for C23: the curve `|i - 20|`, whose errors are below 256, searched from the
previous level 2. -/
theorem unimodal_search_finds_minimum_witness :
    ∃ c, search_filter_level (SEARCH_FUEL + 0) (curve_operators false valley_curve)
        sample_source (sample_cpi 0 0 1 2) 0 0 0 = .returned (20, c) ∧
      ∀ i : Int, 0 ≤ i → i ≤ av1_get_max_filter_level (sample_cpi 0 0 1 2) →
        valley_curve 20 ≤ valley_curve i :=
  unimodal_search_finds_minimum (curve_operators false valley_curve) sample_source
    (sample_cpi 0 0 1 2) 0 0 0 valley_curve 20 0
    (curve_operators_has_curve valley_curve sample_source 0 0 0) (by decide)
    ⟨by decide, by decide,
      fun i j hi hij hj => by unfold valley_curve; split_ifs <;> omega,
      fun i j hi hij hj => by unfold valley_curve; split_ifs <;> omega⟩
    (fun n _ => small_errors_zero_bias (curve_operators false valley_curve) sample_source 0 0 0
      valley_curve (curve_operators_has_curve valley_curve sample_source 0 0 0)
      (sample_cpi 0 0 1 2)
      (fun i h0 h1 => by
        have hm : av1_get_max_filter_level (sample_cpi 0 0 1 2) = 63 := by decide
        rw [hm] at h1
        unfold valley_curve; split_ifs <;> omega) n)

/-! ### The bias on a unimodal curve -/

section biased
variable (curve : Int → Int) (pass rating tx_mode m : Int)

/-- An iteration whose bias is not negative, on a strictly unimodal curve without negative
errors, keeps the invariant of the biased search. -/
theorem control_iter_biased (a : Int) (hu : StrictlyUnimodal curve m a)
    (hnn : ∀ i : Int, 0 ≤ i → i ≤ m → 0 ≤ curve i) (hr : pass = 2 → 0 ≤ rating)
    (k : Control) (hpos : 0 < k.filter_step) (h : BiasedInv curve m a k) :
    BiasedInv curve m a (control_iter curve pass rating tx_mode m k) := by
  obtain ⟨h0, hm, hs, hb0, hble, hbr, hup, _⟩ := h
  obtain ⟨ha0, ham, hdec, hinc⟩ := hu
  have hbias := control_bias_nonneg pass rating tx_mode k hb0 hs hr
  have ht := tdiv_two k.filter_step hs
  rcases control_iter_cases curve pass rating tx_mode m k h0 hm hs with
    ⟨e, hlow⟩ | ⟨e, hlt, hd, hacc⟩ | ⟨e1, e, hlt, hd, he1, hacc⟩
  · rw [e]
    refine ⟨h0, hm, by show 0 ≤ Int.tdiv k.filter_step 2; omega, hb0, hble, hbr, ?_, ?_⟩
    · intro hdir
      have hdir' : (0 : Int) < 0 := hdir
      omega
    · intro hz
      have hs1 : k.filter_step = 1 := by
        have hz' : Int.tdiv k.filter_step 2 = 0 := hz
        omega
      show k.filt_mid ≤ a
      by_contra hgt
      have hgt' : a < k.filt_mid := by omega
      have hbest := hbr hgt'
      have hL : max (k.filt_mid - k.filter_step) 0 = k.filt_mid - 1 := by omega
      have hc := hinc (k.filt_mid - 1) k.filt_mid (by omega) (by omega) hm
      by_cases hdir : k.filt_direction ≤ 0
      · apply hlow hdir (by omega)
        rw [hL]
        omega
      · obtain ⟨p, hp0, hp1, hp2, hp3⟩ := hup (by omega)
        have hp : p = k.filt_mid - 1 := by omega
        rw [hp] at hp3
        omega
  · rw [e]
    have hlo0 : 0 ≤ max (k.filt_mid - k.filter_step) 0 := by omega
    have hlom : max (k.filt_mid - k.filter_step) 0 ≤ m := by omega
    have hcl := hnn _ hlo0 hlom
    refine ⟨hlo0, hlom, hs, ?_, ?_, ?_, ?_, ?_⟩
    · show 0 ≤ ite _ _ _
      split_ifs
      · exact hcl
      · exact hb0
    · show ite _ _ _ ≤ curve (max (k.filt_mid - k.filter_step) 0)
      split_ifs with hc
      · exact le_refl _
      · omega
    · intro hal
      have hal' : a < max (k.filt_mid - k.filter_step) 0 := hal
      have hbest := hbr (by omega)
      have hc := hinc (max (k.filt_mid - k.filter_step) 0) k.filt_mid (by omega) hlt hm
      show ite _ _ _ = curve (max (k.filt_mid - k.filter_step) 0)
      rw [if_pos (by omega)]
    · intro hdir
      have hdir' : (0 : Int) < -1 := hdir
      omega
    · intro hz
      have hz' : k.filter_step = 0 := hz
      omega
  · rw [e]
    have hhi0 : 0 ≤ min (k.filt_mid + k.filter_step) m := by omega
    have hhim : min (k.filt_mid + k.filter_step) m ≤ m := by omega
    refine ⟨hhi0, hhim, hs, hnn _ hhi0 hhim, le_refl _, fun _ => rfl, ?_, ?_⟩
    · intro _
      refine ⟨k.filt_mid, h0, ?_, hlt, ?_⟩
      · show min (k.filt_mid + k.filter_step) m - k.filter_step ≤ k.filt_mid
        omega
      · show curve (min (k.filt_mid + k.filter_step) m) < curve k.filt_mid
        omega
    · intro hz
      have hz' : k.filter_step = 0 := hz
      omega

/-- The loop on the steering variables with a bias that is not negative ends on the minimum of
a strictly unimodal curve without negative errors, or below it. -/
theorem control_loop_biased (a : Int) (hu : StrictlyUnimodal curve m a)
    (hnn : ∀ i : Int, 0 ≤ i → i ≤ m → 0 ≤ curve i) (hr : pass = 2 → 0 ≤ rating)
    (k0 : Control) (h : BiasedInv curve m a k0) (fuel : Nat) (t : Control)
    (ht : control_loop curve pass rating tx_mode m fuel k0 = some t) : t.filt_mid ≤ a := by
  obtain ⟨hinv, hstep⟩ := control_loop_keeps curve pass rating tx_mode m
    (fun k => BiasedInv curve m a k)
    (fun k hk hpos => control_iter_biased curve pass rating tx_mode m a hu hnn hr k hpos hk)
    fuel k0 t h ht
  exact hinv.done (by have := hinv.step_nonneg; omega)

/-- With `pass == 2` and `section_intra_rating == 0` the bias is 0. -/
theorem control_bias_rating_zero (k : Control) : control_bias 2 0 tx_mode k = 0 := by
  unfold control_bias
  simp

end biased

section zero_bias_run
variable (ops : Operators) (sd : YV12_BUFFER_CONFIG) (partial_frame plane dir : Int)
variable (curve : Int → Int)

/-- One iteration with the bias forced to 0, on operators with an error curve, steers like
`control_iter` under a bias configuration whose bias is 0, and keeps the invariant and the
memo. -/
theorem search_body_zero_control (hc : HasErrorCurve ops sd partial_frame plane dir curve)
    (tx_mode m : Int) (s : SearchState) (hi : SearchInv m s) (h : CurveMemo curve s) :
    (search_body ops sd partial_frame plane dir m 0 s).control
      = control_iter curve 2 0 tx_mode m s.control ∧
    CurveMemo curve (search_body ops sd partial_frame plane dir m 0 s) ∧
    SearchInv m (search_body ops sd partial_frame plane dir m 0 s) := by
  have hi' := hi
  obtain ⟨hmax, h0, hm, hb, hs, hd⟩ := hi
  have hlo0 : 0 ≤ max (s.filt_mid - s.filter_step) 0 := by omega
  have hlo1 : max (s.filt_mid - s.filter_step) 0 ≤ 63 := by omega
  have hhi0 : 0 ≤ min (s.filt_mid + s.filter_step) m := by omega
  have hhi1 : min (s.filt_mid + s.filter_step) m ≤ 63 := by omega
  have hlm := search_low_curve_memo ops sd partial_frame plane dir curve hc
    (max (s.filt_mid - s.filter_step) 0) 0 hlo0 hlo1 s h
  have hhm := search_high_curve_memo ops sd partial_frame plane dir curve hc
    (min (s.filt_mid + s.filter_step) m) 0 hhi0 hhi1 _ hlm
  have elo := (search_eval_curve ops sd partial_frame plane dir curve hc
    (max (s.filt_mid - s.filter_step) 0) hlo0 hlo1 s h).1
  have ehi := (search_eval_curve ops sd partial_frame plane dir curve hc
    (min (s.filt_mid + s.filter_step) m) hhi0 hhi1 _ hlm).1
  have hctl : (search_body ops sd partial_frame plane dir m 0 s).control
      = control_iter curve 2 0 tx_mode m s.control := by
    have hadv : ∀ u : SearchState, (search_advance u).control =
        if u.filt_best = u.filt_mid then
          ⟨u.filt_mid, Int.tdiv u.filter_step 2, 0, u.best_err⟩
        else
          ⟨u.filt_best, u.filter_step, if u.filt_best < u.filt_mid then -1 else 1,
            u.best_err⟩ := by
      intro u; unfold search_advance SearchState.control; split_ifs <;> rfl
    simp only [search_body, AOMMIN_eq, AOMMAX_eq]
    rw [hadv]
    simp only [search_high_filt_mid, search_high_filter_step, search_low_filt_mid,
      search_low_filter_step, search_high_filt_best_eq, search_high_best_err_eq,
      search_low_filt_direction, search_low_best_err_eq, search_low_filt_best_eq, ehi, elo,
      hb]
    unfold control_iter
    simp only [control_bias_rating_zero]
    rfl
  have hmemo : CurveMemo curve (search_body ops sd partial_frame plane dir m 0 s) := by
    unfold search_body search_advance
    simp only [AOMMIN_eq, AOMMAX_eq]
    split_ifs <;> exact CurveMemo_congr curve hhm rfl
  refine ⟨hctl, hmemo, ?_⟩
  have hbest : (search_body ops sd partial_frame plane dir m 0 s).filt_best
      = (search_body ops sd partial_frame plane dir m 0 s).filt_mid := by
    unfold search_body search_advance
    dsimp only
    split_ifs with hx <;> first | exact hx | rfl
  have hmid : (search_body ops sd partial_frame plane dir m 0 s).filt_mid
      = (control_iter curve 2 0 tx_mode m s.control).filt_mid := by rw [← hctl]; rfl
  have hstep : (search_body ops sd partial_frame plane dir m 0 s).filter_step
      = (control_iter curve 2 0 tx_mode m s.control).filter_step := by rw [← hctl]; rfl
  have hdir : (search_body ops sd partial_frame plane dir m 0 s).filt_direction
      = (control_iter curve 2 0 tx_mode m s.control).filt_direction := by rw [← hctl]; rfl
  have ht := tdiv_two s.filter_step hs
  have hk0 : 0 ≤ s.control.filt_mid := h0
  have hkm : s.control.filt_mid ≤ m := hm
  have hks : 0 ≤ s.control.filter_step := hs
  have hmid' : s.control.filt_mid = s.filt_mid := rfl
  have hstep' : s.control.filter_step = s.filter_step := rfl
  rcases control_iter_cases curve 2 0 tx_mode m s.control hk0 hkm hks with
    ⟨e, _⟩ | ⟨e, _, _, _⟩ | ⟨_, e, _, _, _, _⟩
  · rw [e] at hmid hstep hdir
    exact ⟨hmax, by rw [hmid]; exact h0, by rw [hmid]; exact hm, hbest,
      by rw [hstep]; show 0 ≤ Int.tdiv s.filter_step 2; omega,
      by rw [hdir]; exact Or.inr (Or.inl rfl)⟩
  · rw [e] at hmid hstep hdir
    exact ⟨hmax, by rw [hmid]; show 0 ≤ max (s.filt_mid - s.filter_step) 0; omega,
      by rw [hmid]; show max (s.filt_mid - s.filter_step) 0 ≤ m; omega, hbest,
      by rw [hstep]; exact hs, by rw [hdir]; exact Or.inl rfl⟩
  · rw [e] at hmid hstep hdir
    exact ⟨hmax, by rw [hmid]; show 0 ≤ min (s.filt_mid + s.filter_step) m; omega,
      by rw [hmid]; show min (s.filt_mid + s.filter_step) m ≤ m; omega, hbest,
      by rw [hstep]; exact hs, by rw [hdir]; exact Or.inr (Or.inr rfl)⟩

/-- The level that the loop with the bias forced to 0 ends on, on operators with an error
curve, is the level `control_loop` ends on under a bias configuration whose bias is 0. -/
theorem search_loop_zero_bias_control
    (hc : HasErrorCurve ops sd partial_frame plane dir curve) (tx_mode m : Int) (fuel : Nat) :
    ∀ s : SearchState, SearchInv m s → CurveMemo curve s →
      (search_loop_zero_bias ops sd partial_frame plane dir m fuel s).map
          (fun s => s.filt_best)
        = (control_loop curve 2 0 tx_mode m fuel s.control).map (fun k => k.filt_mid) := by
  induction fuel with
  | zero =>
    intro s hi _
    have hb : s.filt_best = s.control.filt_mid := hi.best_eq
    simp only [search_loop_zero_bias, control_loop]
    have hstep : s.control.filter_step = s.filter_step := rfl
    rw [hstep]
    split_ifs
    · rfl
    · simp only [Option.map_some', hb]
  | succ n ih =>
    intro s hi hm
    have hb : s.filt_best = s.control.filt_mid := hi.best_eq
    obtain ⟨hctl, hmemo, hinv⟩ :=
      search_body_zero_control ops sd partial_frame plane dir curve hc tx_mode m s hi hm
    have hnext := ih _ hinv hmemo
    rw [hctl] at hnext
    simp only [search_loop_zero_bias, control_loop]
    have hstep : s.control.filter_step = s.filter_step := rfl
    rw [hstep]
    split_ifs
    · exact hnext
    · simp only [Option.map_some', hb]

/-- The loop on the steering variables under a bias configuration whose bias is 0 exits when
started from the state at loop entry. -/
theorem control_loop_zero_bias_exits
    (hc : HasErrorCurve ops sd partial_frame plane dir curve) (cpi : AV1_COMP) (extra : Nat) :
    ∃ t : Control,
      control_loop curve 2 0 cpi.tx_mode (av1_get_max_filter_level cpi) (SEARCH_FUEL + extra)
        (search_init ops sd cpi partial_frame plane dir).control = some t := by
  have hinv := search_init_inv ops sd partial_frame plane dir cpi
  obtain ⟨_, hmemo, _⟩ := search_init_control ops sd partial_frame plane dir curve hc cpi
  have hmeas := search_init_measure ops sd partial_frame plane dir cpi
  generalize search_init ops sd cpi partial_frame plane dir = s0 at hinv hmemo hmeas
  obtain ⟨hmax, h0, hm, hb, hs, hd⟩ := hinv
  have hinv1 : SearchInv (av1_get_max_filter_level cpi)
      { s0 with cpi := { cpi with pass := 2, section_intra_rating := 0 } } :=
    ⟨hmax, h0, hm, hb, hs, hd⟩
  have hmemo1 : CurveMemo curve
      { s0 with cpi := { cpi with pass := 2, section_intra_rating := 0 } } :=
    ⟨hmemo.len, hmemo.val⟩
  obtain ⟨t, ht, _⟩ := search_loop_exits ops sd partial_frame plane dir
    (av1_get_max_filter_level cpi) (fun _ => True) (fun _ _ _ => trivial)
    (SEARCH_FUEL + extra) _ hinv1 trivial
    (le_trans hmeas (Nat.le_add_right _ _))
  have hctl := search_loop_control ops sd partial_frame plane dir curve hc
    (av1_get_max_filter_level cpi) { cpi with pass := 2, section_intra_rating := 0 }
    (SEARCH_FUEL + extra) _ hinv1 hmemo1 rfl
  rw [ht] at hctl
  exact ⟨t.control, hctl.symm⟩

end zero_bias_run

/-- C4, amended. On an error curve without negative errors that is strictly unimodal over
`[0, max_filter_level]` (strictly decreasing up to its minimum at level `a` and strictly
increasing after it), for every start level, every `pass` and `tx_mode` and every
`section_intra_rating` that is not negative in pass 2, the level returned by
`search_filter_level` run with its computed bias is never greater than the level returned by
the same search with the bias forced to 0; the latter is `a`, the level of minimum error. -/
theorem bias_never_raises_on_unimodal (ops : Operators) (sd : YV12_BUFFER_CONFIG)
    (cpi : AV1_COMP) (partial_frame plane dir : Int) (curve : Int → Int) (a : Int)
    (extra : Nat)
    (hc : HasErrorCurve ops sd partial_frame plane dir curve)
    (hv : ¬ (ops.CONFIG_LOOPFILTER_LEVEL ∧ ¬ (plane = 0 ∨ plane = 1 ∨ plane = 2)))
    (hu : StrictlyUnimodal curve (av1_get_max_filter_level cpi) a)
    (hnn : ∀ i : Int, 0 ≤ i → i ≤ av1_get_max_filter_level cpi → 0 ≤ curve i)
    (hr : cpi.pass = 2 → 0 ≤ cpi.section_intra_rating) :
    ∃ l c s0,
      search_filter_level (SEARCH_FUEL + extra) ops sd cpi partial_frame plane dir
        = .returned (l, c) ∧
      search_run_zero_bias (SEARCH_FUEL + extra) ops sd cpi partial_frame plane dir
        = some s0 ∧
      l ≤ s0.filt_best ∧ s0.filt_best = a := by
  obtain ⟨s, hs, _, _, _⟩ := search_run_spec ops sd partial_frame plane dir cpi extra
  have hctl := search_run_control ops sd partial_frame plane dir curve hc cpi
    (SEARCH_FUEL + extra)
  have hsinv := search_init_inv ops sd partial_frame plane dir cpi
  have hmemo := (search_init_control ops sd partial_frame plane dir curve hc cpi).2.1
  have hd := search_init_descent ops sd partial_frame plane dir curve hc cpi a
  have hbi : BiasedInv curve (av1_get_max_filter_level cpi) a
      (search_init ops sd cpi partial_frame plane dir).control := by
    have hdir : (search_init ops sd cpi partial_frame plane dir).control.filt_direction
        = 0 := rfl
    refine ⟨hd.mid_nonneg, hd.mid_le, hd.step_nonneg, ?_, le_of_eq hd.best,
      fun _ => hd.best, ?_, ?_⟩
    · rw [hd.best]
      exact hnn _ hd.mid_nonneg hd.mid_le
    · intro h
      rw [hdir] at h
      exact absurd h (lt_irrefl 0)
    · intro hz
      rw [hd.done hz]
  -- the run with the computed bias
  rw [hs] at hctl
  simp only [Option.map_some'] at hctl
  cases hk : control_loop curve cpi.pass cpi.section_intra_rating cpi.tx_mode
      (av1_get_max_filter_level cpi) (SEARCH_FUEL + extra)
      (search_init ops sd cpi partial_frame plane dir).control with
  | none => rw [hk] at hctl; simp at hctl
  | some t =>
    rw [hk] at hctl
    simp only [Option.map_some', Option.some.injEq] at hctl
    have hta := control_loop_biased curve cpi.pass cpi.section_intra_rating cpi.tx_mode
      (av1_get_max_filter_level cpi) a hu hnn hr _ hbi (SEARCH_FUEL + extra) t hk
    -- the run with the bias forced to 0
    obtain ⟨z, hz⟩ := control_loop_zero_bias_exits ops sd partial_frame plane dir curve hc
      cpi extra
    have hza := control_loop_descent curve 2 0 cpi.tx_mode (av1_get_max_filter_level cpi) a
      hu _ (fun n _ => control_bias_rating_zero cpi.tx_mode _) hd (SEARCH_FUEL + extra) z hz
    have hzc := search_loop_zero_bias_control ops sd partial_frame plane dir curve hc
      cpi.tx_mode (av1_get_max_filter_level cpi) (SEARCH_FUEL + extra) _ hsinv hmemo
    rw [hz] at hzc
    cases hrun : search_run_zero_bias (SEARCH_FUEL + extra) ops sd cpi partial_frame plane
        dir with
    | none =>
      unfold search_run_zero_bias at hrun
      rw [hrun] at hzc
      simp at hzc
    | some s0 =>
      have hrun1 := hrun
      unfold search_run_zero_bias at hrun1
      rw [hrun1] at hzc
      simp only [Option.map_some', Option.some.injEq] at hzc
      refine ⟨s.filt_best, s.cpi, s0, ?_, rfl, ?_, ?_⟩
      · unfold search_filter_level
        rw [if_neg hv, hs]
      · rw [hctl, hzc, hza]; exact hta
      · rw [hzc, hza]

/-- Witness for C4 (amended): the curve `100000 + |i - 20|` searched from the previous level
40; the run with the computed bias ends on level 0 and the run with the bias forced to 0 on
level 20. -/
theorem bias_never_raises_on_unimodal_witness :
    ∃ l c s0,
      search_filter_level (SEARCH_FUEL + 0) (curve_operators false flat_valley_curve)
          sample_source (sample_cpi 0 0 1 40) 0 0 0 = .returned (l, c) ∧
      search_run_zero_bias (SEARCH_FUEL + 0) (curve_operators false flat_valley_curve)
          sample_source (sample_cpi 0 0 1 40) 0 0 0 = some s0 ∧
      l ≤ s0.filt_best ∧ s0.filt_best = 20 :=
  bias_never_raises_on_unimodal (curve_operators false flat_valley_curve) sample_source
    (sample_cpi 0 0 1 40) 0 0 0 flat_valley_curve 20 0
    (curve_operators_has_curve flat_valley_curve sample_source 0 0 0) (by decide)
    ⟨by decide, by decide,
      fun i j hi hij hj => by unfold flat_valley_curve; split_ifs <;> omega,
      fun i j hi hij hj => by unfold flat_valley_curve; split_ifs <;> omega⟩
    (fun i _ _ => by unfold flat_valley_curve; split_ifs <;> omega)
    (by decide)

end Picklpf

namespace Encodemv

open Picklpf (Outcome)

/-! ## Lemmas about sequencing and bit operations -/

@[simp] theorem andThen_returned {α β : Type} (a : α) (k : α → Outcome β) :
    andThen (Outcome.returned a) k = k a := rfl

@[simp] theorem assert_true {α : Type} (s : α) : assert true s = Outcome.returned s := rfl

@[simp] theorem assert_false {α : Type} (s : α) :
    assert false s = Outcome.assert_failed s := rfl

theorem land_three (x : Int) (h : 0 ≤ x) : Int.land x 3 = x % 4 := by
  obtain ⟨n, rfl⟩ := Int.eq_ofNat_of_zero_le h
  show ((n &&& 3 : Nat) : Int) = (n : Int) % 4
  have := Nat.and_pow_two_sub_one_eq_mod n 2
  norm_num at this
  rw [this]; norm_cast

theorem land_one (x : Int) (h : 0 ≤ x) : Int.land x 1 = x % 2 := by
  obtain ⟨n, rfl⟩ := Int.eq_ofNat_of_zero_le h
  show ((n &&& 1 : Nat) : Int) = (n : Int) % 2
  rw [Nat.and_one_is_mod]; norm_cast

theorem shr_eq_div (x : Int) (n : Nat) : x >>> n = x / 2 ^ n := by
  rw [Int.shiftRight_eq_div_pow]; norm_cast

theorem shr_three (x : Int) : x >>> (3 : Nat) = x / 8 := by
  rw [shr_eq_div]; norm_num

theorem shr_one (x : Int) : x >>> (1 : Nat) = x / 2 := by
  rw [shr_eq_div]; norm_num

/-! ## Lemmas about the class of a magnitude -/

theorem mv_class_base_zero : mv_class_base 0 = 0 := by decide
theorem mv_class_base_one : mv_class_base 1 = 16 := by decide
theorem mv_class_base_two : mv_class_base 2 = 32 := by decide
theorem mv_class_base_three : mv_class_base 3 = 64 := by decide
theorem mv_class_base_four : mv_class_base 4 = 128 := by decide
theorem mv_class_base_five : mv_class_base 5 = 256 := by decide
theorem mv_class_base_six : mv_class_base 6 = 512 := by decide
theorem mv_class_base_seven : mv_class_base 7 = 1024 := by decide
theorem mv_class_base_eight : mv_class_base 8 = 2048 := by decide
theorem mv_class_base_nine : mv_class_base 9 = 4096 := by decide
theorem mv_class_base_ten : mv_class_base 10 = 8192 := by decide

theorem log_in_base_2_cases (i : Int) :
    (log_in_base_2 i = 0 ∧ i < 2) ∨ (log_in_base_2 i = 1 ∧ 2 ≤ i ∧ i < 4) ∨
    (log_in_base_2 i = 2 ∧ 4 ≤ i ∧ i < 8) ∨ (log_in_base_2 i = 3 ∧ 8 ≤ i ∧ i < 16) ∨
    (log_in_base_2 i = 4 ∧ 16 ≤ i ∧ i < 32) ∨ (log_in_base_2 i = 5 ∧ 32 ≤ i ∧ i < 64) ∨
    (log_in_base_2 i = 6 ∧ 64 ≤ i ∧ i < 128) ∨ (log_in_base_2 i = 7 ∧ 128 ≤ i ∧ i < 256) ∨
    (log_in_base_2 i = 8 ∧ 256 ≤ i ∧ i < 512) ∨ (log_in_base_2 i = 9 ∧ 512 ≤ i ∧ i < 1024) ∨
    (log_in_base_2 i = 10 ∧ 1024 ≤ i) := by
  by_cases h1 : i < 2
  · exact Or.inl ⟨by simp only [log_in_base_2, if_pos h1], h1⟩
  by_cases h2 : i < 4
  · exact Or.inr (Or.inl ⟨by simp only [log_in_base_2, if_neg h1, if_pos h2], by omega, h2⟩)
  by_cases h3 : i < 8
  · exact Or.inr (Or.inr (Or.inl
      ⟨by simp only [log_in_base_2, if_neg h1, if_neg h2, if_pos h3], by omega, h3⟩))
  by_cases h4 : i < 16
  · exact Or.inr (Or.inr (Or.inr (Or.inl
      ⟨by simp only [log_in_base_2, if_neg h1, if_neg h2, if_neg h3, if_pos h4],
        by omega, h4⟩)))
  by_cases h5 : i < 32
  · exact Or.inr (Or.inr (Or.inr (Or.inr (Or.inl
      ⟨by simp only [log_in_base_2, if_neg h1, if_neg h2, if_neg h3, if_neg h4, if_pos h5],
        by omega, h5⟩))))
  by_cases h6 : i < 64
  · exact Or.inr (Or.inr (Or.inr (Or.inr (Or.inr (Or.inl
      ⟨by simp only [log_in_base_2, if_neg h1, if_neg h2, if_neg h3, if_neg h4, if_neg h5,
          if_pos h6],
        by omega, h6⟩)))))
  by_cases h7 : i < 128
  · exact Or.inr (Or.inr (Or.inr (Or.inr (Or.inr (Or.inr (Or.inl
      ⟨by simp only [log_in_base_2, if_neg h1, if_neg h2, if_neg h3, if_neg h4, if_neg h5,
          if_neg h6, if_pos h7],
        by omega, h7⟩))))))
  by_cases h8 : i < 256
  · exact Or.inr (Or.inr (Or.inr (Or.inr (Or.inr (Or.inr (Or.inr (Or.inl
      ⟨by simp only [log_in_base_2, if_neg h1, if_neg h2, if_neg h3, if_neg h4, if_neg h5,
          if_neg h6, if_neg h7, if_pos h8],
        by omega, h8⟩)))))))
  by_cases h9 : i < 512
  · exact Or.inr (Or.inr (Or.inr (Or.inr (Or.inr (Or.inr (Or.inr (Or.inr (Or.inl
      ⟨by simp only [log_in_base_2, if_neg h1, if_neg h2, if_neg h3, if_neg h4, if_neg h5,
          if_neg h6, if_neg h7, if_neg h8, if_pos h9],
        by omega, h9⟩))))))))
  by_cases h10 : i < 1024
  · exact Or.inr (Or.inr (Or.inr (Or.inr (Or.inr (Or.inr (Or.inr (Or.inr (Or.inr (Or.inl
      ⟨by simp only [log_in_base_2, if_neg h1, if_neg h2, if_neg h3, if_neg h4, if_neg h5,
          if_neg h6, if_neg h7, if_neg h8, if_neg h9, if_pos h10],
        by omega, h10⟩)))))))))
  · exact Or.inr (Or.inr (Or.inr (Or.inr (Or.inr (Or.inr (Or.inr (Or.inr (Or.inr (Or.inr
      ⟨by simp only [log_in_base_2, if_neg h1, if_neg h2, if_neg h3, if_neg h4, if_neg h5,
          if_neg h6, if_neg h7, if_neg h8, if_neg h9, if_neg h10],
        by omega⟩)))))))))

theorem get_mv_class_cases_aux (z c : Int)
    (h1 : c = if z ≥ 8192 then 10 else log_in_base_2 (z / 8)) :
    (c = 0 ∧ z - mv_class_base c = z ∧ z < 16) ∨
    (c = 1 ∧ z - mv_class_base c = z - 16 ∧ 16 ≤ z ∧ z < 32) ∨
    (c = 2 ∧ z - mv_class_base c = z - 32 ∧ 32 ≤ z ∧ z < 64) ∨
    (c = 3 ∧ z - mv_class_base c = z - 64 ∧ 64 ≤ z ∧ z < 128) ∨
    (c = 4 ∧ z - mv_class_base c = z - 128 ∧ 128 ≤ z ∧ z < 256) ∨
    (c = 5 ∧ z - mv_class_base c = z - 256 ∧ 256 ≤ z ∧ z < 512) ∨
    (c = 6 ∧ z - mv_class_base c = z - 512 ∧ 512 ≤ z ∧ z < 1024) ∨
    (c = 7 ∧ z - mv_class_base c = z - 1024 ∧ 1024 ≤ z ∧ z < 2048) ∨
    (c = 8 ∧ z - mv_class_base c = z - 2048 ∧ 2048 ≤ z ∧ z < 4096) ∨
    (c = 9 ∧ z - mv_class_base c = z - 4096 ∧ 4096 ≤ z ∧ z < 8192) ∨
    (c = 10 ∧ z - mv_class_base c = z - 8192 ∧ 8192 ≤ z) := by
  have h3 := log_in_base_2_cases (z / 8)
  by_cases hbig : z ≥ 8192
  · rw [if_pos hbig] at h1
    subst h1
    rw [mv_class_base_ten]
    exact Or.inr (Or.inr (Or.inr (Or.inr (Or.inr (Or.inr (Or.inr (Or.inr (Or.inr (Or.inr
      ⟨rfl, by omega, by omega⟩)))))))))
  · rw [if_neg hbig] at h1
    rw [← h1] at h3
    rcases h3 with h | h | h | h | h | h | h | h | h | h | h <;> obtain ⟨hc, hr⟩ := h <;>
      subst hc <;>
      (first
        | rw [mv_class_base_zero] | rw [mv_class_base_one] | rw [mv_class_base_two]
        | rw [mv_class_base_three] | rw [mv_class_base_four] | rw [mv_class_base_five]
        | rw [mv_class_base_six] | rw [mv_class_base_seven] | rw [mv_class_base_eight]
        | rw [mv_class_base_nine] | rw [mv_class_base_ten]) <;>
      first
        | exact Or.inl ⟨rfl, by omega, by omega⟩
        | exact Or.inr (Or.inl ⟨rfl, by omega, by omega, by omega⟩)
        | exact Or.inr (Or.inr (Or.inl ⟨rfl, by omega, by omega, by omega⟩))
        | exact Or.inr (Or.inr (Or.inr (Or.inl ⟨rfl, by omega, by omega, by omega⟩)))
        | exact Or.inr (Or.inr (Or.inr (Or.inr (Or.inl ⟨rfl, by omega, by omega, by omega⟩))))
        | exact Or.inr (Or.inr (Or.inr (Or.inr (Or.inr (Or.inl ⟨rfl, by omega, by omega, by omega⟩)))))
        | exact Or.inr (Or.inr (Or.inr (Or.inr (Or.inr (Or.inr (Or.inl ⟨rfl, by omega, by omega, by omega⟩))))))
        | exact Or.inr (Or.inr (Or.inr (Or.inr (Or.inr (Or.inr (Or.inr (Or.inl ⟨rfl, by omega, by omega, by omega⟩)))))))
        | exact Or.inr (Or.inr (Or.inr (Or.inr (Or.inr (Or.inr (Or.inr (Or.inr (Or.inl ⟨rfl, by omega, by omega, by omega⟩))))))))
        | exact Or.inr (Or.inr (Or.inr (Or.inr (Or.inr (Or.inr (Or.inr (Or.inr (Or.inr (Or.inl ⟨rfl, by omega, by omega, by omega⟩)))))))))
        | exact Or.inr (Or.inr (Or.inr (Or.inr (Or.inr (Or.inr (Or.inr (Or.inr (Or.inr (Or.inr (⟨rfl, by omega, by omega⟩))))))))))

/-- The class of `z` is one of the eleven classes: the class `c` with `mv_class_base c <= z`
and `z` below the base of the next class, the last class being open-ended; the offset is the
distance to the base. -/
theorem get_mv_class_cases (z : Int) :
    ((vp10_get_mv_class z).1 = 0 ∧ (vp10_get_mv_class z).2 = z ∧ z < 16) ∨
    ((vp10_get_mv_class z).1 = 1 ∧ (vp10_get_mv_class z).2 = z - 16 ∧ 16 ≤ z ∧ z < 32) ∨
    ((vp10_get_mv_class z).1 = 2 ∧ (vp10_get_mv_class z).2 = z - 32 ∧ 32 ≤ z ∧ z < 64) ∨
    ((vp10_get_mv_class z).1 = 3 ∧ (vp10_get_mv_class z).2 = z - 64 ∧ 64 ≤ z ∧ z < 128) ∨
    ((vp10_get_mv_class z).1 = 4 ∧ (vp10_get_mv_class z).2 = z - 128 ∧ 128 ≤ z ∧ z < 256) ∨
    ((vp10_get_mv_class z).1 = 5 ∧ (vp10_get_mv_class z).2 = z - 256 ∧ 256 ≤ z ∧ z < 512) ∨
    ((vp10_get_mv_class z).1 = 6 ∧ (vp10_get_mv_class z).2 = z - 512 ∧ 512 ≤ z ∧ z < 1024) ∨
    ((vp10_get_mv_class z).1 = 7 ∧ (vp10_get_mv_class z).2 = z - 1024 ∧ 1024 ≤ z ∧
      z < 2048) ∨
    ((vp10_get_mv_class z).1 = 8 ∧ (vp10_get_mv_class z).2 = z - 2048 ∧ 2048 ≤ z ∧
      z < 4096) ∨
    ((vp10_get_mv_class z).1 = 9 ∧ (vp10_get_mv_class z).2 = z - 4096 ∧ 4096 ≤ z ∧
      z < 8192) ∨
    ((vp10_get_mv_class z).1 = 10 ∧ (vp10_get_mv_class z).2 = z - 8192 ∧ 8192 ≤ z) := by
  have h1 : (vp10_get_mv_class z).1 =
      if z ≥ 8192 then 10 else log_in_base_2 (z / 8) := by
    simp only [vp10_get_mv_class, shr_three, CLASS0_SIZE, MV_CLASS_10]; rfl
  exact get_mv_class_cases_aux z _ h1

theorem get_mv_class_offset_nonneg (z : Int) (hz : 0 ≤ z) : 0 ≤ (vp10_get_mv_class z).2 := by
  rcases get_mv_class_cases z with h | h | h | h | h | h | h | h | h | h | h <;> omega

/-! ## The symbols written by `encode_mv_component` and `vp10_encode_mv` -/

theorem write_bits_fold (bits : List vpx_prob) (d : Int) (hd : 0 ≤ d) (n : Nat)
    (w : vp10_writer) :
    (List.range n).foldl
        (fun w (i : Nat) => vp10_write w (Int.land (d >>> i) 1) (bits.getD i 0)) w
      = w ++ (List.range n).map fun i => Symbol.bit (d / 2 ^ i % 2) (bits.getD i 0) := by
  induction n with
  | zero => simp
  | succ n ih =>
    rw [List.range_succ, List.foldl_append, ih, List.map_append]
    simp only [List.foldl_cons, List.foldl_nil, List.map_cons, List.map_nil, vp10_write,
      List.append_assoc]
    rw [shr_eq_div, land_one _ (Int.ediv_nonneg hd (by positivity))]

theorem magnitude_eq_abs (comp : Int) :
    (if (if comp < 0 then (1 : Int) else 0) ≠ 0 then -comp else comp) = |comp| := by
  by_cases h : comp < 0
  · rw [if_pos h, if_pos (by decide), abs_of_neg h]
  · rw [if_neg h, if_neg (by decide), abs_of_nonneg (by omega)]

theorem magnitude_pos (comp : Int) (h : comp ≠ 0) : 0 ≤ |comp| - 1 := by
  have := abs_pos.mpr h
  omega

/-- The symbols `encode_mv_component` writes for a nonzero component, in closed form. -/
theorem encode_mv_component_eq (w : vp10_writer) (comp : Int) (mvcomp : nmv_component)
    (usehp : Bool) (h : comp ≠ 0) :
    encode_mv_component w comp mvcomp usehp
      = Outcome.returned (w ++ axis_symbols mvcomp usehp comp) := by
  have hz := magnitude_pos comp h
  have ho := get_mv_class_offset_nonneg _ hz
  have hd : 0 ≤ (vp10_get_mv_class (|comp| - 1)).2 / 8 := Int.ediv_nonneg ho (by decide)
  have ho2 : 0 ≤ (vp10_get_mv_class (|comp| - 1)).2 / 2 := Int.ediv_nonneg ho (by decide)
  unfold encode_mv_component
  simp only [magnitude_eq_abs, shr_three, shr_one, land_three _ ho2, land_one _ ho,
    write_bits_fold _ _ hd, decide_eq_true h, assert_true, andThen_returned]
  simp only [axis_symbols, component_symbols, integer_symbols, vp10_write, vp10_write_token]
  split_ifs <;> simp

theorem VPXMAX_eq (x y : Int) : VPXMAX x y = max x y := by
  unfold VPXMAX; split_ifs <;> omega

theorem joint_zero_iff (diff : MV) :
    vp10_get_mv_joint diff = MV_JOINT_ZERO ↔ diff.row = 0 ∧ diff.col = 0 := by
  unfold vp10_get_mv_joint
  split_ifs with h1 h2 h2 <;> simp [h1, h2, MV_JOINT_ZERO, MV_JOINT_HNZVZ, MV_JOINT_HZVNZ,
    MV_JOINT_HNZVNZ]

theorem joint_vertical_iff (diff : MV) :
    mv_joint_vertical (vp10_get_mv_joint diff) = true ↔ diff.row ≠ 0 := by
  unfold vp10_get_mv_joint
  split_ifs with h1 h2 h2 <;> simp [h1, mv_joint_vertical, MV_JOINT_ZERO, MV_JOINT_HNZVZ,
    MV_JOINT_HZVNZ, MV_JOINT_HNZVNZ]

theorem joint_horizontal_iff (diff : MV) :
    mv_joint_horizontal (vp10_get_mv_joint diff) = true ↔ diff.col ≠ 0 := by
  unfold vp10_get_mv_joint
  split_ifs with h1 h2 h2 <;> simp [h2, mv_joint_horizontal, MV_JOINT_ZERO, MV_JOINT_HNZVZ,
    MV_JOINT_HZVNZ, MV_JOINT_HNZVNZ]

theorem cpi_after_eq (cpi : VP10_COMP) (mv : MV) (w : vp10_writer) :
    (if cpi.auto_mv_step_size then
      Outcome.returned (w, { cpi with
        max_mv_magnitude :=
          VPXMAX ((VPXMAX (mv.row.natAbs) (mv.col.natAbs)) >>> (3 : Nat))
            cpi.max_mv_magnitude })
    else Outcome.returned (w, cpi)) = Outcome.returned (w, cpi_after cpi mv) := by
  unfold cpi_after
  split_ifs
  · simp only [VPXMAX_eq, shr_three, Int.natCast_natAbs]
  · rfl

/-- The statements of `vp10_encode_mv` after the `#if` blocks write the joint type and the
symbols of the nonzero axes, row first, and then update the running maximum. -/
theorem encode_mv_rest_eq (cfg : Coder) (cpi : VP10_COMP) (w : vp10_writer) (mv ref : MV)
    (mvctx : nmv_context) (usehp : Bool) :
    (andThen
      (if mv_joint_vertical (vp10_get_mv_joint ⟨mv.row - ref.row, mv.col - ref.col⟩) then
        encode_mv_component
          (vp10_write_token w Tree.vp10_mv_joint_tree mvctx.joints
            (vp10_get_mv_joint ⟨mv.row - ref.row, mv.col - ref.col⟩))
          (mv.row - ref.row) (mvctx.comps.getD 0 default) (usehp && cfg.vp10_use_mv_hp ref)
      else
        Outcome.returned
          (vp10_write_token w Tree.vp10_mv_joint_tree mvctx.joints
            (vp10_get_mv_joint ⟨mv.row - ref.row, mv.col - ref.col⟩))) fun w =>
    andThen
      (if mv_joint_horizontal (vp10_get_mv_joint ⟨mv.row - ref.row, mv.col - ref.col⟩) then
        encode_mv_component w (mv.col - ref.col) (mvctx.comps.getD 1 default)
          (usehp && cfg.vp10_use_mv_hp ref)
      else Outcome.returned w) fun w =>
    if cpi.auto_mv_step_size then
      Outcome.returned (w, { cpi with
        max_mv_magnitude :=
          VPXMAX ((VPXMAX (mv.row.natAbs) (mv.col.natAbs)) >>> (3 : Nat))
            cpi.max_mv_magnitude })
    else Outcome.returned (w, cpi))
    = Outcome.returned
        (w ++ mv_symbols cfg mvctx usehp ⟨mv.row - ref.row, mv.col - ref.col⟩ ref,
          cpi_after cpi mv) := by
  simp only [cpi_after_eq, joint_vertical_iff, joint_horizontal_iff, mv_symbols,
    axes_symbols, vp10_write_token]
  by_cases hr : mv.row - ref.row = 0 <;> by_cases hc : mv.col - ref.col = 0 <;>
    simp [hr, hc, encode_mv_component_eq]

/-! ## The builds and cases of `vp10_encode_mv` -/

/-- The outcome of `vp10_encode_mv` when no zero flag is involved: the build is not the one
with `CONFIG_REF_MV` and without `CONFIG_EXT_INTER`. -/
theorem encode_mv_plain (cfg : Coder) (cpi : VP10_COMP) (w : vp10_writer) (mv ref : MV)
    (is_compound : Bool) (mvctx : nmv_context) (usehp : Bool)
    (hcfg : (cfg.CONFIG_REF_MV && !cfg.CONFIG_EXT_INTER) = false) :
    vp10_encode_mv cfg cpi w mv ref is_compound mvctx usehp
      = Outcome.returned
          (w ++ mv_symbols cfg mvctx usehp ⟨mv.row - ref.row, mv.col - ref.col⟩ ref,
            cpi_after cpi mv) := by
  unfold vp10_encode_mv
  simp only [hcfg, encode_mv_rest_eq]
  rfl

/-- The outcome of `vp10_encode_mv` for a nonzero difference in the build with `CONFIG_REF_MV`
and without `CONFIG_EXT_INTER`. -/
theorem encode_mv_flagged (cfg : Coder) (cpi : VP10_COMP) (w : vp10_writer) (mv ref : MV)
    (is_compound : Bool) (mvctx : nmv_context) (usehp : Bool)
    (hcfg : (cfg.CONFIG_REF_MV && !cfg.CONFIG_EXT_INTER) = true)
    (hnz : ¬(mv.row - ref.row = 0 ∧ mv.col - ref.col = 0)) :
    vp10_encode_mv cfg cpi w mv ref is_compound mvctx usehp
      = Outcome.returned
          ((if is_compound then w ++ [Symbol.bit 0 mvctx.zero_rmv] else w) ++
              mv_symbols cfg mvctx usehp ⟨mv.row - ref.row, mv.col - ref.col⟩ ref,
            cpi_after cpi mv) := by
  have hj : ¬ vp10_get_mv_joint ⟨mv.row - ref.row, mv.col - ref.col⟩ = MV_JOINT_ZERO := by
    rw [joint_zero_iff]; exact hnz
  unfold vp10_encode_mv
  simp only [hcfg, encode_mv_rest_eq, if_true, if_neg hj, vpx_write]
  cases is_compound <;> simp

/-- The outcome of `vp10_encode_mv` for a zero difference in the build with `CONFIG_REF_MV`
and without `CONFIG_EXT_INTER`. -/
theorem encode_mv_flagged_zero (cfg : Coder) (cpi : VP10_COMP) (w : vp10_writer) (mv ref : MV)
    (is_compound : Bool) (mvctx : nmv_context) (usehp : Bool)
    (hcfg : (cfg.CONFIG_REF_MV && !cfg.CONFIG_EXT_INTER) = true)
    (hz : mv.row - ref.row = 0 ∧ mv.col - ref.col = 0) :
    vp10_encode_mv cfg cpi w mv ref is_compound mvctx usehp
      = if is_compound then Outcome.returned (w ++ [Symbol.bit 1 mvctx.zero_rmv], cpi)
        else
          Outcome.assert_failed
            (w ++ [Symbol.token Tree.vp10_mv_joint_tree mvctx.joints MV_JOINT_ZERO],
              cpi_after cpi mv) := by
  have hj : vp10_get_mv_joint ⟨mv.row - ref.row, mv.col - ref.col⟩ = MV_JOINT_ZERO := by
    rw [joint_zero_iff]; exact hz
  unfold vp10_encode_mv
  simp only [hcfg, encode_mv_rest_eq, if_true, if_pos hj, vpx_write, assert_false]
  cases is_compound
  · simp [andThen, encode_mv_rest_eq, mv_symbols, axes_symbols, hz.1, hz.2, hj]
    rfl
  · simp

/-! ## The order of the symbols of a motion vector -/

/-- C11. `vp10_encode_mv` returns having appended to the bit sink the symbols of the difference
in the fixed order of `mv_symbols`: the joint type; then the symbols of the row if and only if
`diff.row != 0` and after them the symbols of the col if and only if `diff.col != 0`, each
axis as sign, class, integer part (the class-0 sub-tree symbol for class 0, otherwise
`class + CLASS0_BITS - 1` raw bits, least significant first), fractional symbol (with the
table `class0_fp[d]` for class 0, `fp` otherwise) and the high-precision bit only when `usehp`
holds and the reference allows high precision. The only symbol that can precede the joint type
is the zero flag of a compound block in the build with `CONFIG_REF_MV` and without
`CONFIG_EXT_INTER`. A zero difference writes the joint type and no per-axis symbol. -/
theorem encode_mv_symbol_order (cfg : Coder) (cpi : VP10_COMP) (w : vp10_writer) (mv ref : MV)
    (is_compound : Bool) (mvctx : nmv_context) (usehp : Bool)
    (h : (cfg.CONFIG_REF_MV && !cfg.CONFIG_EXT_INTER) = false ∨
      ¬(mv.row - ref.row = 0 ∧ mv.col - ref.col = 0)) :
    vp10_encode_mv cfg cpi w mv ref is_compound mvctx usehp
      = Outcome.returned
          (w ++ zero_flag_symbols cfg is_compound mvctx ++
              mv_symbols cfg mvctx usehp ⟨mv.row - ref.row, mv.col - ref.col⟩ ref,
            cpi_after cpi mv) ∧
    (mv.row - ref.row = 0 → mv.col - ref.col = 0 →
      mv_symbols cfg mvctx usehp ⟨mv.row - ref.row, mv.col - ref.col⟩ ref
        = [Symbol.token Tree.vp10_mv_joint_tree mvctx.joints MV_JOINT_ZERO]) := by
  constructor
  · by_cases hcfg : (cfg.CONFIG_REF_MV && !cfg.CONFIG_EXT_INTER) = false
    · rw [encode_mv_plain cfg cpi w mv ref is_compound mvctx usehp hcfg]
      simp [zero_flag_symbols, hcfg]
    · have hnz : ¬(mv.row - ref.row = 0 ∧ mv.col - ref.col = 0) := by
        rcases h with h | h
        · exact absurd h hcfg
        · exact h
      have hcfg1 : (cfg.CONFIG_REF_MV && !cfg.CONFIG_EXT_INTER) = true := by
        simpa using hcfg
      rw [encode_mv_flagged cfg cpi w mv ref is_compound mvctx usehp hcfg1 hnz]
      cases is_compound <;> simp [zero_flag_symbols, hcfg1]
  · intro hr hc
    simp only [mv_symbols, axes_symbols, hr, hc]
    rfl

/-- Witness for C11: the difference (-1000, 16383) in the build without `CONFIG_REF_MV`. -/
theorem encode_mv_symbol_order_witness :
    vp10_encode_mv (sample_coder false false) sample_cpi [] ⟨-1000, 16383⟩ ⟨0, 0⟩ false
        sample_context true
      = Outcome.returned
          ([] ++ zero_flag_symbols (sample_coder false false) false sample_context ++
              mv_symbols (sample_coder false false) sample_context true
                ⟨-1000 - 0, 16383 - 0⟩ ⟨0, 0⟩,
            cpi_after sample_cpi ⟨-1000, 16383⟩) ∧
    ((-1000 : Int) - 0 = 0 → (16383 : Int) - 0 = 0 →
      mv_symbols (sample_coder false false) sample_context true
          ⟨-1000 - 0, 16383 - 0⟩ ⟨0, 0⟩
        = [Symbol.token Tree.vp10_mv_joint_tree sample_context.joints MV_JOINT_ZERO]) :=
  encode_mv_symbol_order (sample_coder false false) sample_cpi [] ⟨-1000, 16383⟩ ⟨0, 0⟩ false
    sample_context true (Or.inl rfl)

/-- C14. Golden vector: with `mv = (row 5, col -3)`, `ref = (0, 0)` and `usehp = false`,
`vp10_encode_mv` writes exactly: joint type 3 (HNZVNZ); for the row sign 0, class 0, class-0
integer symbol 0 and fractional symbol 2 with the table `class0_fp[0]`; for the col sign 1,
class 0, class-0 integer symbol 0 and fractional symbol 1 with the table `class0_fp[0]`; and no
high-precision bit (in a block that has no zero flag). -/
theorem golden_vector (cfg : Coder) (cpi : VP10_COMP) (w : vp10_writer) (is_compound : Bool)
    (mvctx : nmv_context)
    (hflag : (cfg.CONFIG_REF_MV && !cfg.CONFIG_EXT_INTER && is_compound) = false) :
    vp10_encode_mv cfg cpi w ⟨5, -3⟩ ⟨0, 0⟩ is_compound mvctx false
      = Outcome.returned
          (w ++
            [Symbol.token Tree.vp10_mv_joint_tree mvctx.joints 3,
              Symbol.bit 0 (mvctx.comps.getD 0 default).sign,
              Symbol.token Tree.vp10_mv_class_tree (mvctx.comps.getD 0 default).classes 0,
              Symbol.token Tree.vp10_mv_class0_tree (mvctx.comps.getD 0 default).class0 0,
              Symbol.token Tree.vp10_mv_fp_tree
                ((mvctx.comps.getD 0 default).class0_fp.getD 0 []) 2,
              Symbol.bit 1 (mvctx.comps.getD 1 default).sign,
              Symbol.token Tree.vp10_mv_class_tree (mvctx.comps.getD 1 default).classes 0,
              Symbol.token Tree.vp10_mv_class0_tree (mvctx.comps.getD 1 default).class0 0,
              Symbol.token Tree.vp10_mv_fp_tree
                ((mvctx.comps.getD 1 default).class0_fp.getD 0 []) 1],
            cpi_after cpi ⟨5, -3⟩) := by
  have hsym : mv_symbols cfg mvctx false ⟨5 - 0, -3 - 0⟩ ⟨0, 0⟩
      = [Symbol.token Tree.vp10_mv_joint_tree mvctx.joints 3,
          Symbol.bit 0 (mvctx.comps.getD 0 default).sign,
          Symbol.token Tree.vp10_mv_class_tree (mvctx.comps.getD 0 default).classes 0,
          Symbol.token Tree.vp10_mv_class0_tree (mvctx.comps.getD 0 default).class0 0,
          Symbol.token Tree.vp10_mv_fp_tree
            ((mvctx.comps.getD 0 default).class0_fp.getD 0 []) 2,
          Symbol.bit 1 (mvctx.comps.getD 1 default).sign,
          Symbol.token Tree.vp10_mv_class_tree (mvctx.comps.getD 1 default).classes 0,
          Symbol.token Tree.vp10_mv_class0_tree (mvctx.comps.getD 1 default).class0 0,
          Symbol.token Tree.vp10_mv_fp_tree
            ((mvctx.comps.getD 1 default).class0_fp.getD 0 []) 1] := by
    have h4 : vp10_get_mv_class 4 = (0, 4) := by decide
    have h2 : vp10_get_mv_class 2 = (0, 2) := by decide
    have hj : vp10_get_mv_joint ⟨5, -3⟩ = 3 := by decide
    have ha5 : |(5 : Int)| - 1 = 4 := by decide
    have ha3 : |(-3 : Int)| - 1 = 2 := by decide
    simp [mv_symbols, axes_symbols, axis_symbols, component_symbols, integer_symbols,
      h4, h2, hj, ha5, ha3, MV_CLASS_0]
  by_cases hcfg : (cfg.CONFIG_REF_MV && !cfg.CONFIG_EXT_INTER) = false
  · rw [encode_mv_plain cfg cpi w _ _ is_compound mvctx false hcfg, hsym]
  · have hcfg1 : (cfg.CONFIG_REF_MV && !cfg.CONFIG_EXT_INTER) = true := by simpa using hcfg
    have hc : is_compound = false := by
      rw [hcfg1] at hflag; simpa using hflag
    subst hc
    rw [encode_mv_flagged cfg cpi w _ _ false mvctx false hcfg1 (by decide), hsym]
    simp

/-- Witness for C14: the golden vector in the build without `CONFIG_REF_MV`. -/
theorem golden_vector_witness :
    vp10_encode_mv (sample_coder false false) sample_cpi [] ⟨5, -3⟩ ⟨0, 0⟩ false
        sample_context false
      = Outcome.returned
          ([Symbol.token Tree.vp10_mv_joint_tree [1, 2, 3] 3,
              Symbol.bit 0 10,
              Symbol.token Tree.vp10_mv_class_tree [11, 12, 13, 14, 15, 16, 17, 18, 19, 20] 0,
              Symbol.token Tree.vp10_mv_class0_tree [21] 0,
              Symbol.token Tree.vp10_mv_fp_tree [40, 41, 42] 2,
              Symbol.bit 1 110,
              Symbol.token Tree.vp10_mv_class_tree
                [111, 112, 113, 114, 115, 116, 117, 118, 119, 120] 0,
              Symbol.token Tree.vp10_mv_class0_tree [121] 0,
              Symbol.token Tree.vp10_mv_fp_tree [140, 141, 142] 1],
            sample_cpi) :=
  golden_vector (sample_coder false false) sample_cpi [] false sample_context rfl

/-- C19. In the build with `CONFIG_REF_MV` and without `CONFIG_EXT_INTER`: a zero difference
in a block that is not compound fails the assertion `assert(0)` (the outcome is a failed
assertion, not a return); a zero difference in a compound block writes only the zero flag, a
bit 1 coded with `zero_rmv`, and returns before the joint type and before the update of the
running maximum; a nonzero difference in a compound block writes the zero flag 0 and then the
joint type and the per-axis symbols. -/
theorem zero_difference_flag (cfg : Coder) (cpi : VP10_COMP) (w : vp10_writer) (mv ref : MV)
    (mvctx : nmv_context) (usehp : Bool)
    (href : cfg.CONFIG_REF_MV = true) (hext : cfg.CONFIG_EXT_INTER = false) :
    (mv.row - ref.row = 0 → mv.col - ref.col = 0 →
      vp10_encode_mv cfg cpi w mv ref false mvctx usehp
        = Outcome.assert_failed
            (w ++ [Symbol.token Tree.vp10_mv_joint_tree mvctx.joints MV_JOINT_ZERO],
              cpi_after cpi mv) ∧
      vp10_encode_mv cfg cpi w mv ref true mvctx usehp
        = Outcome.returned (w ++ [Symbol.bit 1 mvctx.zero_rmv], cpi)) ∧
    (¬(mv.row - ref.row = 0 ∧ mv.col - ref.col = 0) →
      vp10_encode_mv cfg cpi w mv ref true mvctx usehp
        = Outcome.returned
            (w ++
              Symbol.bit 0 mvctx.zero_rmv ::
              Symbol.token Tree.vp10_mv_joint_tree mvctx.joints
                (vp10_get_mv_joint ⟨mv.row - ref.row, mv.col - ref.col⟩) ::
              axes_symbols cfg mvctx usehp ⟨mv.row - ref.row, mv.col - ref.col⟩ ref,
              cpi_after cpi mv)) := by
  have hcfg : (cfg.CONFIG_REF_MV && !cfg.CONFIG_EXT_INTER) = true := by
    rw [href, hext]; rfl
  refine ⟨fun hr hc => ⟨?_, ?_⟩, fun hnz => ?_⟩
  · rw [encode_mv_flagged_zero cfg cpi w mv ref false mvctx usehp hcfg ⟨hr, hc⟩]; rfl
  · rw [encode_mv_flagged_zero cfg cpi w mv ref true mvctx usehp hcfg ⟨hr, hc⟩]; rfl
  · rw [encode_mv_flagged cfg cpi w mv ref true mvctx usehp hcfg hnz]
    simp [mv_symbols]

/-- Witness for C19: the vectors (7, 7) and (7, 24) against the reference (7, 7). -/
theorem zero_difference_flag_witness :
    (vp10_encode_mv (sample_coder true false) sample_cpi [] ⟨7, 7⟩ ⟨7, 7⟩ false
          sample_context true
        = Outcome.assert_failed
            ([Symbol.token Tree.vp10_mv_joint_tree [1, 2, 3] 0],
              { auto_mv_step_size := true, max_mv_magnitude := 0 }) ∧
      vp10_encode_mv (sample_coder true false) sample_cpi [] ⟨7, 7⟩ ⟨7, 7⟩ true
          sample_context true
        = Outcome.returned ([Symbol.bit 1 9], sample_cpi)) ∧
    vp10_encode_mv (sample_coder true false) sample_cpi [] ⟨7, 24⟩ ⟨7, 7⟩ true
        sample_context true
      = Outcome.returned
          ([Symbol.bit 0 9,
              Symbol.token Tree.vp10_mv_joint_tree [1, 2, 3] 1,
              Symbol.bit 0 110,
              Symbol.token Tree.vp10_mv_class_tree
                [111, 112, 113, 114, 115, 116, 117, 118, 119, 120] 1,
              Symbol.bit 0 130,
              Symbol.token Tree.vp10_mv_fp_tree [146, 147, 148] 0,
              Symbol.bit 0 151],
            { auto_mv_step_size := true, max_mv_magnitude := 3 }) :=
  ⟨(zero_difference_flag (sample_coder true false) sample_cpi [] ⟨7, 7⟩ ⟨7, 7⟩
      sample_context true rfl rfl).1 (by decide) (by decide),
    (zero_difference_flag (sample_coder true false) sample_cpi [] ⟨7, 24⟩ ⟨7, 7⟩
      sample_context true rfl rfl).2 (by decide)⟩

/-! ## The cost table -/

/-- The table after `n` rounds of a loop that stores `f k` at `k + 1` and `g k` at
`-(k + 1)` in round `k`. -/
theorem fold_update_apply (f g : Nat → Int) (n : Nat) (t : Int → Int) (v : Int) :
    (List.range n).foldl
        (fun t (k : Nat) =>
          Function.update (Function.update t ((k : Int) + 1) (f k)) (-((k : Int) + 1)) (g k))
        t v
      = if 1 ≤ v ∧ v ≤ n then f (v - 1).toNat
        else if 1 ≤ -v ∧ -v ≤ n then g (-v - 1).toNat
        else t v := by
  induction n with
  | zero =>
    simp only [List.range_zero, List.foldl_nil, Nat.cast_zero]
    rw [if_neg (by omega), if_neg (by omega)]
  | succ n ih =>
    rw [List.range_succ, List.foldl_append]
    simp only [List.foldl_cons, List.foldl_nil]
    by_cases h1 : v = -((n : Int) + 1)
    · subst h1
      rw [Function.update_same, if_neg (by omega), if_pos (by push_cast; omega)]
      congr 1
      omega
    · rw [Function.update_noteq h1]
      by_cases h2 : v = (n : Int) + 1
      · subst h2
        rw [Function.update_same, if_pos (by push_cast; omega)]
        congr 1
        omega
      · rw [Function.update_noteq h2, ih]
        push_cast
        split_ifs <;> first | rfl | (exfalso; omega)

theorem symbols_cost_append (cfg : Coder) (a b : List Symbol) :
    symbols_cost cfg (a ++ b) = symbols_cost cfg a + symbols_cost cfg b := by
  simp [symbols_cost]

theorem symbols_cost_cons (cfg : Coder) (a : Symbol) (b : List Symbol) :
    symbols_cost cfg (a :: b) = symbol_cost cfg a + symbols_cost cfg b := by
  simp [symbols_cost]

theorem symbols_cost_nil (cfg : Coder) : symbols_cost cfg [] = 0 := rfl

/-- The cost accumulated by the loop over the raw bits is the cost of the bits written. -/
theorem bits_cost_fold (cfg : Coder) (bits : List vpx_prob) (d : Int) (hd : 0 ≤ d) (n : Nat)
    (cost : Int) :
    (List.range n).foldl
        (fun cost (i : Nat) =>
          cost +
            (if Int.land (d >>> i) 1 = 0 then cfg.vp10_cost_zero (bits.getD i 0)
             else cfg.vp10_cost_one (bits.getD i 0))) cost
      = cost + symbols_cost cfg
          ((List.range n).map fun i => Symbol.bit (d / 2 ^ i % 2) (bits.getD i 0)) := by
  induction n with
  | zero => simp [symbols_cost]
  | succ n ih =>
    rw [List.range_succ, List.foldl_append, ih, List.map_append, symbols_cost_append]
    simp only [List.foldl_cons, List.foldl_nil, List.map_cons, List.map_nil, symbols_cost_cons,
      symbols_cost_nil, symbol_cost]
    rw [shr_eq_div, land_one _ (Int.ediv_nonneg hd (by positivity))]
    ring

/-- The cost the loop body computes for the magnitude `v`, before the sign cost is added, is
the cost of the symbols after the sign. -/
theorem magnitude_cost_eq (cfg : Coder) (mvcomp : nmv_component) (usehp : Bool) (v : Int)
    (hv : 1 ≤ v) :
    (let cost : Int := 0
      let z : Int := v - 1
      let c : Int := (vp10_get_mv_class z).1
      let o : Int := (vp10_get_mv_class z).2
      let cost := cost + cfg.vp10_cost_tokens mvcomp.classes Tree.vp10_mv_class_tree c
      let d : Int := o >>> (3 : Nat)
      let f : Int := Int.land (o >>> (1 : Nat)) 3
      let e : Int := Int.land o 1
      let cost :=
        if c = MV_CLASS_0 then
          cost + cfg.vp10_cost_tokens mvcomp.class0 Tree.vp10_mv_class0_tree d
        else
          let b : Int := c + CLASS0_BITS - 1
          (List.range b.toNat).foldl
            (fun cost (i : Nat) =>
              cost +
                (if Int.land (d >>> i) 1 = 0 then cfg.vp10_cost_zero (mvcomp.bits.getD i 0)
                 else cfg.vp10_cost_one (mvcomp.bits.getD i 0))) cost
      let cost :=
        if c = MV_CLASS_0 then
          cost + cfg.vp10_cost_tokens (mvcomp.class0_fp.getD d.toNat []) Tree.vp10_mv_fp_tree f
        else cost + cfg.vp10_cost_tokens mvcomp.fp Tree.vp10_mv_fp_tree f
      let cost :=
        if usehp then
          if c = MV_CLASS_0 then
            cost +
              (if e = 0 then cfg.vp10_cost_zero mvcomp.class0_hp
               else cfg.vp10_cost_one mvcomp.class0_hp)
          else
            cost + (if e = 0 then cfg.vp10_cost_zero mvcomp.hp else cfg.vp10_cost_one mvcomp.hp)
        else cost
      cost)
      = symbols_cost cfg
          ((component_symbols mvcomp usehp 0 (vp10_get_mv_class (v - 1)).1
            ((vp10_get_mv_class (v - 1)).2 / 8) ((vp10_get_mv_class (v - 1)).2 / 2 % 4)
            ((vp10_get_mv_class (v - 1)).2 % 2)).tail) := by
  have ho := get_mv_class_offset_nonneg (v - 1) (by omega)
  have hd : 0 ≤ (vp10_get_mv_class (v - 1)).2 / 8 := Int.ediv_nonneg ho (by decide)
  have ho2 : 0 ≤ (vp10_get_mv_class (v - 1)).2 / 2 := Int.ediv_nonneg ho (by decide)
  simp only [shr_three, shr_one, land_three _ ho2, land_one _ ho, bits_cost_fold _ _ _ hd,
    component_symbols, integer_symbols, List.cons_append, List.nil_append, List.tail_cons,
    symbols_cost_cons, symbols_cost_append, symbol_cost]
  split_ifs <;> simp [symbols_cost_cons, symbols_cost_nil, symbol_cost, *] <;> ring

theorem component_symbols_cost (cfg : Coder) (mvcomp : nmv_component) (usehp : Bool)
    (sign mv_class d fr hp : Int) :
    symbols_cost cfg (component_symbols mvcomp usehp sign mv_class d fr hp)
      = symbols_cost cfg (component_symbols mvcomp usehp 0 mv_class d fr hp).tail +
        (if sign = 0 then cfg.vp10_cost_zero mvcomp.sign
         else cfg.vp10_cost_one mvcomp.sign) := by
  simp only [component_symbols, List.cons_append, List.nil_append, List.tail_cons,
    symbols_cost_cons, symbol_cost]
  ring

/-- The entries of the cost table at a magnitude `v` of the range, in closed form: the costs
of the symbols of `v` and of `-v`. -/
theorem cost_table_entry (cfg : Coder) (mvcost : Int → Int) (mvcomp : nmv_component)
    (usehp : Bool) (v : Int) (h1 : 1 ≤ v) (h2 : v ≤ MV_MAX) :
    build_nmv_component_cost_table cfg mvcost mvcomp usehp v
        = symbols_cost cfg (axis_symbols mvcomp usehp v) ∧
    build_nmv_component_cost_table cfg mvcost mvcomp usehp (-v)
        = symbols_cost cfg (axis_symbols mvcomp usehp (-v)) := by
  have hk : ((v - 1).toNat : Int) + 1 = v := by omega
  have hk2 : ((- -v - 1).toNat : Int) + 1 = v := by omega
  have hmax : v ≤ (MV_MAX.toNat : Int) := by
    have : (MV_MAX.toNat : Int) = MV_MAX := by decide
    omega
  have hm := magnitude_cost_eq cfg mvcomp usehp (((v - 1).toNat : Int) + 1) (by omega)
  have hm2 := magnitude_cost_eq cfg mvcomp usehp (((- -v - 1).toNat : Int) + 1) (by omega)
  dsimp only at hm hm2
  have habs : |v| = v := abs_of_nonneg (by omega)
  have habs2 : |(-v)| = v := by rw [abs_neg, habs]
  unfold build_nmv_component_cost_table
  dsimp only
  constructor
  · rw [fold_update_apply, if_pos ⟨h1, hmax⟩, hm, hk]
    rw [axis_symbols, component_symbols_cost cfg mvcomp usehp (if v < 0 then 1 else 0), habs,
      if_neg (by omega : ¬ v < 0)]
  · rw [fold_update_apply, if_neg (by omega), if_pos ⟨by omega, by omega⟩, hm2, hk2]
    rw [axis_symbols, component_symbols_cost cfg mvcomp usehp (if -v < 0 then 1 else 0), habs2,
      if_pos (by omega : -v < 0)]

/-- The entry 0 of the cost table. -/
theorem cost_table_zero (cfg : Coder) (mvcost : Int → Int) (mvcomp : nmv_component)
    (usehp : Bool) :
    build_nmv_component_cost_table cfg mvcost mvcomp usehp 0 = 0 := by
  unfold build_nmv_component_cost_table
  dsimp only
  rw [fold_update_apply, if_neg (by omega), if_neg (by omega), Function.update_same]

/-! ## The slicing of the offset and the cost table -/

/-- C13. The 3-way slicing of the class offset is invertible: for every `offset >= 0`, with
`d = offset >> 3`, `fr = (offset >> 1) & 3` and `hp = offset & 1`, it holds that
`0 <= fr <= 3`, `0 <= hp <= 1` and `offset = 8 * d + 2 * fr + hp`; and both
`encode_mv_component` and `build_nmv_component_cost_table` use this slicing: the symbols
written for a component whose offset is `offset`, and the entries of the cost table at a
magnitude whose offset is `offset`, are those of the fields `d`, `fr` and `hp`. -/
theorem offset_slicing (offset : Int) (h : 0 ≤ offset) :
    0 ≤ Int.land (offset >>> (1 : Nat)) 3 ∧ Int.land (offset >>> (1 : Nat)) 3 ≤ 3 ∧
    0 ≤ Int.land offset 1 ∧ Int.land offset 1 ≤ 1 ∧
    offset = 8 * (offset >>> (3 : Nat)) + 2 * Int.land (offset >>> (1 : Nat)) 3 +
      Int.land offset 1 ∧
    (∀ (w : vp10_writer) (comp : Int) (mvcomp : nmv_component) (usehp : Bool),
      comp ≠ 0 → (vp10_get_mv_class (|comp| - 1)).2 = offset →
      encode_mv_component w comp mvcomp usehp
        = Outcome.returned
            (w ++ component_symbols mvcomp usehp (if comp < 0 then 1 else 0)
              (vp10_get_mv_class (|comp| - 1)).1 (offset >>> (3 : Nat))
              (Int.land (offset >>> (1 : Nat)) 3) (Int.land offset 1))) ∧
    (∀ (cfg : Coder) (mvcost : Int → Int) (mvcomp : nmv_component) (usehp : Bool) (v : Int),
      1 ≤ v → v ≤ MV_MAX → (vp10_get_mv_class (v - 1)).2 = offset →
      build_nmv_component_cost_table cfg mvcost mvcomp usehp v
          = symbols_cost cfg
              (component_symbols mvcomp usehp 0 (vp10_get_mv_class (v - 1)).1
                (offset >>> (3 : Nat)) (Int.land (offset >>> (1 : Nat)) 3)
                (Int.land offset 1)) ∧
      build_nmv_component_cost_table cfg mvcost mvcomp usehp (-v)
          = symbols_cost cfg
              (component_symbols mvcomp usehp 1 (vp10_get_mv_class (v - 1)).1
                (offset >>> (3 : Nat)) (Int.land (offset >>> (1 : Nat)) 3)
                (Int.land offset 1))) := by
  have h2 : 0 ≤ offset / 2 := Int.ediv_nonneg h (by decide)
  rw [shr_three, shr_one, land_three _ h2, land_one _ h]
  refine ⟨by omega, by omega, by omega, by omega, by omega, ?_, ?_⟩
  · intro w comp mvcomp usehp hc ho
    rw [encode_mv_component_eq w comp mvcomp usehp hc, axis_symbols, ho]
  · intro cfg mvcost mvcomp usehp v h1 hmax ho
    have habs : |v| = v := abs_of_nonneg (by omega)
    have habs2 : |(-v)| = v := by rw [abs_neg, habs]
    obtain ⟨e1, e2⟩ := cost_table_entry cfg mvcost mvcomp usehp v h1 hmax
    rw [e1, e2, axis_symbols, axis_symbols, habs, habs2, ho,
      if_neg (by omega : ¬ v < 0), if_pos (by omega : -v < 0)]
    exact ⟨rfl, rfl⟩

/-- Witness for C13: the offset 487 of the magnitude 1000, whose fields are `d = 60`,
`fr = 3` and `hp = 1`. -/
theorem offset_slicing_witness :
    (487 : Int) = 8 * ((487 : Int) >>> (3 : Nat)) + 2 * Int.land ((487 : Int) >>> (1 : Nat)) 3 +
      Int.land 487 1 ∧
    encode_mv_component [] (-1000) (sample_context.comps.getD 0 default) true
      = Outcome.returned
          ([] ++ component_symbols (sample_context.comps.getD 0 default) true
            (if (-1000 : Int) < 0 then 1 else 0) (vp10_get_mv_class (|(-1000 : Int)| - 1)).1
            ((487 : Int) >>> (3 : Nat)) (Int.land ((487 : Int) >>> (1 : Nat)) 3)
            (Int.land 487 1)) :=
  ⟨(offset_slicing 487 (by decide)).2.2.2.2.1,
    (offset_slicing 487 (by decide)).2.2.2.2.2.1 [] (-1000)
      (sample_context.comps.getD 0 default) true (by decide) (by decide)⟩

/-- C15. Cost-table consistency: for every component model, every `usehp` and every value `v`
with `1 <= |v| <= MV_MAX`, `encode_mv_component` returns for the component value `v`, the
symbols it writes are the sign, the class, the integer part, the fractional symbol and, when
`usehp`, the high-precision bit, and the entry `mvcost[v]` built by
`build_nmv_component_cost_table` with the same `usehp` is the sum of the costs of exactly these
symbols under the same probabilities. -/
theorem cost_table_consistency (cfg : Coder) (mvcost : Int → Int) (mvcomp : nmv_component)
    (usehp : Bool) (v : Int) (h1 : 1 ≤ |v|) (h2 : |v| ≤ MV_MAX) :
    ∃ symbols,
      encode_mv_component [] v mvcomp usehp = Outcome.returned symbols ∧
      symbols = axis_symbols mvcomp usehp v ∧
      build_nmv_component_cost_table cfg mvcost mvcomp usehp v = symbols_cost cfg symbols := by
  have hv : v ≠ 0 := by
    intro h0; rw [h0] at h1; simp at h1
  refine ⟨axis_symbols mvcomp usehp v, ?_, rfl, ?_⟩
  · rw [encode_mv_component_eq [] v mvcomp usehp hv]; rfl
  · by_cases hpos : 0 ≤ v
    · rw [abs_of_nonneg hpos] at h1 h2
      exact (cost_table_entry cfg mvcost mvcomp usehp v h1 h2).1
    · have hneg : v < 0 := by omega
      rw [abs_of_neg hneg] at h1 h2
      have := (cost_table_entry cfg mvcost mvcomp usehp (-v) h1 h2).2
      rwa [neg_neg] at this

/-- Witness for C15: the value -1000 under the sample costs. -/
theorem cost_table_consistency_witness :
    ∃ symbols,
      encode_mv_component [] (-1000) (sample_context.comps.getD 0 default) true
        = Outcome.returned symbols ∧
      symbols = axis_symbols (sample_context.comps.getD 0 default) true (-1000) ∧
      build_nmv_component_cost_table (sample_coder false false) (fun _ => 0)
          (sample_context.comps.getD 0 default) true (-1000)
        = symbols_cost (sample_coder false false) symbols :=
  cost_table_consistency (sample_coder false false) (fun _ => 0)
    (sample_context.comps.getD 0 default) true (-1000) (by decide) (by decide)

/-- C16. In every table built by `build_nmv_component_cost_table`, entry 0 is 0, and for every
`v` in `1..MV_MAX` the entries for `+v` and `-v` differ only by the sign cost:
`mvcost[v] - cost_zero(sign) = mvcost[-v] - cost_one(sign)`. -/
theorem cost_table_sign_symmetry (cfg : Coder) (mvcost : Int → Int) (mvcomp : nmv_component)
    (usehp : Bool) :
    build_nmv_component_cost_table cfg mvcost mvcomp usehp 0 = 0 ∧
    ∀ v : Int, 1 ≤ v → v ≤ MV_MAX →
      build_nmv_component_cost_table cfg mvcost mvcomp usehp v
          - cfg.vp10_cost_zero mvcomp.sign
        = build_nmv_component_cost_table cfg mvcost mvcomp usehp (-v)
          - cfg.vp10_cost_one mvcomp.sign := by
  refine ⟨cost_table_zero cfg mvcost mvcomp usehp, fun v h1 h2 => ?_⟩
  have habs : |v| = v := abs_of_nonneg (by omega)
  have habs2 : |(-v)| = v := by rw [abs_neg, habs]
  obtain ⟨e1, e2⟩ := cost_table_entry cfg mvcost mvcomp usehp v h1 h2
  rw [e1, e2, axis_symbols, axis_symbols, habs, habs2,
    component_symbols_cost cfg mvcomp usehp (if v < 0 then 1 else 0),
    component_symbols_cost cfg mvcomp usehp (if -v < 0 then 1 else 0),
    if_neg (by omega : ¬ v < 0), if_pos (by omega : -v < 0)]
  simp

/-! ## The update of the probabilities -/

theorem getD_set {α : Type} (l : List α) (i j : Nat) (x d : α) :
    (l.set i x).getD j d = if i = j ∧ j < l.length then x else l.getD j d := by
  simp only [List.getD_eq_getElem?_getD, List.getElem?_set]
  by_cases hij : i = j
  · subst hij
    by_cases hl : i < l.length
    · simp [hl]
    · simp [hl, List.getElem?_eq_none (Nat.le_of_not_lt hl)]
  · simp [hij]

theorem set_getD_self {α : Type} (l : List α) (i : Nat) (d : α) :
    l.set i (l.getD i d) = l := by
  apply List.ext_getElem?
  intro j
  rw [List.getElem?_set]
  by_cases hij : i = j
  · subst hij
    by_cases hl : i < l.length
    · simp [hl, List.getD_eq_getElem?_getD, List.getElem?_eq_getElem hl]
    · simp [hl, List.getElem?_eq_none (Nat.le_of_not_lt hl)]
  · simp [hij]

theorem modify_comp_self (mvc : nmv_context) (comp : Nat) (f : nmv_component → nmv_component)
    (hf : f (mvc.comps.getD comp default) = mvc.comps.getD comp default) :
    mvc.modify_comp comp f = mvc := by
  unfold nmv_context.modify_comp
  rw [hf, set_getD_self]

/-- Storing the value a node holds leaves the context as it is. -/
theorem store_load_self (mvc : nmv_context) (node : Node) :
    mvc.store (mvc.load node) node = mvc := by
  cases node <;>
    simp only [nmv_context.store, nmv_context.load, set_getD_self] <;>
    first
    | rfl
    | (apply modify_comp_self; simp only [set_getD_self])

theorem update_nodes_append (cfg : Coder) (a b : List (Node × (Nat × Nat)))
    (s : UpdateState) :
    update_nodes cfg (a ++ b) s = update_nodes cfg b (update_nodes cfg a s) := by
  induction a generalizing s with
  | nil => rfl
  | cons x a ih => exact ih _

theorem update_nodes_nodes (cfg : Coder) (l : List (Node × (Nat × Nat))) (s : UpdateState) :
    (update_nodes cfg l s).nodes = s.nodes ++ l.map Prod.fst := by
  induction l generalizing s with
  | nil => simp [update_nodes]
  | cons x l ih =>
    obtain ⟨node, ct⟩ := x
    rw [update_nodes, ih]
    simp [vp10_cond_prob_diff_update]

/-- Nodes without counts are left as they are by an update rule that keeps such a node. -/
theorem update_nodes_zero (cfg : Coder) (l : List (Node × (Nat × Nat))) (s : UpdateState)
    (hkeep : ∀ p, (cfg.vp10_cond_prob_diff_update p (0, 0)).2 = p)
    (hl : ∀ x ∈ l, x.2 = (0, 0)) :
    (update_nodes cfg l s).mvc = s.mvc := by
  induction l generalizing s with
  | nil => rfl
  | cons x l ih =>
    obtain ⟨node, ct⟩ := x
    have hct : ct = (0, 0) := hl (node, ct) (List.mem_cons_self _ _)
    subst hct
    rw [update_nodes, ih _ (fun y hy => hl y (List.mem_cons_of_mem _ hy))]
    simp only [vp10_cond_prob_diff_update, hkeep, store_load_self]

/-- A loop whose rounds update lists of nodes updates the concatenation of the lists. -/
theorem for_loop_update_nodes (cfg : Coder) (body : Nat → UpdateState → Outcome UpdateState)
    (sched : Nat → List (Node × (Nat × Nat)))
    (hbody : ∀ i s, body i s = Outcome.returned (update_nodes cfg (sched i) s))
    (first count : Nat) (s : UpdateState) :
    for_loop body first count s
      = Outcome.returned (update_nodes cfg ((List.range' first count).flatMap sched) s) := by
  induction count generalizing first s with
  | zero => rfl
  | succ n ih =>
    rw [for_loop, hbody, andThen_returned, ih, List.range'_succ, List.flatMap_cons,
      update_nodes_append]

theorem write_mv_update_eq (cfg : Coder) (tree : Tree) (probs : Nat → Node)
    (counts : List Nat) (n : Int) (s : UpdateState) (hn : n ≤ 32) :
    write_mv_update cfg tree probs counts n s
      = Outcome.returned (update_nodes cfg (tree_schedule cfg tree probs counts n) s) := by
  have h := for_loop_update_nodes cfg
    (fun i s =>
      Outcome.returned
        (update_mv cfg s (cfg.vp10_tree_probs_from_distribution tree counts i) (probs i)
          MV_UPDATE_PROB))
    (fun i => [(probs i, cfg.vp10_tree_probs_from_distribution tree counts i)])
    (fun i s => rfl) 0 (n - 1).toNat s
  unfold write_mv_update
  rw [decide_eq_true hn, assert_true, andThen_returned]
  dsimp only
  rw [h]
  congr 2
  rw [tree_schedule, List.range_eq_range']
  generalize List.range' 0 (n - 1).toNat = l
  induction l with
  | nil => rfl
  | cons a l ih => rw [List.flatMap_cons, ih]; rfl

theorem andThen_eq_of {α β : Type} {o : Outcome α} {k : α → Outcome β} {a : α}
    {r : Outcome β} (h1 : o = Outcome.returned a) (h2 : k a = r) : andThen o k = r := by
  rw [h1, andThen_returned, h2]

theorem flatMap_singleton_map {α β : Type} (l : List α) (f : α → β) :
    l.flatMap (fun x => [f x]) = l.map f := by
  induction l with
  | nil => rfl
  | cons a l ih => rw [List.flatMap_cons, ih]; rfl

/-- The statements of `vp10_write_nmv_probs` for one context update the nodes of
`context_schedule` in turn and return. -/
theorem write_nmv_context_probs_eq (cfg : Coder) (usehp : Bool) (counts : nmv_context_counts)
    (s : UpdateState) :
    write_nmv_context_probs cfg usehp counts s
      = Outcome.returned (update_nodes cfg (context_schedule cfg usehp counts) s) := by
  have hz : ∀ s : UpdateState,
      (if cfg.CONFIG_REF_MV then
        vp10_cond_prob_diff_update cfg s Node.zero_rmv counts.zero_rmv else s)
      = update_nodes cfg
          (if cfg.CONFIG_REF_MV then [(Node.zero_rmv, counts.zero_rmv)] else []) s := by
    intro s; split_ifs <;> rfl
  unfold write_nmv_context_probs context_schedule
  simp only [update_nodes_append, List.range_eq_range']
  rw [write_mv_update_eq _ _ _ _ _ _ (by decide), andThen_returned]
  rw [hz]
  refine andThen_eq_of
    (for_loop_update_nodes cfg _
      (fun i =>
        [(Node.sign i, (counts.comps.getD i default).sign)] ++
        tree_schedule cfg Tree.vp10_mv_class_tree (Node.classes i)
          (counts.comps.getD i default).classes MV_CLASSES ++
        tree_schedule cfg Tree.vp10_mv_class0_tree (Node.class0 i)
          (counts.comps.getD i default).class0 CLASS0_SIZE ++
        (List.range' 0 MV_OFFSET_BITS.toNat).map fun j =>
          (Node.bits i j, (counts.comps.getD i default).bits.getD j (0, 0)))
      (fun i s => ?_) 0 2 _) ?_
  · simp only [update_nodes_append, update_mv]
    rw [write_mv_update_eq _ _ _ _ _ _ (by decide), andThen_returned,
      write_mv_update_eq _ _ _ _ _ _ (by decide), andThen_returned]
    refine (for_loop_update_nodes cfg _
      (fun j => [(Node.bits i j, (counts.comps.getD i default).bits.getD j (0, 0))])
      (fun j s => rfl) 0 _ _).trans ?_
    rw [flatMap_singleton_map]
    rfl
  refine andThen_eq_of
    (for_loop_update_nodes cfg _
      (fun i =>
        ((List.range' 0 CLASS0_SIZE.toNat).flatMap fun j =>
          tree_schedule cfg Tree.vp10_mv_fp_tree (Node.class0_fp i j)
            ((counts.comps.getD i default).class0_fp.getD j []) MV_FP_SIZE) ++
        tree_schedule cfg Tree.vp10_mv_fp_tree (Node.fp i) (counts.comps.getD i default).fp
          MV_FP_SIZE)
      (fun i s => ?_) 0 2 _) ?_
  · simp only [update_nodes_append]
    rw [for_loop_update_nodes cfg _
        (fun j => tree_schedule cfg Tree.vp10_mv_fp_tree (Node.class0_fp i j)
          ((counts.comps.getD i default).class0_fp.getD j []) MV_FP_SIZE)
        (fun j s => write_mv_update_eq _ _ _ _ _ _ (by decide)),
      andThen_returned, write_mv_update_eq _ _ _ _ _ _ (by decide)]
  cases usehp
  · rfl
  · simp only [if_true]
    exact for_loop_update_nodes cfg _
      (fun i =>
        [(Node.class0_hp i, (counts.comps.getD i default).class0_hp),
          (Node.hp i, (counts.comps.getD i default).hp)])
      (fun i s => rfl) 0 2 _

/-- A loop whose rounds return and keep a property returns and keeps it. -/
theorem for_loop_invariant {σ : Type} (body : Nat → σ → Outcome σ) (P : σ → Prop)
    (first count : Nat)
    (hbody : ∀ i s, first ≤ i → i < first + count → P s →
      ∃ s', body i s = Outcome.returned s' ∧ P s')
    (s : σ) (hs : P s) :
    ∃ s', for_loop body first count s = Outcome.returned s' ∧ P s' := by
  induction count generalizing first s with
  | zero => exact ⟨s, rfl, hs⟩
  | succ n ih =>
    obtain ⟨s1, h1, hp1⟩ := hbody first s (Nat.le_refl _) (by omega) hs
    obtain ⟨s2, h2, hp2⟩ := ih (first + 1)
      (fun i s hi hlt hp => hbody i s (by omega) (by omega) hp) s1 hp1
    exact ⟨s2, by rw [for_loop, h1, andThen_returned, h2], hp2⟩

theorem getD_replicate {α : Type} (n i : Nat) (x : α) :
    (List.replicate n x).getD i x = x := by
  rw [List.getD_eq_getElem?_getD, List.getElem?_replicate]
  split_ifs <;> rfl

theorem zero_counts_comps (i : Nat) (hi : i < 2) :
    zero_counts.comps.getD i default = zero_component_counts := by
  interval_cases i <;> rfl

/-- With the all-zero counts and a conversion that yields no branch counts for an all-zero
distribution, every node of the schedule has the branch counts (0, 0). -/
theorem zero_counts_schedule (cfg : Coder) (usehp : Bool)
    (hdist : ∀ tree n i,
      cfg.vp10_tree_probs_from_distribution tree (List.replicate n 0) i = (0, 0)) :
    ∀ x ∈ context_schedule cfg usehp zero_counts, x.2 = (0, 0) := by
  intro x hx
  simp only [context_schedule, tree_schedule, List.mem_append, List.mem_flatMap, List.mem_map,
    List.mem_range, List.mem_cons, List.mem_singleton, List.not_mem_nil, or_false] at hx
  rcases hx with (((((⟨k, -, rfl⟩ | hx) | ⟨i, hi, hx⟩) | ⟨i, hi, hx⟩)) | hx)
  · exact hdist _ 4 k
  · split_ifs at hx
    · simp only [List.mem_cons, List.not_mem_nil, or_false] at hx; subst hx; rfl
    · simp at hx
  · rw [zero_counts_comps i hi] at hx
    rcases hx with ((rfl | ⟨k, -, rfl⟩) | ⟨k, -, rfl⟩) | ⟨k, -, rfl⟩
    · rfl
    · exact hdist _ 11 k
    · exact hdist _ 2 k
    · exact getD_replicate 10 k (0, 0)
  · rw [zero_counts_comps i hi] at hx
    rcases hx with ⟨j, hj, k, -, rfl⟩ | ⟨k, -, rfl⟩
    · have h4 : zero_component_counts.class0_fp.getD j [] = List.replicate 4 0 := by
        have hj2 : j < 2 := hj
        interval_cases j <;> rfl
      show cfg.vp10_tree_probs_from_distribution _ (zero_component_counts.class0_fp.getD j []) k
        = (0, 0)
      rw [h4]; exact hdist _ 4 k
    · exact hdist _ 4 k
  · split_ifs at hx
    · simp only [List.mem_flatMap, List.mem_range, List.mem_cons, List.mem_singleton,
        List.not_mem_nil, or_false] at hx
      obtain ⟨i, hi, hx⟩ := hx
      rw [zero_counts_comps i hi] at hx
      rcases hx with rfl | rfl
      · rfl
      · rfl
    · simp at hx

/-- The statements for one context with all-zero counts return and leave the common state as
it is. -/
theorem context_step_zero (cfg : Coder) (usehp : Bool) (nmv_ctx : Nat) (t : ProbsState)
    (hdist : ∀ tree n i,
      cfg.vp10_tree_probs_from_distribution tree (List.replicate n 0) i = (0, 0))
    (hkeep : ∀ p, (cfg.vp10_cond_prob_diff_update p (0, 0)).2 = p) :
    ∃ t',
      andThen
        (write_nmv_context_probs cfg usehp zero_counts
          { w := t.w, mvc := t.cm.fc.nmvc.getD nmv_ctx default, nodes := [] })
        (fun s =>
          Outcome.returned
            ({ w := s.w,
               cm := { t.cm with
                 fc := { t.cm.fc with nmvc := t.cm.fc.nmvc.set nmv_ctx s.mvc } },
               nodes := t.nodes ++ s.nodes.map fun node => (nmv_ctx, node) } : ProbsState))
        = Outcome.returned t' ∧
      t'.cm = t.cm := by
  rw [write_nmv_context_probs_eq, andThen_returned]
  refine ⟨_, rfl, ?_⟩
  simp only [update_nodes_zero cfg _ _ hkeep (zero_counts_schedule cfg usehp hdist),
    set_getD_self]

/-- C17. The probability update is idempotent under zero counts: for every probability model
and every `usehp`, in both builds, `vp10_write_nmv_probs` called with all-zero counts returns
and leaves every probability of the model (joints, sign, classes, class0, bits, class0_fp, fp,
class0_hp, hp) unchanged, for every conversion `vp10_tree_probs_from_distribution` that derives
the branch counts (0, 0) from an all-zero distribution and every update rule
`vp10_cond_prob_diff_update` that keeps a node whose branch counts are (0, 0). -/
theorem zero_counts_keep_probabilities (cfg : Coder) (cm : VP10_COMMON) (usehp : Bool)
    (w : vp10_writer)
    (hdist : ∀ tree n i,
      cfg.vp10_tree_probs_from_distribution tree (List.replicate n 0) i = (0, 0))
    (hkeep : ∀ p, (cfg.vp10_cond_prob_diff_update p (0, 0)).2 = p) :
    ∃ t,
      vp10_write_nmv_probs cfg cm usehp w (List.replicate NMV_CONTEXTS.toNat zero_counts)
        = Outcome.returned t ∧
      t.cm = cm := by
  have hget : ∀ i, i < 3 →
      (List.replicate NMV_CONTEXTS.toNat zero_counts).getD i default = zero_counts := by
    intro i hi
    interval_cases i <;> rfl
  unfold vp10_write_nmv_probs
  dsimp only
  split_ifs with hcfg
  · refine for_loop_invariant _ (fun t : ProbsState => t.cm = cm) 0 NMV_CONTEXTS.toNat ?_ _ rfl
    intro i t _ hi ht
    have hi3 : i < 3 := by
      have : NMV_CONTEXTS.toNat = 3 := rfl
      omega
    rw [hget i hi3]
    obtain ⟨t', h1, h2⟩ := context_step_zero cfg usehp i t hdist hkeep
    exact ⟨t', h1, h2.trans ht⟩
  · rw [hget 0 (by decide)]
    exact context_step_zero cfg usehp 0 { w := w, cm := cm, nodes := [] } hdist hkeep

/-- Witness for C17: the sample functions keep a node without counts. -/
theorem zero_counts_keep_probabilities_witness :
    ∃ t,
      vp10_write_nmv_probs (sample_coder true false)
          { fc := { nmvc := [sample_context, sample_context, sample_context] } } true []
          (List.replicate NMV_CONTEXTS.toNat zero_counts)
        = Outcome.returned t ∧
      t.cm = { fc := { nmvc := [sample_context, sample_context, sample_context] } } :=
  zero_counts_keep_probabilities (sample_coder true false)
    { fc := { nmvc := [sample_context, sample_context, sample_context] } } true []
    (fun _ n i => by
      show (((List.replicate n 0).getD i 0, (List.replicate n 0).getD (i + 1) 0) : Nat × Nat)
        = (0, 0)
      rw [getD_replicate, getD_replicate])
    (fun _ => rfl)

theorem modify_comp_getD (mvc : nmv_context) (c comp : Nat)
    (f : nmv_component → nmv_component) :
    (mvc.modify_comp c f).comps.getD comp default
      = if c = comp ∧ comp < mvc.comps.length then f (mvc.comps.getD c default)
        else mvc.comps.getD comp default := by
  unfold nmv_context.modify_comp
  exact getD_set _ _ _ _ _

/-- A store to a node that is not a high-precision node leaves the high-precision
probabilities as they are. -/
theorem store_keeps_high_precision (mvc : nmv_context) (p : vpx_prob) (a : Node)
    (ha : a.high_precision = false) (comp : Nat) :
    ((mvc.store p a).comps.getD comp default).class0_hp
        = (mvc.comps.getD comp default).class0_hp ∧
    ((mvc.store p a).comps.getD comp default).hp = (mvc.comps.getD comp default).hp := by
  cases a
  case class0_hp c => simp [Node.high_precision] at ha
  case hp c => simp [Node.high_precision] at ha
  all_goals
    simp only [nmv_context.store, modify_comp_getD]
    first
    | exact ⟨rfl, rfl⟩
    | exact ⟨trivial, trivial⟩
    | (split_ifs with h
       · obtain ⟨h1, _⟩ := h
         subst h1
         exact ⟨rfl, rfl⟩
       · exact ⟨rfl, rfl⟩)

theorem update_nodes_keeps_high_precision (cfg : Coder) (l : List (Node × (Nat × Nat)))
    (s : UpdateState) (hl : ∀ x ∈ l, x.1.high_precision = false) (comp : Nat) :
    ((update_nodes cfg l s).mvc.comps.getD comp default).class0_hp
        = (s.mvc.comps.getD comp default).class0_hp ∧
    ((update_nodes cfg l s).mvc.comps.getD comp default).hp
        = (s.mvc.comps.getD comp default).hp := by
  induction l generalizing s with
  | nil => exact ⟨rfl, rfl⟩
  | cons x l ih =>
    obtain ⟨node, ct⟩ := x
    have h1 := ih (vp10_cond_prob_diff_update cfg s node ct)
      (fun y hy => hl y (List.mem_cons_of_mem _ hy))
    have h2 := store_keeps_high_precision s.mvc
      (cfg.vp10_cond_prob_diff_update (s.mvc.load node) ct).2 node
      (hl (node, ct) (List.mem_cons_self _ _)) comp
    rw [update_nodes]
    exact ⟨h1.1.trans h2.1, h1.2.trans h2.2⟩

/-- The nodes of the schedule of a context in the build without `CONFIG_REF_MV` are those of
`node_order`, in the same order. -/
theorem context_schedule_nodes (cfg : Coder) (usehp : Bool) (counts : nmv_context_counts)
    (hcfg : cfg.CONFIG_REF_MV = false) :
    (context_schedule cfg usehp counts).map Prod.fst = node_order usehp := by
  unfold context_schedule
  rw [hcfg]
  cases usehp <;> rfl

theorem node_order_high_precision : ∀ node ∈ node_order false, node.high_precision = false := by
  decide

/-! ## The order of the node updates -/

/-- A store to one node leaves the value of every other node as it is. -/
theorem load_store_ne (mvc : nmv_context) (p : vpx_prob) (a b : Node) (hne : a ≠ b) :
    (mvc.store p a).load b = mvc.load b := by
  cases a <;> cases b
  case class0_fp.class0_fp c j i c1 j1 i1 =>
    simp only [nmv_context.store, nmv_context.load, modify_comp_getD]
    split_ifs with h
    · obtain ⟨rfl, _⟩ := h
      simp only [getD_set]
      by_cases hj : j = j1 ∧ j1 < (mvc.comps.getD c default).class0_fp.length
      · rw [if_pos hj]
        obtain ⟨rfl, _⟩ := hj
        rw [getD_set, if_neg]
        rintro ⟨rfl, _⟩
        exact hne rfl
      · rw [if_neg hj]
    · rfl
  all_goals
    simp only [nmv_context.store, nmv_context.load, modify_comp_getD, getD_set, ne_eq,
      Node.joints.injEq, Node.sign.injEq, Node.classes.injEq, Node.class0.injEq,
      Node.bits.injEq, Node.class0_fp.injEq, Node.fp.injEq, Node.class0_hp.injEq,
      Node.hp.injEq, not_true_eq_false, reduceCtorEq, not_false_eq_true] at hne ⊢ <;>
    first
    | rfl
    | (split_ifs <;> simp_all [getD_set])

theorem flatMap_congr_mem {α β : Type} (l : List α) (f g : α → List β)
    (h : ∀ x ∈ l, f x = g x) : l.flatMap f = l.flatMap g := by
  induction l with
  | nil => rfl
  | cons x l ih =>
    rw [List.flatMap_cons, List.flatMap_cons, h x (List.mem_cons_self _ _),
      ih (fun y hy => h y (List.mem_cons_of_mem _ hy))]

/-- The updates of a list of distinct nodes, one after the other: the bit sink receives, in the
order of the list, what `vp10_cond_prob_diff_update` writes for the probability each node
held at the start, and each node is left with its updated probability. -/
theorem update_nodes_serial (cfg : Coder) (l : List (Node × (Nat × Nat))) (s : UpdateState)
    (hnd : (l.map Prod.fst).Nodup) :
    (update_nodes cfg l s).w = s.w ++ l.flatMap (update_symbols cfg s.mvc) ∧
    (update_nodes cfg l s).mvc = updated_context cfg s.mvc l := by
  induction l generalizing s with
  | nil => simp [update_nodes, updated_context]
  | cons x l ih =>
    obtain ⟨node, ct⟩ := x
    rw [List.map_cons, List.nodup_cons] at hnd
    obtain ⟨hnot, hnd⟩ := hnd
    obtain ⟨ihw, ihm⟩ := ih (vp10_cond_prob_diff_update cfg s node ct) hnd
    have hload : ∀ y ∈ l,
        (vp10_cond_prob_diff_update cfg s node ct).mvc.load y.1 = s.mvc.load y.1 := by
      intro y hy
      apply load_store_ne
      intro he
      apply hnot
      rw [he]
      exact List.mem_map.mpr ⟨y, hy, rfl⟩
    have hsym : ∀ y ∈ l,
        update_symbols cfg (vp10_cond_prob_diff_update cfg s node ct).mvc y
          = update_symbols cfg s.mvc y := by
      intro y hy
      unfold update_symbols
      rw [hload y hy]
    have hval : ∀ y ∈ l,
        update_value cfg (vp10_cond_prob_diff_update cfg s node ct).mvc y
          = update_value cfg s.mvc y := by
      intro y hy
      unfold update_value
      rw [hload y hy]
    rw [update_nodes]
    constructor
    · rw [ihw, flatMap_congr_mem l _ _ hsym, List.flatMap_cons, ← List.append_assoc]
      rfl
    · rw [ihm]
      unfold updated_context
      rw [List.foldl_cons]
      apply List.foldl_ext
      intro mvc y hy
      rw [hval y hy]

theorem node_order_nodup (usehp : Bool) : (node_order usehp).Nodup := by
  cases usehp <;> decide

/-- C18. In the build without `CONFIG_REF_MV`, `vp10_write_nmv_probs` returns having
serialised the node updates of the context in exactly the order of `node_order`: the
`MV_JOINTS - 1` joint-tree nodes; then for component 0 and then component 1 the sign, the
`MV_CLASSES - 1` class-tree nodes, the `CLASS0_SIZE - 1` class-0 nodes and the `MV_OFFSET_BITS`
raw-bit nodes; then for component 0 and then component 1 the `class0_fp` tables followed by the
`fp` table; then, only when `usehp` is set, for each component `class0_hp` followed by `hp`.
The nodes of the schedule are those of `node_order`, in this order; the bit sink has received,
node after node in this order, what `vp10_cond_prob_diff_update` writes for the probability
the node held before the call and its branch counts; the context is left with the updated
probability at each of these nodes; and these are the calls made, in this order. When `usehp`
is false no high-precision node is written or changed. -/
theorem nmv_probs_node_order (cfg : Coder) (cm : VP10_COMMON) (usehp : Bool)
    (w : vp10_writer) (nmv_counts : List nmv_context_counts)
    (hcfg : cfg.CONFIG_REF_MV = false) :
    ∃ t,
      vp10_write_nmv_probs cfg cm usehp w nmv_counts = Outcome.returned t ∧
      (context_schedule cfg usehp (nmv_counts.getD 0 default)).map Prod.fst
        = node_order usehp ∧
      t.w = w ++ (context_schedule cfg usehp (nmv_counts.getD 0 default)).flatMap
        (update_symbols cfg (cm.fc.nmvc.getD 0 default)) ∧
      t.cm.fc.nmvc = cm.fc.nmvc.set 0
        (updated_context cfg (cm.fc.nmvc.getD 0 default)
          (context_schedule cfg usehp (nmv_counts.getD 0 default))) ∧
      t.nodes = (node_order usehp).map (fun node => (0, node)) ∧
      (usehp = false →
        (∀ x ∈ t.nodes, x.2.high_precision = false) ∧
        ∀ comp,
          ((t.cm.fc.nmvc.getD 0 default).comps.getD comp default).class0_hp
              = ((cm.fc.nmvc.getD 0 default).comps.getD comp default).class0_hp ∧
          ((t.cm.fc.nmvc.getD 0 default).comps.getD comp default).hp
              = ((cm.fc.nmvc.getD 0 default).comps.getD comp default).hp) := by
  have hnodes := context_schedule_nodes cfg usehp (nmv_counts.getD 0 default) hcfg
  have hnd : ((context_schedule cfg usehp (nmv_counts.getD 0 default)).map Prod.fst).Nodup := by
    rw [hnodes]
    exact node_order_nodup usehp
  obtain ⟨hw, hmvc⟩ := update_nodes_serial cfg
    (context_schedule cfg usehp (nmv_counts.getD 0 default))
    { w := w, mvc := cm.fc.nmvc.getD 0 default, nodes := [] } hnd
  unfold vp10_write_nmv_probs
  dsimp only
  rw [if_neg (by rw [hcfg]; decide), write_nmv_context_probs_eq, andThen_returned]
  refine ⟨_, rfl, hnodes, hw, ?_, ?_, ?_⟩
  · show cm.fc.nmvc.set 0 _ = _
    rw [hmvc]
  · simp only [update_nodes_nodes, List.nil_append, hnodes]
  · intro hu
    subst hu
    constructor
    · intro x hx
      simp only [update_nodes_nodes, List.nil_append, context_schedule_nodes cfg false _ hcfg,
        List.mem_map] at hx
      obtain ⟨node, hnode, rfl⟩ := hx
      exact node_order_high_precision node hnode
    · intro comp
      have hl : ∀ x ∈ context_schedule cfg false (nmv_counts.getD 0 default),
          x.1.high_precision = false := by
        intro x hx
        apply node_order_high_precision
        rw [← context_schedule_nodes cfg false (nmv_counts.getD 0 default) hcfg]
        exact List.mem_map_of_mem _ hx
      have h := update_nodes_keeps_high_precision cfg _
        { w := w, mvc := cm.fc.nmvc.getD 0 default, nodes := [] } hl comp
      simp only [getD_set]
      split_ifs with h0
      · exact h
      · exact ⟨rfl, rfl⟩

/-- Witness for C18: the 65 nodes of the sample model without `usehp`. -/
theorem nmv_probs_node_order_witness :
    ∃ t,
      vp10_write_nmv_probs (sample_coder false false) { fc := { nmvc := [sample_context] } }
          false [] [sample_counts] = Outcome.returned t ∧
      (context_schedule (sample_coder false false) false
          ([sample_counts].getD 0 default)).map Prod.fst = node_order false ∧
      t.w = [] ++ (context_schedule (sample_coder false false) false
          ([sample_counts].getD 0 default)).flatMap
        (update_symbols (sample_coder false false)
          ((({ fc := { nmvc := [sample_context] } } : VP10_COMMON).fc.nmvc).getD 0 default)) ∧
      t.cm.fc.nmvc = (({ fc := { nmvc := [sample_context] } } : VP10_COMMON).fc.nmvc).set 0
        (updated_context (sample_coder false false)
          ((({ fc := { nmvc := [sample_context] } } : VP10_COMMON).fc.nmvc).getD 0 default)
          (context_schedule (sample_coder false false) false
            ([sample_counts].getD 0 default))) ∧
      t.nodes = (node_order false).map (fun node => (0, node)) ∧
      (false = false →
        (∀ x ∈ t.nodes, x.2.high_precision = false) ∧
        ∀ comp,
          ((t.cm.fc.nmvc.getD 0 default).comps.getD comp default).class0_hp
              = (((({ fc := { nmvc := [sample_context] } } : VP10_COMMON).fc.nmvc.getD 0
                  default).comps.getD comp default).class0_hp) ∧
          ((t.cm.fc.nmvc.getD 0 default).comps.getD comp default).hp
              = (((({ fc := { nmvc := [sample_context] } } : VP10_COMMON).fc.nmvc.getD 0
                  default).comps.getD comp default).hp)) :=
  nmv_probs_node_order (sample_coder false false) { fc := { nmvc := [sample_context] } }
    false [] [sample_counts] rfl

/-! ## Recovering a component from its symbols -/

theorem bits_determine_nat (n : Nat) (a b : Nat) (ha : a < 2 ^ n) (hb : b < 2 ^ n)
    (hbits : ∀ i, i < n → a / 2 ^ i % 2 = b / 2 ^ i % 2) : a = b := by
  induction n generalizing a b with
  | zero =>
    simp only [pow_zero] at ha hb
    omega
  | succ n ih =>
    have hpow : 2 ^ (n + 1) = 2 * 2 ^ n := by ring
    rw [hpow] at ha hb
    have hlow := hbits 0 (Nat.succ_pos n)
    simp only [pow_zero, Nat.div_one] at hlow
    have hhigh : a / 2 = b / 2 := by
      apply ih (a / 2) (b / 2) (by omega) (by omega)
      intro i hi
      have := hbits (i + 1) (by omega)
      rw [pow_succ, mul_comm] at this
      rw [Nat.div_div_eq_div_mul, Nat.div_div_eq_div_mul]
      exact this
    omega

/-- A value below `2 ^ n` is determined by its `n` lowest bits. -/
theorem bits_determine (n : Nat) (d1 d2 : Int) (h1 : 0 ≤ d1) (h2 : 0 ≤ d2)
    (hlt1 : d1 < 2 ^ n) (hlt2 : d2 < 2 ^ n)
    (hbits : ∀ i, i < n → d1 / 2 ^ i % 2 = d2 / 2 ^ i % 2) : d1 = d2 := by
  obtain ⟨a, rfl⟩ := Int.eq_ofNat_of_zero_le h1
  obtain ⟨b, rfl⟩ := Int.eq_ofNat_of_zero_le h2
  have hab : a = b := by
    apply bits_determine_nat n a b (by exact_mod_cast hlt1) (by exact_mod_cast hlt2)
    intro i hi
    have := hbits i hi
    exact_mod_cast this
  rw [hab]

/-- What the symbols of a magnitude of the range rely on: the class is one of the eleven
classes, the offset is not negative and has the parity of `z`, and the integer part fits the
class-0 sub-tree for class 0 and the `class + CLASS0_BITS - 1` raw bits otherwise. -/
theorem class_offset_facts (z : Int) (hz : 0 ≤ z) (hmax : z < MV_MAX) :
    0 ≤ (vp10_get_mv_class z).2 ∧
    (vp10_get_mv_class z).2 % 2 = z % 2 ∧
    (((vp10_get_mv_class z).1 = MV_CLASS_0 ∧ (vp10_get_mv_class z).2 / 8 < CLASS0_SIZE) ∨
      ((vp10_get_mv_class z).1 ≠ MV_CLASS_0 ∧
        (vp10_get_mv_class z).1 + CLASS0_BITS - 1 ≤ MV_OFFSET_BITS ∧
        (vp10_get_mv_class z).2 / 8
          < 2 ^ ((vp10_get_mv_class z).1 + CLASS0_BITS - 1).toNat)) := by
  have hM : MV_MAX = 16383 := rfl
  rw [hM] at hmax
  have h := get_mv_class_cases z
  generalize (vp10_get_mv_class z).1 = c at h ⊢
  generalize (vp10_get_mv_class z).2 = o at h ⊢
  rcases h with h | h | h | h | h | h | h | h | h | h | h <;>
    obtain ⟨hc, ho, hr⟩ := h <;> subst hc <;> subst ho <;>
    refine ⟨by omega, by omega, ?_⟩
  · left; exact ⟨rfl, by show _ / 8 < (2 : Int); omega⟩
  all_goals
    right
    refine ⟨by decide, by decide, ?_⟩
    simp only [CLASS0_BITS, Int.reduceAdd, Int.reduceSub, Int.reduceToNat, Int.reducePow]
    omega

theorem abs_sign_eq (r1 r2 : Int) (habs : |r1| = |r2|)
    (hs : (if r1 < 0 then (1 : Int) else 0) = (if r2 < 0 then 1 else 0)) : r1 = r2 := by
  rcases abs_cases r1 with ⟨e1, p1⟩ | ⟨e1, p1⟩ <;> rcases abs_cases r2 with ⟨e2, p2⟩ | ⟨e2, p2⟩
  · omega
  · rw [if_neg (by omega), if_pos p2] at hs; omega
  · rw [if_pos p1, if_neg (by omega)] at hs; omega
  · omega

theorem abs_even (r : Int) (h : r % 2 = 0) : |r| % 2 = 0 := by
  rcases abs_cases r with ⟨e, _⟩ | ⟨e, _⟩ <;> omega

/-- The integer part determines `d` within a class. -/
theorem integer_symbols_inj (mvcomp : nmv_component) (c d1 d2 : Int) (X Y : List Symbol)
    (h1 : 0 ≤ d1) (h2 : 0 ≤ d2)
    (hb1 : c ≠ MV_CLASS_0 → d1 < 2 ^ (c + CLASS0_BITS - 1).toNat)
    (hb2 : c ≠ MV_CLASS_0 → d2 < 2 ^ (c + CLASS0_BITS - 1).toNat)
    (h : integer_symbols mvcomp c d1 ++ X = integer_symbols mvcomp c d2 ++ Y) :
    d1 = d2 ∧ X = Y := by
  unfold integer_symbols at h
  by_cases hc : c = MV_CLASS_0
  · rw [if_pos hc, if_pos hc] at h
    simp only [List.cons_append, List.nil_append, List.cons.injEq, Symbol.token.injEq,
      true_and] at h
    exact h
  · rw [if_neg hc, if_neg hc] at h
    obtain ⟨hm, hxy⟩ := List.append_inj h (by simp)
    refine ⟨?_, hxy⟩
    apply bits_determine _ d1 d2 h1 h2 (hb1 hc) (hb2 hc)
    intro i hi
    have := (List.map_inj_left.mp hm) i (List.mem_range.mpr hi)
    simp only [Symbol.bit.injEq, and_true] at this
    exact this

/-- The symbols of a component of the range determine the component, when the high-precision
bit is written or the components are even. -/
theorem axis_symbols_append_inj (mvcomp : nmv_component) (usehp : Bool) (r1 r2 : Int)
    (X Y : List Symbol) (h1 : r1 ≠ 0) (h2 : r2 ≠ 0) (hm1 : |r1| ≤ MV_MAX)
    (hm2 : |r2| ≤ MV_MAX) (hp : usehp = true ∨ (r1 % 2 = 0 ∧ r2 % 2 = 0))
    (h : axis_symbols mvcomp usehp r1 ++ X = axis_symbols mvcomp usehp r2 ++ Y) :
    r1 = r2 ∧ X = Y := by
  have hz1 := magnitude_pos r1 h1
  have hz2 := magnitude_pos r2 h2
  obtain ⟨ho1, hpar1, hd1⟩ := class_offset_facts (|r1| - 1) hz1 (by omega)
  obtain ⟨ho2, hpar2, hd2⟩ := class_offset_facts (|r2| - 1) hz2 (by omega)
  have hb1 : (vp10_get_mv_class (|r1| - 1)).2
      = |r1| - 1 - mv_class_base (vp10_get_mv_class (|r1| - 1)).1 := rfl
  have hb2 : (vp10_get_mv_class (|r2| - 1)).2
      = |r2| - 1 - mv_class_base (vp10_get_mv_class (|r2| - 1)).1 := rfl
  unfold axis_symbols component_symbols at h
  generalize (vp10_get_mv_class (|r1| - 1)).1 = c1 at *
  generalize (vp10_get_mv_class (|r1| - 1)).2 = o1 at *
  generalize (vp10_get_mv_class (|r2| - 1)).1 = c2 at *
  generalize (vp10_get_mv_class (|r2| - 1)).2 = o2 at *
  simp only [List.cons_append, List.nil_append, List.append_assoc, List.cons.injEq,
    Symbol.bit.injEq, Symbol.token.injEq, and_true, true_and] at h
  obtain ⟨hs, hc, hrest⟩ := h
  subst hc
  have hn1 : c1 ≠ MV_CLASS_0 → o1 / 8 < 2 ^ (c1 + CLASS0_BITS - 1).toNat := by
    intro hne
    rcases hd1 with ⟨h0, _⟩ | ⟨_, _, hlt⟩
    · exact absurd h0 hne
    · exact hlt
  have hn2 : c1 ≠ MV_CLASS_0 → o2 / 8 < 2 ^ (c1 + CLASS0_BITS - 1).toNat := by
    intro hne
    rcases hd2 with ⟨h0, _⟩ | ⟨_, _, hlt⟩
    · exact absurd h0 hne
    · exact hlt
  obtain ⟨hd, hrest⟩ := integer_symbols_inj mvcomp c1 (o1 / 8) (o2 / 8) _ _
    (Int.ediv_nonneg ho1 (by decide)) (Int.ediv_nonneg ho2 (by decide)) hn1 hn2 hrest
  simp only [List.cons.injEq, Symbol.token.injEq, true_and] at hrest
  obtain ⟨⟨_, hfr⟩, hrest⟩ := hrest
  have hhp : o1 % 2 = o2 % 2 ∧ X = Y := by
    cases usehp
    · rcases hp with hp | ⟨e1, e2⟩
      · exact absurd hp (by decide)
      · have a1 := abs_even r1 e1
        have a2 := abs_even r2 e2
        simp only [Bool.false_eq_true, if_false, List.nil_append] at hrest
        exact ⟨by omega, hrest⟩
    · simp only [if_true, List.cons_append, List.nil_append, List.cons.injEq,
        Symbol.bit.injEq, and_true] at hrest
      exact hrest
  obtain ⟨hhp, hxy⟩ := hhp
  have ho : o1 = o2 := by omega
  have habs : |r1| = |r2| := by omega
  exact ⟨abs_sign_eq r1 r2 habs hs, hxy⟩

theorem joint_eq_zero_iff (d1 d2 : MV) (h : vp10_get_mv_joint d1 = vp10_get_mv_joint d2) :
    (d1.row = 0 ↔ d2.row = 0) ∧ (d1.col = 0 ↔ d2.col = 0) := by
  unfold vp10_get_mv_joint at h
  split_ifs at h with a1 a2 a3 a4 a5 a6 a7 a8 a9 <;>
    first
    | exact ⟨⟨fun _ => by assumption, fun _ => by assumption⟩,
        ⟨fun _ => by assumption, fun _ => by assumption⟩⟩
    | exact absurd h (by decide)
    | exact ⟨⟨fun _ => by assumption, fun _ => by assumption⟩,
        ⟨fun x => absurd x (by assumption), fun x => absurd x (by assumption)⟩⟩
    | exact ⟨⟨fun x => absurd x (by assumption), fun x => absurd x (by assumption)⟩,
        ⟨fun _ => by assumption, fun _ => by assumption⟩⟩
    | exact ⟨⟨fun x => absurd x (by assumption), fun x => absurd x (by assumption)⟩,
        ⟨fun x => absurd x (by assumption), fun x => absurd x (by assumption)⟩⟩

/-- The symbols of a difference of the range determine the difference, when the
high-precision bit is written or the components are even. -/
theorem mv_symbols_inj (cfg : Coder) (mvctx : nmv_context) (usehp : Bool) (d1 d2 ref : MV)
    (hr1 : |d1.row| ≤ MV_MAX ∧ |d1.col| ≤ MV_MAX) (hr2 : |d2.row| ≤ MV_MAX ∧ |d2.col| ≤ MV_MAX)
    (hp : (usehp && cfg.vp10_use_mv_hp ref) = true ∨
      (d1.row % 2 = 0 ∧ d1.col % 2 = 0 ∧ d2.row % 2 = 0 ∧ d2.col % 2 = 0))
    (h : mv_symbols cfg mvctx usehp d1 ref = mv_symbols cfg mvctx usehp d2 ref) : d1 = d2 := by
  unfold mv_symbols axes_symbols at h
  simp only [List.cons.injEq, Symbol.token.injEq, true_and] at h
  obtain ⟨hj, hax⟩ := h
  obtain ⟨hrow, hcol⟩ := joint_eq_zero_iff d1 d2 hj
  obtain ⟨r1, c1⟩ := d1
  obtain ⟨r2, c2⟩ := d2
  simp only at hrow hcol hr1 hr2 hp hax
  have hprow : (usehp && cfg.vp10_use_mv_hp ref) = true ∨ (r1 % 2 = 0 ∧ r2 % 2 = 0) := by
    rcases hp with hp | ⟨e1, _, e2, _⟩
    · exact Or.inl hp
    · exact Or.inr ⟨e1, e2⟩
  have hpcol : (usehp && cfg.vp10_use_mv_hp ref) = true ∨ (c1 % 2 = 0 ∧ c2 % 2 = 0) := by
    rcases hp with hp | ⟨_, e1, _, e2⟩
    · exact Or.inl hp
    · exact Or.inr ⟨e1, e2⟩
  by_cases hr : r1 = 0
  · have hr' : r2 = 0 := hrow.mp hr
    subst hr; subst hr'
    by_cases hc : c1 = 0
    · have hc' : c2 = 0 := hcol.mp hc
      subst hc; subst hc'
      rfl
    · have hc' : c2 ≠ 0 := fun x => hc (hcol.mpr x)
      simp only [ne_eq, not_true_eq_false, if_false, hc, hc', not_false_eq_true, if_true,
        List.nil_append] at hax
      have := axis_symbols_append_inj _ _ c1 c2 [] [] hc hc' hr1.2 hr2.2 hpcol
        (by simpa using hax)
      rw [this.1]
  · have hr' : r2 ≠ 0 := fun x => hr (hrow.mpr x)
    simp only [ne_eq, hr, hr', not_false_eq_true, if_true] at hax
    obtain ⟨e1, hax⟩ := axis_symbols_append_inj _ _ r1 r2 _ _ hr hr' hr1.1 hr2.1 hprow hax
    subst e1
    by_cases hc : c1 = 0
    · have hc' : c2 = 0 := hcol.mp hc
      subst hc; subst hc'
      rfl
    · have hc' : c2 ≠ 0 := fun x => hc (hcol.mpr x)
      simp only [hc, hc', not_false_eq_true, if_true] at hax
      have := axis_symbols_append_inj _ _ c1 c2 [] [] hc hc' hr1.2 hr2.2 hpcol
        (by simpa using hax)
      rw [this.1]

/-- C12, counterexample. Without the high-precision bit the differences (5, 0) and (6, 0),
both within the supported range, are written with the same symbol sequence: joint type 2,
sign 0, class 0, class-0 symbol 0 and fractional symbol 2. -/
theorem low_precision_collision :
    vp10_encode_mv (sample_coder false false) sample_cpi [] ⟨5, 0⟩ ⟨0, 0⟩ false
        sample_context false
      = Outcome.returned
          ([Symbol.token Tree.vp10_mv_joint_tree [1, 2, 3] 2,
              Symbol.bit 0 10,
              Symbol.token Tree.vp10_mv_class_tree [11, 12, 13, 14, 15, 16, 17, 18, 19, 20] 0,
              Symbol.token Tree.vp10_mv_class0_tree [21] 0,
              Symbol.token Tree.vp10_mv_fp_tree [40, 41, 42] 2],
            sample_cpi) ∧
    vp10_encode_mv (sample_coder false false) sample_cpi [] ⟨6, 0⟩ ⟨0, 0⟩ false
        sample_context false
      = Outcome.returned
          ([Symbol.token Tree.vp10_mv_joint_tree [1, 2, 3] 2,
              Symbol.bit 0 10,
              Symbol.token Tree.vp10_mv_class_tree [11, 12, 13, 14, 15, 16, 17, 18, 19, 20] 0,
              Symbol.token Tree.vp10_mv_class0_tree [21] 0,
              Symbol.token Tree.vp10_mv_fp_tree [40, 41, 42] 2],
            sample_cpi) ∧
    (5 : Int) - 0 ≠ 6 - 0 ∧ |(5 : Int) - 0| ≤ MV_MAX ∧ |(6 : Int) - 0| ≤ MV_MAX := by
  decide

/-- C12, amended. Round trip: for every probability context, every `usehp` and every two
vectors whose differences against the reference lie within the supported range
(`|component| <= MV_MAX`), if `vp10_encode_mv` returns having written the same symbol sequence
for both, then the two vectors (and so the two differences) are equal, provided that the
high-precision bit is written (`usehp` holds and the reference allows high precision) or all
components of both differences are even. -/
theorem encode_mv_injective (cfg : Coder) (cpi1 cpi2 c1 c2 : VP10_COMP) (w s : vp10_writer)
    (mv1 mv2 ref : MV) (is_compound : Bool) (mvctx : nmv_context) (usehp : Bool)
    (h1 : vp10_encode_mv cfg cpi1 w mv1 ref is_compound mvctx usehp = Outcome.returned (s, c1))
    (h2 : vp10_encode_mv cfg cpi2 w mv2 ref is_compound mvctx usehp = Outcome.returned (s, c2))
    (hr1 : |mv1.row - ref.row| ≤ MV_MAX ∧ |mv1.col - ref.col| ≤ MV_MAX)
    (hr2 : |mv2.row - ref.row| ≤ MV_MAX ∧ |mv2.col - ref.col| ≤ MV_MAX)
    (hp : (usehp && cfg.vp10_use_mv_hp ref) = true ∨
      ((mv1.row - ref.row) % 2 = 0 ∧ (mv1.col - ref.col) % 2 = 0 ∧
        (mv2.row - ref.row) % 2 = 0 ∧ (mv2.col - ref.col) % 2 = 0)) :
    mv1 = mv2 := by
  have hfin : ∀ (a b : List Symbol),
      w ++ a ++ mv_symbols cfg mvctx usehp ⟨mv1.row - ref.row, mv1.col - ref.col⟩ ref = s →
      w ++ b ++ mv_symbols cfg mvctx usehp ⟨mv2.row - ref.row, mv2.col - ref.col⟩ ref = s →
      a = b → mv1 = mv2 := by
    intro a b e1 e2 hab
    subst hab
    have e := List.append_cancel_left (e1.trans e2.symm)
    have hd := mv_symbols_inj cfg mvctx usehp _ _ ref hr1 hr2 hp e
    obtain ⟨r1, k1⟩ := mv1
    obtain ⟨r2, k2⟩ := mv2
    simp only [MV.mk.injEq] at hd ⊢
    omega
  by_cases hcfg : (cfg.CONFIG_REF_MV && !cfg.CONFIG_EXT_INTER) = false
  · rw [encode_mv_plain cfg cpi1 w mv1 ref is_compound mvctx usehp hcfg] at h1
    rw [encode_mv_plain cfg cpi2 w mv2 ref is_compound mvctx usehp hcfg] at h2
    simp only [Outcome.returned.injEq, Prod.mk.injEq] at h1 h2
    exact hfin [] [] (by simpa using h1.1) (by simpa using h2.1) rfl
  · have hcfg1 : (cfg.CONFIG_REF_MV && !cfg.CONFIG_EXT_INTER) = true := by simpa using hcfg
    have hzero : ∀ (mv : MV) (cpi c : VP10_COMP),
        mv.row - ref.row = 0 ∧ mv.col - ref.col = 0 →
        vp10_encode_mv cfg cpi w mv ref is_compound mvctx usehp = Outcome.returned (s, c) →
        is_compound = true ∧ s = w ++ [Symbol.bit 1 mvctx.zero_rmv] := by
      intro mv cpi c hz h
      rw [encode_mv_flagged_zero cfg cpi w mv ref is_compound mvctx usehp hcfg1 hz] at h
      cases is_compound
      · simp at h
      · simp only [if_true, Outcome.returned.injEq, Prod.mk.injEq] at h
        exact ⟨rfl, h.1.symm⟩
    have hnonzero : ∀ (mv : MV) (cpi c : VP10_COMP),
        ¬(mv.row - ref.row = 0 ∧ mv.col - ref.col = 0) →
        vp10_encode_mv cfg cpi w mv ref is_compound mvctx usehp = Outcome.returned (s, c) →
        w ++ (if is_compound then [Symbol.bit 0 mvctx.zero_rmv] else []) ++
            mv_symbols cfg mvctx usehp ⟨mv.row - ref.row, mv.col - ref.col⟩ ref = s := by
      intro mv cpi c hz h
      rw [encode_mv_flagged cfg cpi w mv ref is_compound mvctx usehp hcfg1 hz] at h
      simp only [Outcome.returned.injEq, Prod.mk.injEq] at h
      rw [← h.1]
      cases is_compound <;> simp
    by_cases hz1 : mv1.row - ref.row = 0 ∧ mv1.col - ref.col = 0
    · by_cases hz2 : mv2.row - ref.row = 0 ∧ mv2.col - ref.col = 0
      · obtain ⟨r1, k1⟩ := mv1
        obtain ⟨r2, k2⟩ := mv2
        simp only [MV.mk.injEq] at hz1 hz2 ⊢
        omega
      · obtain ⟨hc, e1⟩ := hzero mv1 cpi1 c1 hz1 h1
        have e2 := hnonzero mv2 cpi2 c2 hz2 h2
        rw [hc, e1] at e2
        simp [mv_symbols] at e2
    · by_cases hz2 : mv2.row - ref.row = 0 ∧ mv2.col - ref.col = 0
      · obtain ⟨hc, e2⟩ := hzero mv2 cpi2 c2 hz2 h2
        have e1 := hnonzero mv1 cpi1 c1 hz1 h1
        rw [hc, e2] at e1
        simp [mv_symbols] at e1
      · exact hfin _ _ (hnonzero mv1 cpi1 c1 hz1 h1) (hnonzero mv2 cpi2 c2 hz2 h2) rfl

/-- Witness for C12 (amended): the vector (5, -3) against the reference (0, 0) with the
high-precision bit, which is written for both axes. -/
theorem encode_mv_injective_witness :
    vp10_encode_mv (sample_coder false false) sample_cpi [] ⟨5, -3⟩ ⟨0, 0⟩ false
        sample_context true
      = Outcome.returned
          ([Symbol.token Tree.vp10_mv_joint_tree [1, 2, 3] 3,
              Symbol.bit 0 10,
              Symbol.token Tree.vp10_mv_class_tree [11, 12, 13, 14, 15, 16, 17, 18, 19, 20] 0,
              Symbol.token Tree.vp10_mv_class0_tree [21] 0,
              Symbol.token Tree.vp10_mv_fp_tree [40, 41, 42] 2,
              Symbol.bit 0 50,
              Symbol.bit 1 110,
              Symbol.token Tree.vp10_mv_class_tree
                [111, 112, 113, 114, 115, 116, 117, 118, 119, 120] 0,
              Symbol.token Tree.vp10_mv_class0_tree [121] 0,
              Symbol.token Tree.vp10_mv_fp_tree [140, 141, 142] 1,
              Symbol.bit 0 150],
            sample_cpi) ∧
    (⟨5, -3⟩ : MV) = ⟨5, -3⟩ :=
  ⟨by decide,
    encode_mv_injective (sample_coder false false) sample_cpi sample_cpi sample_cpi sample_cpi
      []
      [Symbol.token Tree.vp10_mv_joint_tree [1, 2, 3] 3,
        Symbol.bit 0 10,
        Symbol.token Tree.vp10_mv_class_tree [11, 12, 13, 14, 15, 16, 17, 18, 19, 20] 0,
        Symbol.token Tree.vp10_mv_class0_tree [21] 0,
        Symbol.token Tree.vp10_mv_fp_tree [40, 41, 42] 2,
        Symbol.bit 0 50,
        Symbol.bit 1 110,
        Symbol.token Tree.vp10_mv_class_tree
          [111, 112, 113, 114, 115, 116, 117, 118, 119, 120] 0,
        Symbol.token Tree.vp10_mv_class0_tree [121] 0,
        Symbol.token Tree.vp10_mv_fp_tree [140, 141, 142] 1,
        Symbol.bit 0 150]
      ⟨5, -3⟩ ⟨5, -3⟩ ⟨0, 0⟩ false sample_context true (by decide) (by decide)
      (by decide) (by decide) (Or.inl (by decide))⟩

/-! ## The encoder state after `vp10_encode_mv` -/

theorem cpi_after_facts (cpi : VP10_COMP) (mv : MV) :
    (cpi_after cpi mv).auto_mv_step_size = cpi.auto_mv_step_size ∧
    cpi.max_mv_magnitude ≤ (cpi_after cpi mv).max_mv_magnitude ∧
    (cpi.auto_mv_step_size = false → cpi_after cpi mv = cpi) ∧
    (cpi.auto_mv_step_size = true →
      (cpi_after cpi mv).max_mv_magnitude
        = max cpi.max_mv_magnitude ((max (|mv.row|) (|mv.col|)) >>> (3 : Nat))) := by
  unfold cpi_after
  cases h : cpi.auto_mv_step_size
  · simp [h]
  · simp only [if_true, shr_three, true_and]
    refine ⟨le_max_right _ _, fun hf => absurd hf (by decide), fun _ => max_comm _ _⟩

/-- C22. `vp10_encode_mv` ends (returning, or past the `assert(0)` of a zero difference in a
block that is not compound) with an encoder state that differs from the one it was given at
most in `max_mv_magnitude`: the field `auto_mv_step_size` is the same and `max_mv_magnitude`
is not smaller. With `auto_mv_step_size` disabled the state is unchanged. With it enabled and
the vector written (the call does not stop after the zero flag), `max_mv_magnitude` is
`max(old, max(|mv.row|, |mv.col|) >> 3)`, computed from `mv` and not from `mv - ref`. A call
that stops after the zero flag leaves the state unchanged. The probability context `mvctx` is
an argument that is only read: the result of the call holds the bit sink and the encoder
state, and no context. -/
theorem encode_mv_state_effect (cfg : Coder) (cpi : VP10_COMP) (w : vp10_writer) (mv ref : MV)
    (is_compound : Bool) (mvctx : nmv_context) (usehp : Bool) :
    ∃ (w1 : vp10_writer) (cpi1 : VP10_COMP),
      (vp10_encode_mv cfg cpi w mv ref is_compound mvctx usehp = Outcome.returned (w1, cpi1) ∨
        vp10_encode_mv cfg cpi w mv ref is_compound mvctx usehp
          = Outcome.assert_failed (w1, cpi1)) ∧
      cpi1.auto_mv_step_size = cpi.auto_mv_step_size ∧
      cpi.max_mv_magnitude ≤ cpi1.max_mv_magnitude ∧
      (cpi.auto_mv_step_size = false → cpi1 = cpi) ∧
      (cpi.auto_mv_step_size = true → ¬ zero_flag_only cfg mv ref is_compound →
        cpi1.max_mv_magnitude
          = max cpi.max_mv_magnitude ((max (|mv.row|) (|mv.col|)) >>> (3 : Nat))) ∧
      (zero_flag_only cfg mv ref is_compound → cpi1 = cpi) := by
  obtain ⟨f1, f2, f3, f4⟩ := cpi_after_facts cpi mv
  cases hcfg : (cfg.CONFIG_REF_MV && !cfg.CONFIG_EXT_INTER)
  · refine ⟨_, _, Or.inl (encode_mv_plain cfg cpi w mv ref is_compound mvctx usehp hcfg),
      f1, f2, f3, fun h _ => f4 h, fun hz => ?_⟩
    rw [zero_flag_only, hcfg] at hz
    exact absurd hz.1 (by decide)
  · by_cases hz : mv.row - ref.row = 0 ∧ mv.col - ref.col = 0
    · have h := encode_mv_flagged_zero cfg cpi w mv ref is_compound mvctx usehp hcfg hz
      cases hcomp : is_compound
      · rw [hcomp] at h
        refine ⟨_, _, Or.inr h, f1, f2, f3, fun h _ => f4 h, fun hz => ?_⟩
        exact absurd hz.2.1 (by decide)
      · rw [hcomp] at h
        refine ⟨_, _, Or.inl h, rfl, le_refl _, fun _ => rfl, fun _ hn => ?_, fun _ => rfl⟩
        exact absurd ⟨hcfg, rfl, hz⟩ hn
    · refine ⟨_, _, Or.inl (encode_mv_flagged cfg cpi w mv ref is_compound mvctx usehp hcfg hz),
        f1, f2, f3, fun h _ => f4 h, fun hzf => ?_⟩
      exact absurd ⟨hzf.2.2.1, hzf.2.2.2⟩ hz

/-! ## The integer part of a magnitude and its raw bits -/

theorem bits_sum_nat (a n : Nat) :
    ((List.range n).map fun (i : Nat) => a / 2 ^ i % 2 * 2 ^ i).sum = a % 2 ^ n := by
  induction n with
  | zero => simp [Nat.mod_one]
  | succ n ih =>
    rw [List.range_succ, List.map_append, List.sum_append, ih, Nat.mod_pow_succ]
    simp only [List.map_cons, List.map_nil, List.sum_cons, List.sum_nil, add_zero]
    rw [mul_comm]

/-- The `n` raw bits of a value below `2 ^ n` rebuild the value. -/
theorem raw_bits_value_eq (d : Int) (n : Nat) (h0 : 0 ≤ d) (hlt : d < 2 ^ n) :
    raw_bits_value d n = d := by
  obtain ⟨a, rfl⟩ := Int.eq_ofNat_of_zero_le h0
  have ha : a < 2 ^ n := by exact_mod_cast hlt
  have hterm : ∀ i : Nat, Int.land ((a : Int) >>> i) 1 * 2 ^ i
      = ((a / 2 ^ i % 2 * 2 ^ i : Nat) : Int) := by
    intro i
    rw [shr_eq_div, land_one _ (Int.ediv_nonneg (Int.ofNat_nonneg a) (by positivity))]
    push_cast
    rfl
  unfold raw_bits_value
  simp only [hterm]
  have hsum := bits_sum_nat a n
  rw [Nat.mod_eq_of_lt ha] at hsum
  have hcast : ((List.range n).map fun (i : Nat) => ((a / 2 ^ i % 2 * 2 ^ i : Nat) : Int)).sum
      = (((List.range n).map fun (i : Nat) => a / 2 ^ i % 2 * 2 ^ i).sum : Nat) := by
    induction (List.range n) with
    | nil => rfl
    | cons x xs ih => simp only [List.map_cons, List.sum_cons, ih]; push_cast; rfl
  rw [hcast, hsum]

/-- C26. For every magnitude `v` in `1..MV_MAX`, with the class `c` and the offset `o` that
`vp10_get_mv_class(v - 1, &o)` gives and the integer part `d = o >> 3` that
`encode_mv_component` and `build_nmv_component_cost_table` compute: `d` is not negative; if
`c` is class 0 then `d < CLASS0_SIZE`, so `d` is a token of the class-0 tree and an index of
`class0_fp`; otherwise `c` is one of the classes 1 to 10, the number of raw bits
`n = c + CLASS0_BITS - 1` is at least 1 and at most `MV_OFFSET_BITS`, `d < 2 ^ n`, and the
`n` raw bits `(d >> i) & 1`, `i < n`, rebuild `d` exactly. -/
theorem integer_part_representable (v : Int) (h1 : 1 ≤ v) (hmax : v ≤ MV_MAX) :
    0 ≤ (vp10_get_mv_class (v - 1)).2 >>> (3 : Nat) ∧
    ((vp10_get_mv_class (v - 1)).1 = MV_CLASS_0 →
      (vp10_get_mv_class (v - 1)).2 >>> (3 : Nat) < CLASS0_SIZE) ∧
    ((vp10_get_mv_class (v - 1)).1 ≠ MV_CLASS_0 →
      1 ≤ (vp10_get_mv_class (v - 1)).1 ∧ (vp10_get_mv_class (v - 1)).1 < MV_CLASSES ∧
      1 ≤ (vp10_get_mv_class (v - 1)).1 + CLASS0_BITS - 1 ∧
      (vp10_get_mv_class (v - 1)).1 + CLASS0_BITS - 1 ≤ MV_OFFSET_BITS ∧
      (vp10_get_mv_class (v - 1)).2 >>> (3 : Nat)
        < 2 ^ ((vp10_get_mv_class (v - 1)).1 + CLASS0_BITS - 1).toNat ∧
      raw_bits_value ((vp10_get_mv_class (v - 1)).2 >>> (3 : Nat))
          ((vp10_get_mv_class (v - 1)).1 + CLASS0_BITS - 1).toNat
        = (vp10_get_mv_class (v - 1)).2 >>> (3 : Nat)) := by
  obtain ⟨ho, _, hcases⟩ := class_offset_facts (v - 1) (by omega) (by omega)
  have hc := get_mv_class_cases (v - 1)
  have hd0 : 0 ≤ (vp10_get_mv_class (v - 1)).2 >>> (3 : Nat) := by
    rw [shr_three]; omega
  refine ⟨hd0, fun h0 => ?_, fun hne => ?_⟩
  · rcases hcases with ⟨_, hlt⟩ | ⟨hne, _⟩
    · rw [shr_three]; exact hlt
    · exact absurd h0 hne
  · rcases hcases with ⟨h0, _⟩ | ⟨_, hn, hlt⟩
    · exact absurd h0 hne
    · have hlt' : (vp10_get_mv_class (v - 1)).2 >>> (3 : Nat)
          < 2 ^ ((vp10_get_mv_class (v - 1)).1 + CLASS0_BITS - 1).toNat := by
        rw [shr_three]; exact hlt
      have hrange : 1 ≤ (vp10_get_mv_class (v - 1)).1 ∧
          (vp10_get_mv_class (v - 1)).1 < MV_CLASSES := by
        have hM : MV_CLASSES = 11 := rfl
        have hZ : MV_CLASS_0 = 0 := rfl
        rw [hZ] at hne
        rw [hM]
        rcases hc with h | h | h | h | h | h | h | h | h | h | h <;>
          obtain ⟨e, _, _⟩ := h <;> rw [e] at hne ⊢ <;> omega
      have hB : CLASS0_BITS = 1 := rfl
      refine ⟨hrange.1, hrange.2, by rw [hB]; omega, hn, hlt', raw_bits_value_eq _ _ hd0 hlt'⟩

/-- Witness for C26: the magnitude 1000 has class 6 and offset 487, so `d = 60` and the
6 raw bits rebuild 60. -/
theorem integer_part_representable_witness :
    (1 : Int) ≤ 1000 ∧ (1000 : Int) ≤ MV_MAX ∧
    0 ≤ (vp10_get_mv_class (1000 - 1)).2 >>> (3 : Nat) ∧
    ((vp10_get_mv_class (1000 - 1)).1 = MV_CLASS_0 →
      (vp10_get_mv_class (1000 - 1)).2 >>> (3 : Nat) < CLASS0_SIZE) ∧
    ((vp10_get_mv_class (1000 - 1)).1 ≠ MV_CLASS_0 →
      1 ≤ (vp10_get_mv_class (1000 - 1)).1 ∧ (vp10_get_mv_class (1000 - 1)).1 < MV_CLASSES ∧
      1 ≤ (vp10_get_mv_class (1000 - 1)).1 + CLASS0_BITS - 1 ∧
      (vp10_get_mv_class (1000 - 1)).1 + CLASS0_BITS - 1 ≤ MV_OFFSET_BITS ∧
      (vp10_get_mv_class (1000 - 1)).2 >>> (3 : Nat)
        < 2 ^ ((vp10_get_mv_class (1000 - 1)).1 + CLASS0_BITS - 1).toNat ∧
      raw_bits_value ((vp10_get_mv_class (1000 - 1)).2 >>> (3 : Nat))
          ((vp10_get_mv_class (1000 - 1)).1 + CLASS0_BITS - 1).toNat
        = (vp10_get_mv_class (1000 - 1)).2 >>> (3 : Nat)) :=
  ⟨by decide, by decide, integer_part_representable 1000 (by decide) (by decide)⟩

end Encodemv
